import Mathlib

/-!
# Chess relay server: session store, role assignment and reconnection timers

A shallow embedding of `src/backend/server.js`.  The module-level object
`sessions` becomes an explicit association list, every `socket.on` handler a
pure function from the server state to the new state and the list of events it
emits, and `setTimeout` a list of pending callbacks that fire as events of
their own.

Modelling conventions
* connection ids (`socket.id`), session ids and display names are strings;
* `Math.random()` is an input of the join event (a dyadic fraction);
* session ids are own keys of `sessions`: ids that name a property inherited
  from `Object.prototype` are not events of the transition system (`step`),
  and neither is a leaveGame whose `playerId` the log statement of line 121
  cannot convert to text;
* the objects `sessions` inherits from are as at start-up: only a handler
  called with an inherited name writes on them, and then no state is given to
  go on from (`Outcome.wroteInherited`);
* sessions are iterated in list order, which is JavaScript's `for … in` order
  for keys that are not array indices; no statement depends on that order.

The handlers on arbitrary payloads and session ids, runtime exceptions included,
are the `…Raw` functions: they follow the source statement by statement, and
each property read, method call on a stored value and conversion to text in a
template literal can throw.  Calls into the runtime and into socket.io
(`console.log`, `JSON.stringify`, `socket.join`, `emit`) are taken to return.

The client functions the claims are about (`completeMove`, `handleMove`,
`handlePromotion`, `generateSessionId`, `handleJoin`, `getSquareNotation`) are
in the namespace `ChessClient`.
-/

namespace ChessServer

/-! ## Data model -/

/-- The two roles, the strings 'white' and 'black' of the source. -/
inductive Color where
  | white
  | black
deriving DecidableEq, Repr

/-- The other colour. -/
def Color.other : Color → Color
  | .white => .black
  | .black => .white

/-- JavaScript values as far as the server looks at them: it stores and forwards
them, tests their truthiness and, for `playerId`, converts them to text.  The
payload values of this development are the primitives, arrays of texts and
objects whose fields are texts. -/
inductive JSVal where
  | undefined
  | null
  | bool (b : Bool)
  | num (n : Int)
  | str (s : String)
  | arr (items : List String)
  | obj (fields : List (String × String))
deriving DecidableEq, Repr

/-- JavaScript truthiness (the test behind `if (x)` and `x || y`). -/
def JSVal.truthy : JSVal → Bool
  | .undefined => false
  | .null => false
  | .bool b => b
  | .num n => n != 0
  | .str s => s != ""
  | .arr _ => true
  | .obj _ => true

/-- Whether the value can be put into a template literal.  The conversion calls
the `toString` the value finds; a payload object that has a field of that name
finds the field, which is not a function, then `valueOf`, which hands back the
object, and a TypeError is thrown.  Every other value converts (an array
through `join` over its elements, which are texts). -/
def JSVal.printable : JSVal → Bool
  | .obj fields => !fields.any (fun f => f.1 == "toString")
  | _ => true

/-- A plain object used as the game snapshot: own keys in insertion order. -/
abbrev GameState := List (String × JSVal)

/-- Property read `o[k]`: `undefined` when the key is absent. -/
def GameState.get : GameState → String → JSVal
  | [], _ => .undefined
  | (k', v) :: rest, k => if k' = k then v else GameState.get rest k

/-- Property write `o[k] = v`: overwrite in place or append a new key. -/
def GameState.put : GameState → String → JSVal → GameState
  | [], k, v => [(k, v)]
  | (k', v') :: rest, k, v =>
    if k' = k then (k', v) :: rest else (k', v') :: GameState.put rest k v

/-- Object spread `{ ...a, ...b }`. -/
def GameState.spread (a b : GameState) : GameState :=
  b.foldl (fun acc kv => GameState.put acc kv.1 kv.2) a

/-- A roster entry `{ id, name, color }`. -/
structure Player where
  id : String
  name : String
  color : Color
deriving DecidableEq, Repr

/-- A session record `{ players, assignedColors, gameState }`. -/
structure Session where
  players : List Player
  assignedColors : List Color
  gameState : GameState
deriving DecidableEq, Repr

/-- The object `sessions`: session id ↦ session record. -/
abbrev Store := List (String × Session)

/-- Read `sessions[k]`. -/
def Store.get? : Store → String → Option Session
  | [], _ => none
  | (k', s) :: rest, k => if k' = k then some s else Store.get? rest k

/-- Write `sessions[k] = s`: overwrite in place or append a new key. -/
def Store.set : Store → String → Session → Store
  | [], k, s => [(k, s)]
  | (k', s') :: rest, k, s =>
    if k' = k then (k', s) :: rest else (k', s') :: Store.set rest k s

/-- The statement `delete sessions[k]`. -/
def Store.delete (m : Store) (k : String) : Store :=
  m.filter (fun e => e.1 != k)

/-! ## Outbound events -/

/-- Where an emit is addressed. -/
inductive Target where
  | socket (id : String)                      -- socket.emit(...)
  | room (name : String)                      -- io.to(name).emit(...)
  | others (sender : String) (room : String)  -- socket.to(room).emit(...)
deriving DecidableEq, Repr

/-- Event name and payload. -/
inductive Message where
  | sessionFull
  | gameState (gs : GameState)
  | playerJoined (players : List Player)
  | opponentMove (move : JSVal)
  | playerExplicitlyLeft (playerId : String) (winner : String) (reason : String)
  | playerTemporarilyDisconnected (playerId : JSVal)
deriving DecidableEq, Repr

/-- One emitted event. -/
structure Emit where
  target : Target
  msg : Message
deriving DecidableEq, Repr

/-- The value returned by `Math.random()`, the fraction `num / 2 ^ exp`. -/
structure Draw where
  num : Nat
  exp : Nat
deriving DecidableEq, Repr

/-- The test `Math.random() < 0.5`. -/
def Draw.belowHalf (d : Draw) : Bool :=
  decide (2 * d.num < 2 ^ d.exp)

/-- The server: the session store, the room memberships made by `socket.join`,
the armed `setTimeout` callbacks (session id, connection id), and the
connections that have dropped. -/
structure State where
  sessions : Store
  rooms : List (String × String)
  timers : List (String × String)
  closed : List String
deriving DecidableEq, Repr

/-- The server right after start-up. -/
def State.init : State :=
  { sessions := [], rooms := [], timers := [], closed := [] }

/-! ## Helpers of the source -/

/-- The helper `getGameState(sessionId)`: `session?.gameState || {}`. -/
def getGameState (sessions : Store) (sessionId : String) : GameState :=
  match sessions.get? sessionId with
  | some session => session.gameState
  | none => []

/-- The helper `updateGameState(sessionId, gameState)`. -/
def updateGameState (sessions : Store) (sessionId : String) (gameState : GameState) : Store :=
  match sessions.get? sessionId with
  | some session =>
    sessions.set sessionId { session with gameState := GameState.spread session.gameState gameState }
  | none => sessions

/-- The test `currentGameState.board || currentGameState.moveHistory`. -/
def meaningful (gs : GameState) : Bool :=
  (gs.get "board").truthy || (gs.get "moveHistory").truthy

/-- The assignment `existingPlayer.id = socket.id` on the first entry that
`find(p => p.name === playerName)` returns. -/
def setIdOfFirst (playerName newId : String) : List Player → List Player
  | [] => []
  | p :: ps =>
    if p.name = playerName then { p with id := newId } :: ps
    else p :: setIdOfFirst playerName newId ps

/-- The expression `assignedColors[0] === 'white' ? 'black' : 'white'`. -/
def secondColor (assignedColors : List Color) : Color :=
  match assignedColors.head? with
  | some .white => .black
  | _ => .white

/-- The expression `Math.random() < 0.5 ? 'white' : 'black'`. -/
def firstColor (draw : Draw) : Color :=
  if draw.belowHalf then .white else .black

/-- Membership added by `socket.join(room)` (rooms are sets). -/
def joinRoom (rooms : List (String × String)) (sock room : String) : List (String × String) :=
  if (sock, room) ∈ rooms then rooms else rooms ++ [(sock, room)]

/-! ## Event handlers -/

/-- The record `{ players: [], assignedColors: [], gameState: {} }` of line 42. -/
def Session.empty : Session :=
  { players := [], assignedColors := [], gameState := [] }

/-- Lines 41-43: create the record when `sessions[sessionId]` is missing. -/
def ensureSession (sessions : Store) (sessionId : String) : Store :=
  match sessions.get? sessionId with
  | some _ => sessions
  | none => sessions.set sessionId Session.empty

/-- Lines 45-69 on the record of the session: `none` is the `sessionFull`
return; otherwise the record after the rejoin (same name found) or after the
new player was pushed with its colour. -/
def joinRecord (session : Session) (sock playerName : String) (draw : Draw) : Option Session :=
  if session.players.any (fun p => decide (p.name = playerName)) then
    some { session with players := setIdOfFirst playerName sock session.players }
  else if session.players.length ≥ 2 then
    none
  else if session.players.length = 0 then
    let color := firstColor draw
    some { session with
      players := session.players ++ [{ id := sock, name := playerName, color := color }],
      assignedColors := [color] }
  else
    let color := secondColor session.assignedColors
    some { session with
      players := session.players ++ [{ id := sock, name := playerName, color := color }],
      assignedColors := session.assignedColors ++ [color] }

/-- The handler `socket.on('joinSession', ...)` (lines 40-87). -/
def onJoinSession (st : State) (sock sessionId playerName : String) (draw : Draw) :
    State × List Emit :=
  let sessions0 := ensureSession st.sessions sessionId
  let session0 := (sessions0.get? sessionId).getD Session.empty
  match joinRecord session0 sock playerName draw with
  | none => ({ st with sessions := sessions0 }, [{ target := .socket sock, msg := .sessionFull }])
  | some session1 =>
    let sessions1 := sessions0.set sessionId session1
    let currentGameState := getGameState sessions1 sessionId
    let push : List Emit :=
      if meaningful currentGameState then
        [{ target := .socket sock, msg := .gameState currentGameState }]
      else []
    ({ st with sessions := sessions1, rooms := joinRoom st.rooms sock sessionId },
      push ++ [{ target := .room sessionId, msg := .playerJoined session1.players }])

/-- The handler `socket.on('move', ...)` (lines 90-103): the six fields are read
off the client object, so a field it lacks is written as `undefined`. -/
def onMove (st : State) (sock sessionId : String) (move : JSVal) (clientGameState : GameState) :
    State × List Emit :=
  let fields : GameState :=
    [("board", clientGameState.get "board"),
     ("moveHistory", clientGameState.get "moveHistory"),
     ("currentTurn", clientGameState.get "currentTurn"),
     ("gameOver", clientGameState.get "gameOver"),
     ("winner", clientGameState.get "winner"),
     ("drawReason", clientGameState.get "drawReason")]
  ({ st with sessions := updateGameState st.sessions sessionId fields },
    [{ target := .others sock sessionId, msg := .opponentMove move }])

/-- The handler `socket.on('updateGameState', ...)` (lines 106-108). -/
def onUpdateGameState (st : State) (sessionId : String) (gameState : GameState) :
    State × List Emit :=
  ({ st with sessions := updateGameState st.sessions sessionId gameState }, [])

/-- The handler `socket.on('requestGameState', ...)` (lines 111-117). -/
def onRequestGameState (st : State) (sock sessionId : String) : State × List Emit :=
  let currentGameState := getGameState st.sessions sessionId
  (st, if meaningful currentGameState then
         [{ target := .socket sock, msg := .gameState currentGameState }]
       else [])

/-- The body that `leaveGame` (lines 122-150) and the timer callback (lines
166-194) share word for word, up to the reason text: find the player whose id
is the connection, filter that id out of the roster, tell `players[0]` of the
rest that it won, and delete the session when nobody is left. -/
def removeConnection (sessions : Store) (sessionId sock reason : String) : Store × List Emit :=
  match sessions.get? sessionId with
  | none => (sessions, [])
  | some session =>
    match session.players.find? (fun p => decide (p.id = sock)) with
    | none => (sessions, [])
    | some leavingPlayer =>
      let players1 := session.players.filter (fun p => decide (p.id ≠ sock))
      let sessions1 := sessions.set sessionId { session with players := players1 }
      let notice : List Emit :=
        match players1.head? with
        | some remainingPlayer =>
          [{ target := .room remainingPlayer.id,
             msg := .playerExplicitlyLeft leavingPlayer.id remainingPlayer.name reason }]
        | none => []
      (if players1.length = 0 then sessions1.delete sessionId else sessions1, notice)

/-- Lines 122-150 of the handler `socket.on('leaveGame', ...)`, for a session id
that is an own key of `sessions` or no property of it at all.  The statement
before them (line 121, which converts `playerId` to text and can throw) and the
names `sessions` inherits are in `leaveGameRaw`. -/
def onLeaveGame (st : State) (sock sessionId : String) (_playerId : JSVal) : State × List Emit :=
  let r := removeConnection st.sessions sessionId sock "Opponent left the game"
  ({ st with sessions := r.1 }, r.2)

/-- The callback given to `setTimeout` (lines 165-195), for the session id and
connection id it closed over. -/
def onTimeout (st : State) (sessionId sock : String) : State × List Emit :=
  let r := removeConnection st.sessions sessionId sock "Opponent disconnected and did not reconnect"
  ({ st with sessions := r.1 }, r.2)

/-- The handler `socket.on('disconnect', ...)` (lines 154-201): for each session
whose roster has the connection, arm a timer and notify the rest of the room;
`player.playerId` is a field no roster entry has, so the payload carries
`undefined`.  The dropped connection leaves its rooms (socket.io does that
before the handler runs) and is recorded as closed. -/
def onDisconnect (st : State) (sock : String) : State × List Emit :=
  let hit := st.sessions.filter (fun e => e.2.players.any (fun p => decide (p.id = sock)))
  ({ st with
      rooms := st.rooms.filter (fun m => m.1 != sock),
      timers := st.timers ++ hit.map (fun e => (e.1, sock)),
      closed := sock :: st.closed },
    hit.map (fun e =>
      { target := .others sock e.1, msg := .playerTemporarilyDisconnected .undefined }))

/-! ## Transition system -/

/-- What the server can receive: the five client events with the sending
connection, a connection drop, and the expiry of an armed timer. -/
inductive Event where
  | joinSession (sock sessionId playerName : String) (draw : Draw)
  | move (sock sessionId : String) (move : JSVal) (gameState : GameState)
  | updateGameState (sock sessionId : String) (gameState : GameState)
  | requestGameState (sock sessionId : String)
  | leaveGame (sock sessionId : String) (playerId : JSVal)
  | disconnect (sock : String)
  | timeout (sessionId sock : String)
deriving DecidableEq, Repr

/-- Property names every plain object inherits from `Object.prototype`. -/
def inheritedKeys : List String :=
  ["__proto__", "constructor", "hasOwnProperty", "isPrototypeOf", "propertyIsEnumerable",
   "toLocaleString", "toString", "valueOf", "__defineGetter__", "__defineSetter__",
   "__lookupGetter__", "__lookupSetter__"]

/-- A client event can arrive: its connection has not dropped and its session
id names no inherited property. -/
def clientOk (st : State) (sock sessionId : String) : Bool :=
  decide (sock ∉ st.closed) && decide (sessionId ∉ inheritedKeys)

/-- One event.  `none` when the event cannot occur in this state (a message
from, or a second drop of, a connection that has dropped, as socket.io gives
every connection a fresh id; the expiry of a timer that is not armed) or when
its handler does not run to its end (see `clientOk` and `JSVal.printable`). -/
def step (st : State) : Event → Option (State × List Emit)
  | .joinSession sock sessionId playerName draw =>
    if clientOk st sock sessionId then some (onJoinSession st sock sessionId playerName draw)
    else none
  | .move sock sessionId move gameState =>
    if clientOk st sock sessionId then some (onMove st sock sessionId move gameState) else none
  | .updateGameState sock sessionId gameState =>
    if clientOk st sock sessionId then some (onUpdateGameState st sessionId gameState) else none
  | .requestGameState sock sessionId =>
    if clientOk st sock sessionId then some (onRequestGameState st sock sessionId) else none
  | .leaveGame sock sessionId playerId =>
    if clientOk st sock sessionId && playerId.printable then
      some (onLeaveGame st sock sessionId playerId)
    else none
  | .disconnect sock =>
    if sock ∈ st.closed then none else some (onDisconnect st sock)
  | .timeout sessionId sock =>
    if (sessionId, sock) ∈ st.timers then
      some (onTimeout { st with timers := st.timers.erase (sessionId, sock) } sessionId sock)
    else none

/-- A sequence of events from a state: the final state and everything emitted,
in order. -/
def run (st : State) : List Event → Option (State × List Emit)
  | [] => some (st, [])
  | e :: es =>
    match step st e with
    | none => none
    | some (st1, out1) =>
      match run st1 es with
      | none => none
      | some (st2, out2) => some (st2, out1 ++ out2)

/-- ASCII lower-casing, for comparing texts up to letter case. -/
def lowerAscii (s : String) : String :=
  String.mk (s.data.map Char.toLower)

/-! ## Invariant of the reachable states -/

/-- A well-formed session record: somebody is in the roster, at most two
entries, and no display name twice. -/
def Session.ok (s : Session) : Prop :=
  s.players ≠ [] ∧ s.players.length ≤ 2 ∧ (s.players.map Player.name).Nodup

/-- Every stored session is well formed. -/
def State.ok (st : State) : Prop :=
  ∀ e ∈ st.sessions, e.2.ok

/-! ## Notions used to state the claims -/

/-- Events that are neither a join, a leave nor a timer expiry on session `sid`. -/
def quiet (sid : String) : Event → Bool
  | .joinSession _ s _ _ => s != sid
  | .leaveGame _ s _ => s != sid
  | .timeout s _ => s != sid
  | _ => true

/-- The part of a stored session that fixes the roles: roster and colours. -/
def rosterOf (m : Store) (sid : String) : Option (List Player × List Color) :=
  (m.get? sid).map (fun s => (s.players, s.assignedColors))

/-- The role that display name `name` holds in session `sid`, if it is in the
roster. -/
def roleOf (m : Store) (sid name : String) : Option Color :=
  (rosterOf m sid).bind
    (fun r => (r.1.find? (fun p => decide (p.name = name))).map Player.color)

/-- Display name `name` is in the roster of `sid` after every event of the run. -/
def staysIn (sid name : String) (st : State) : List Event → Bool
  | [] => true
  | e :: es =>
    match step st e with
    | none => true
    | some (st1, _) => (roleOf st1.sessions sid name).isSome && staysIn sid name st1 es

/-- No roster entry of session `sid` holds connection id `c`. -/
def NoConn (c sid : String) (m : Store) : Prop :=
  ∀ r, rosterOf m sid = some r → ∀ p ∈ r.1, p.id ≠ c

/-- Every roster entry of session `sid` that holds connection id `c` has display
name `n`. -/
def HeldBy (c n sid : String) (m : Store) : Prop :=
  ∀ r, rosterOf m sid = some r → ∀ p ∈ r.1, p.id = c → p.name = n

/-! ## Sample executions -/

/-- Alice and Bob fill session ABC123, then Carol is turned away. -/
def threeJoins : List Event :=
  [.joinSession "c1" "ABC123" "Alice" ⟨1, 2⟩, .joinSession "c2" "ABC123" "Bob" ⟨0, 0⟩,
   .joinSession "c3" "ABC123" "Carol" ⟨0, 0⟩]

/-- The state after `threeJoins`. -/
def afterThreeJoins : State :=
  { sessions :=
      [("ABC123",
        { players := [⟨"c1", "Alice", .white⟩, ⟨"c2", "Bob", .black⟩],
          assignedColors := [.white, .black], gameState := [] })],
    rooms := [("c1", "ABC123"), ("c2", "ABC123")], timers := [], closed := [] }

/-- What `threeJoins` emits. -/
def threeJoinsOut : List Emit :=
  [⟨.room "ABC123", .playerJoined [⟨"c1", "Alice", .white⟩]⟩,
   ⟨.room "ABC123", .playerJoined [⟨"c1", "Alice", .white⟩, ⟨"c2", "Bob", .black⟩]⟩,
   ⟨.socket "c3", .sessionFull⟩]

/-- Two sessions; Alice leaves hers, Bob drops and his timer expires while
Dana stays in the second session. -/
def leaveAndExpire : List Event :=
  [.joinSession "c1" "ABC123" "Alice" ⟨1, 2⟩, .joinSession "c2" "XYZ789" "Bob" ⟨1, 1⟩,
   .joinSession "c4" "XYZ789" "Dana" ⟨0, 0⟩, .leaveGame "c1" "ABC123" .undefined,
   .disconnect "c2", .timeout "XYZ789" "c2"]

/-- The state after `leaveAndExpire`. -/
def afterLeaveAndExpire : State :=
  { sessions :=
      [("XYZ789",
        { players := [⟨"c4", "Dana", .white⟩], assignedColors := [.black, .white],
          gameState := [] })],
    rooms := [("c1", "ABC123"), ("c4", "XYZ789")], timers := [], closed := ["c2"] }

/-- What `leaveAndExpire` emits. -/
def leaveAndExpireOut : List Emit :=
  [⟨.room "ABC123", .playerJoined [⟨"c1", "Alice", .white⟩]⟩,
   ⟨.room "XYZ789", .playerJoined [⟨"c2", "Bob", .black⟩]⟩,
   ⟨.room "XYZ789", .playerJoined [⟨"c2", "Bob", .black⟩, ⟨"c4", "Dana", .white⟩]⟩,
   ⟨.others "c2" "XYZ789", .playerTemporarilyDisconnected .undefined⟩,
   ⟨.room "c4", .playerExplicitlyLeft "c2" "Dana" "Opponent disconnected and did not reconnect"⟩]

/-- Alice and Bob share session ABC123 and Bob's connection drops. -/
def bobDrops : List Event :=
  [.joinSession "c1" "ABC123" "Alice" ⟨1, 2⟩, .joinSession "c2" "ABC123" "Bob" ⟨0, 0⟩,
   .disconnect "c2"]

/-- The state after `bobDrops`. -/
def afterBobDrops : State :=
  { sessions :=
      [("ABC123",
        { players := [⟨"c1", "Alice", .white⟩, ⟨"c2", "Bob", .black⟩],
          assignedColors := [.white, .black], gameState := [] })],
    rooms := [("c1", "ABC123")], timers := [("ABC123", "c2")], closed := ["c2"] }

/-- What `bobDrops` emits. -/
def bobDropsOut : List Emit :=
  [⟨.room "ABC123", .playerJoined [⟨"c1", "Alice", .white⟩]⟩,
   ⟨.room "ABC123", .playerJoined [⟨"c1", "Alice", .white⟩, ⟨"c2", "Bob", .black⟩]⟩,
   ⟨.others "c2" "ABC123", .playerTemporarilyDisconnected .undefined⟩]

/-- Alice draws white, Bob joins, Alice leaves, and Carol takes the free seat. -/
def carolTakesSeat : List Event :=
  [.joinSession "c1" "ABC123" "Alice" ⟨1, 2⟩, .joinSession "c2" "ABC123" "Bob" ⟨0, 0⟩,
   .leaveGame "c1" "ABC123" .undefined, .joinSession "c3" "ABC123" "Carol" ⟨1, 2⟩]

/-- The store after `carolTakesSeat`. -/
def afterCarolTakesSeat : Store :=
  [("ABC123",
    { players := [⟨"c2", "Bob", .black⟩, ⟨"c3", "Carol", .black⟩],
      assignedColors := [.white, .black, .black], gameState := [] })]

/-- Alice has left session ABC123 and Bob has stayed. -/
def afterAliceLeft : State :=
  { sessions :=
      [("ABC123",
        { players := [⟨"c2", "Bob", .black⟩],
          assignedColors := [.white, .black], gameState := [] })],
    rooms := [("c1", "ABC123"), ("c2", "ABC123")], timers := [], closed := [] }

/-- Alice is back in session ABC123. -/
def afterAliceBack : State :=
  { sessions :=
      [("ABC123",
        { players := [⟨"c2", "Bob", .black⟩, ⟨"c1", "Alice", .black⟩],
          assignedColors := [.white, .black, .black], gameState := [] })],
    rooms := [("c1", "ABC123"), ("c2", "ABC123")], timers := [], closed := [] }

/-- Connection c1 joins as Alice and as Bob and drops; Alice comes back on
connection c2. -/
def sharedConnection : List Event :=
  [.joinSession "c1" "ABC123" "Alice" ⟨1, 2⟩, .joinSession "c1" "ABC123" "Bob" ⟨0, 0⟩,
   .disconnect "c1", .joinSession "c2" "ABC123" "Alice" ⟨1, 2⟩]

/-- The state after `sharedConnection`, with the timer of c1 still armed. -/
def afterSharedConnection : State :=
  { sessions :=
      [("ABC123",
        { players := [⟨"c2", "Alice", .white⟩, ⟨"c1", "Bob", .black⟩],
          assignedColors := [.white, .black], gameState := [] })],
    rooms := [("c2", "ABC123")], timers := [("ABC123", "c1")], closed := ["c1"] }

/-- The record of session ABC123 once Alice (white) and Bob (black) are in. -/
def aliceAndBob : Session :=
  { players := [⟨"c1", "Alice", .white⟩, ⟨"c2", "Bob", .black⟩],
    assignedColors := [.white, .black], gameState := [] }

/-- Alice asks for the snapshot and drops before Bob joins. -/
def betweenJoins : List Event :=
  [.requestGameState "c1" "ABC123", .disconnect "c1"]

/-- The state after Alice's join, `betweenJoins`, and Bob's join. -/
def afterBetweenJoins : State :=
  { sessions := [("ABC123", aliceAndBob)],
    rooms := [("c2", "ABC123")], timers := [("ABC123", "c1")], closed := ["c1"] }

/-- What that run emits. -/
def betweenJoinsOut : List Emit :=
  [⟨.room "ABC123", .playerJoined [⟨"c1", "Alice", .white⟩]⟩,
   ⟨.others "c1" "ABC123", .playerTemporarilyDisconnected .undefined⟩,
   ⟨.room "ABC123", .playerJoined aliceAndBob.players⟩]

/-- Alice is back on connection c5 after c1 dropped; the timer of c1 is armed. -/
def afterAliceReconnects : State :=
  { sessions :=
      [("ABC123",
        { players := [⟨"c5", "Alice", .white⟩, ⟨"c2", "Bob", .black⟩],
          assignedColors := [.white, .black], gameState := [] })],
    rooms := [("c2", "ABC123"), ("c5", "ABC123")], timers := [("ABC123", "c1")],
    closed := ["c1"] }

/-- What the drop of c1 and Alice's rejoin on c5 emit. -/
def aliceReconnectsOut : List Emit :=
  [⟨.others "c1" "ABC123", .playerTemporarilyDisconnected .undefined⟩,
   ⟨.room "ABC123", .playerJoined [⟨"c5", "Alice", .white⟩, ⟨"c2", "Bob", .black⟩]⟩]

/-- Bob has left after Alice reconnected. -/
def afterBobLeaves : State :=
  { sessions :=
      [("ABC123",
        { players := [⟨"c5", "Alice", .white⟩],
          assignedColors := [.white, .black], gameState := [] })],
    rooms := [("c2", "ABC123"), ("c5", "ABC123")], timers := [("ABC123", "c1")],
    closed := ["c1"] }

/-- Alice has dropped and rejoined a second time, now on c6. -/
def afterSecondReconnect : State :=
  { sessions :=
      [("ABC123",
        { players := [⟨"c6", "Alice", .white⟩, ⟨"c2", "Bob", .black⟩],
          assignedColors := [.white, .black], gameState := [] })],
    rooms := [("c2", "ABC123"), ("c6", "ABC123")],
    timers := [("ABC123", "c1"), ("ABC123", "c5")], closed := ["c5", "c1"] }

/-- What the second drop and rejoin emit. -/
def secondReconnectOut : List Emit :=
  [⟨.others "c5" "ABC123", .playerTemporarilyDisconnected .undefined⟩,
   ⟨.room "ABC123", .playerJoined [⟨"c6", "Alice", .white⟩, ⟨"c2", "Bob", .black⟩]⟩]

/-! ## Further notions: rosters, snapshots, rooms and recipients -/

/-- Events other than a joinSession on session `sid`. -/
def noJoinOn (sid : String) : Event → Bool
  | .joinSession _ s _ _ => s != sid
  | _ => true

/-- The roster stored for session `sid`; empty when there is no such session. -/
def rosterAt (m : Store) (sid : String) : List Player :=
  ((m.get? sid).map Session.players).getD []

/-- The six snapshot fields the move handler writes. -/
def moveFields : List String :=
  ["board", "moveHistory", "currentTurn", "gameOver", "winner", "drawReason"]

/-- Connection `c` is in room `room`: it is live and either joined the room with
`socket.join` or the room is the one socket.io gives it under its own id. -/
def inRoom (st : State) (room c : String) : Bool :=
  decide (c ∉ st.closed) && (decide ((c, room) ∈ st.rooms) || decide (c = room))

/-- Connection `c` is a recipient of an emit addressed to the target. -/
def receives (st : State) : Target → String → Bool
  | .socket id, c => decide (c = id)
  | .room r, c => inRoom st r c
  | .others sender r, c => inRoom st r c && decide (c ≠ sender)

/-- The join is not turned away: the name is in the roster already, or fewer
than two players are in it (none when the session does not exist). -/
def joinAccepted (st : State) (sid name : String) : Bool :=
  (rosterAt st.sessions sid).any (fun p => decide (p.name = name))
    || decide ((rosterAt st.sessions sid).length < 2)

/-! ## Further sample states -/

/-- Connection c1 holds both seats of session ABC123, as Alice and as Bob. -/
def bothSeatsOnOneConnection : State :=
  { sessions :=
      [("ABC123",
        { players := [⟨"c1", "Alice", .white⟩, ⟨"c1", "Bob", .black⟩],
          assignedColors := [.white, .black], gameState := [] })],
    rooms := [("c1", "ABC123")], timers := [], closed := [] }

/-- A snapshot as the client sends it with a move: all six fields. -/
def snapshotAfterE4 : GameState :=
  [("board", .str "fen1"), ("moveHistory", .arr ["e4"]), ("currentTurn", .str "black"),
   ("gameOver", .bool false), ("winner", .null), ("drawReason", .null)]

/-- Alice alone in session ABC123 with `snapshotAfterE4` stored. -/
def afterFirstMove : State :=
  { sessions :=
      [("ABC123",
        { players := [⟨"c1", "Alice", .white⟩], assignedColors := [.white],
          gameState := snapshotAfterE4 })],
    rooms := [("c1", "ABC123")], timers := [], closed := [] }

/-- Alice alone in session ABC123; the stored snapshot has an empty board text
and an empty move list. -/
def afterEmptySnapshot : State :=
  { sessions :=
      [("ABC123",
        { players := [⟨"c1", "Alice", .white⟩], assignedColors := [.white],
          gameState := [("board", .str ""), ("moveHistory", .arr [])] })],
    rooms := [("c1", "ABC123")], timers := [], closed := [] }

/-! ## Notions for delivery, randomness and runtime exceptions -/

/-- The draw as a rational number. -/
def Draw.value (d : Draw) : ℚ := (d.num : ℚ) / (2 : ℚ) ^ d.exp

/-- The event does not admit connection `c` to session `sid`: it is not a
joinSession of `c` for `sid`, or that join is turned away as full. -/
def admitsNot (sid c : String) (st : State) : Event → Bool
  | .joinSession sock s name _ =>
    !(decide (sock = c) && decide (s = sid) && joinAccepted st s name)
  | _ => true

/-- Along the run, connection `c` is never admitted to session `sid`. -/
def neverAdmitted (sid c : String) (st : State) : List Event → Bool
  | [] => true
  | e :: es =>
    match step st e with
    | none => true
    | some (st1, _) => admitsNot sid c st e && neverAdmitted sid c st1 es

/-- What the expression `sessions[k]` evaluates to on the plain object
`sessions`: a stored record, `undefined`, or for a name that `Object.prototype`
provides the inherited value (a function, or the prototype itself for
`__proto__`), which is truthy and at start-up has neither `players` nor
`gameState`. -/
inductive Slot where
  | undefined
  | session (s : Session)
  | inherited
deriving DecidableEq, Repr

/-- Property lookup `sessions[k]`, prototype chain included. -/
def Store.slot (m : Store) (k : String) : Slot :=
  match m.get? k with
  | some s => .session s
  | none => if k ∈ inheritedKeys then .inherited else .undefined

/-- A runtime exception: the TypeError of reading property `reading` of
`undefined`, or the TypeError of a value that cannot be converted to text. -/
inductive JSError where
  | typeError (reading : String)
  | notConvertible
deriving DecidableEq, Repr

/-- How a handler ends.  A `State` describes a server on whose inherited
objects no handler has written yet; a handler leaves that ground when line 32
assigns `gameState` on an inherited value (on `Object.prototype` itself for
`__proto__`, where every later lookup and every payload object would find it):
then only the emitted events are given, and no state to go on from. -/
inductive Outcome where
  | done (st : State) (out : List Emit)   -- ran to its end
  | threw (e : JSError)                   -- uncaught exception
  | wroteInherited (out : List Emit)      -- ran to its end, wrote on an inherited value
deriving DecidableEq, Repr

/-- The expression `session?.gameState || {}` of line 26 on what `sessions[k]`
gave. -/
def Slot.gameState : Slot → GameState
  | .session s => s.gameState
  | .undefined => []
  | .inherited => []

/-- Lines 71-86 of the joinSession handler, on the store the lines before them
left: join the room, push the snapshot when it is meaningful, broadcast the
roster read off `sessions[sessionId].players`. -/
def joinSessionTail (st : State) (sessions : Store) (sock sessionId : String) : Outcome :=
  let rooms := joinRoom st.rooms sock sessionId
  let currentGameState := (sessions.slot sessionId).gameState
  let push : List Emit :=
    if meaningful currentGameState then
      [{ target := .socket sock, msg := .gameState currentGameState }]
    else []
  match sessions.slot sessionId with
  | .undefined => .threw (.typeError "players")
  | .inherited => .threw (.typeError "map")
  | .session session =>
    .done { st with sessions := sessions, rooms := rooms }
      (push ++ [{ target := .room sessionId, msg := .playerJoined session.players }])

/-- The joinSession handler (lines 40-87) statement by statement, on any session
id.  Line 41 tests the truthiness of `sessions[sessionId]`, so for an inherited
name no record is created, and line 46 calls `.find` on the `players` the
inherited value does not have. -/
def joinSessionRaw (st : State) (sock sessionId playerName : String) (draw : Draw) : Outcome :=
  let sessions1 :=
    match st.sessions.slot sessionId with
    | .undefined => st.sessions.set sessionId Session.empty
    | _ => st.sessions
  match sessions1.slot sessionId with
  | .undefined => .threw (.typeError "players")
  | .inherited => .threw (.typeError "find")
  | .session session =>
    match session.players.find? (fun p => decide (p.name = playerName)) with
    | some _ =>
      joinSessionTail st
        (sessions1.set sessionId
          { session with players := setIdOfFirst playerName sock session.players })
        sock sessionId
    | none =>
      if session.players.length ≥ 2 then
        .done { st with sessions := sessions1 } [{ target := .socket sock, msg := .sessionFull }]
      else if session.players.length = 0 then
        let color := firstColor draw
        joinSessionTail st
          (sessions1.set sessionId
            { session with
              players := session.players ++ [{ id := sock, name := playerName, color := color }],
              assignedColors := [color] })
          sock sessionId
      else
        let color := secondColor session.assignedColors
        joinSessionTail st
          (sessions1.set sessionId
            { session with
              players := session.players ++ [{ id := sock, name := playerName, color := color }],
              assignedColors := session.assignedColors ++ [color] })
          sock sessionId

/-- The helper `updateGameState` (lines 30-34) on any session id: the guard of
line 31 passes for every truthy `sessions[sessionId]`; `none` when the
assignment of line 32 then lands on an inherited value. -/
def updateGameStateAt (sessions : Store) (sessionId : String) (gameState : GameState) :
    Option Store :=
  match sessions.slot sessionId with
  | .undefined => some sessions
  | .inherited => none
  | .session session =>
    some (sessions.set sessionId
      { session with gameState := GameState.spread session.gameState gameState })

/-- The move handler (lines 90-103) on any payload and session id.  `gameState`
is `none` when the payload has no such field (or has `null` there): the
argument of `updateGameState` is evaluated first, and reading `.board` of
`undefined` throws before anything is stored or sent.  Otherwise it is the
object the six fields are read off. -/
def moveRaw (st : State) (sock sessionId : String) (move : JSVal)
    (gameState : Option GameState) : Outcome :=
  match gameState with
  | none => .threw (.typeError "board")
  | some clientGameState =>
    let fields : GameState :=
      [("board", clientGameState.get "board"),
       ("moveHistory", clientGameState.get "moveHistory"),
       ("currentTurn", clientGameState.get "currentTurn"),
       ("gameOver", clientGameState.get "gameOver"),
       ("winner", clientGameState.get "winner"),
       ("drawReason", clientGameState.get "drawReason")]
    let out : List Emit := [{ target := .others sock sessionId, msg := .opponentMove move }]
    match updateGameStateAt st.sessions sessionId fields with
    | none => .wroteInherited out
    | some sessions1 => .done { st with sessions := sessions1 } out

/-- The updateGameState handler (lines 106-108) on any payload and session id:
spreading a missing `gameState` adds nothing. -/
def updateGameStateRaw (st : State) (sessionId : String) (gameState : Option GameState) :
    Outcome :=
  match updateGameStateAt st.sessions sessionId (gameState.getD []) with
  | none => .wroteInherited []
  | some sessions1 => .done { st with sessions := sessions1 } []

/-- The requestGameState handler (lines 111-117) on any session id. -/
def requestGameStateRaw (st : State) (sock sessionId : String) : Outcome :=
  let currentGameState := (st.sessions.slot sessionId).gameState
  .done st
    (if meaningful currentGameState then
       [{ target := .socket sock, msg := .gameState currentGameState }]
     else [])

/-- The leaveGame handler (lines 120-151) statement by statement, on any payload
and session id.  Line 121 puts `playerId` into a template literal before
anything else happens; the guard of line 122 passes for an inherited name, and
line 124 then calls `.find` on the `players` the inherited value does not
have. -/
def leaveGameRaw (st : State) (sock sessionId : String) (playerId : JSVal) : Outcome :=
  if playerId.printable then
    match st.sessions.slot sessionId with
    | .undefined => .done st []
    | .inherited => .threw (.typeError "find")
    | .session session =>
      match session.players.find? (fun p => decide (p.id = sock)) with
      | none => .done st []
      | some leavingPlayer =>
        let players1 := session.players.filter (fun p => decide (p.id ≠ sock))
        let sessions1 := st.sessions.set sessionId { session with players := players1 }
        let notice : List Emit :=
          match players1.head? with
          | some remainingPlayer =>
            [{ target := .room remainingPlayer.id,
               msg := .playerExplicitlyLeft leavingPlayer.id remainingPlayer.name
                 "Opponent left the game" }]
          | none => []
        .done
          { st with
            sessions := if players1.length = 0 then sessions1.delete sessionId else sessions1 }
          notice
  else .threw .notConvertible

/-! ## One more sample state -/

/-- Bob has left session ABC123 with leaveGame; his connection c2 is still live. -/
def afterBobLeftLive : State :=
  { sessions :=
      [("ABC123",
        { players := [⟨"c1", "Alice", .white⟩],
          assignedColors := [.white, .black], gameState := [] })],
    rooms := [("c1", "ABC123"), ("c2", "ABC123")], timers := [], closed := [] }

end ChessServer

/-! # The client: terminal fields, session ids and square notation -/

namespace ChessClient

/-! ## Terminal fields of a move (GamePage.jsx) -/

/-- The answers of the rules engine (chess.js) right after a legal move. -/
structure Oracle where
  isGameOver : Bool
  isCheckmate : Bool
  isStalemate : Bool
  isThreefoldRepetition : Bool
  isInsufficientMaterial : Bool
  isDraw : Bool
deriving DecidableEq, Repr

/-- The field `move.color`. -/
inductive Side where
  | w
  | b
deriving DecidableEq, Repr

/-- The three terminal fields; `none` is JavaScript `null`. -/
structure Terminal where
  gameOver : Bool
  winner : Option String
  drawReason : Option String
deriving DecidableEq, Repr

/-- The expression `move.color === 'w' ? 'White' : 'Black'`. -/
def winnerName : Side → String
  | .w => "White"
  | .b => "Black"

/-- Lines 268-292 of `completeMove`: the fields stored in the local game state. -/
def completeMove (chess : Oracle) (color : Side) : Terminal :=
  let isGameOver := chess.isGameOver
  let r : Option String × Option String :=
    if isGameOver then
      if chess.isCheckmate then (some (winnerName color), none)
      else if chess.isStalemate then (none, some "Stalemate")
      else if chess.isThreefoldRepetition then (none, some "Threefold Repetition")
      else if chess.isInsufficientMaterial then (none, some "Insufficient Material")
      else if chess.isDraw then (none, some "50-move rule")
      else (none, none)
    else (none, none)
  { gameOver := isGameOver, winner := r.1, drawReason := r.2 }

/-- Lines 341-346 of `handleMove`: the fields sent to the server. -/
def handleMove (chess : Oracle) (color : Side) : Terminal :=
  { gameOver := chess.isGameOver,
    winner := if chess.isCheckmate then some (winnerName color) else none,
    drawReason :=
      if chess.isStalemate then some "Stalemate"
      else if chess.isThreefoldRepetition then some "Threefold Repetition"
      else if chess.isInsufficientMaterial then some "Insufficient Material"
      else if chess.isDraw then some "50-move rule"
      else none }

/-- Lines 388-393 of `handlePromotion`: the fields sent to the server. -/
def handlePromotion (chess : Oracle) (color : Side) : Terminal :=
  { gameOver := chess.isGameOver,
    winner := if chess.isCheckmate then some (winnerName color) else none,
    drawReason :=
      if chess.isStalemate then some "Stalemate"
      else if chess.isThreefoldRepetition then some "Threefold Repetition"
      else if chess.isInsufficientMaterial then some "Insufficient Material"
      else if chess.isDraw then some "50-move rule"
      else none }

/-- Checkmate delivered by the hundredth half-move without a capture or pawn
move: chess.js answers both `isCheckmate()` and `isDraw()` with true. -/
def mateOnMoveHundred : Oracle :=
  { isGameOver := true, isCheckmate := true, isStalemate := false,
    isThreefoldRepetition := false, isInsufficientMaterial := false, isDraw := true }

/-! ## Session ids (CreateGame.jsx, JoinGame.jsx) -/

/-- A base-36 digit as `toString(36)` prints it: 0-9, then a-z. -/
def digit36 (n : Nat) : Char :=
  if n < 10 then Char.ofNat (48 + n) else Char.ofNat (87 + n)

/-- The base-36 digits of the fraction `n / d`, until the remainder is zero. -/
def fracDigits36 : Nat → Nat → Nat → List Nat
  | 0, _, _ => []
  | fuel + 1, n, d =>
    if n = 0 then [] else (36 * n / d) :: fracDigits36 fuel (36 * n % d) d

/-- The text `Math.random().toString(36)` for the draw `num / 2 ^ exp` in [0,1),
given for denominators up to 2 ^ 10: such a value has at most five base-36
digits and is printed exactly.  Draws with longer expansions are left out
(`none`). -/
def toString36 (num exp : Nat) : Option (List Char) :=
  if exp ≤ 10 ∧ num < 2 ^ exp then
    if num = 0 then some ['0']
    else some ('0' :: '.' :: (fracDigits36 5 num (2 ^ exp)).map digit36)
  else none

/-- The method `substring(start, end)` for `start ≤ end`. -/
def substring (s : List Char) (start stop : Nat) : List Char :=
  (s.drop start).take (stop - start)

/-- `generateSessionId` (CreateGame.jsx line 10) on the text that
`Math.random().toString(36)` printed. -/
def generateSessionId (printed : List Char) : List Char :=
  (substring printed 2 8).map Char.toUpper

/-- What `handleJoin` does. -/
inductive JoinOutcome where
  | nameMissing
  | badSessionId
  | joined
deriving DecidableEq, Repr

/-- `handleJoin` (JoinGame.jsx lines 13-24); `nameBlank` is the value of
`!playerName.trim()`. -/
def handleJoin (nameBlank : Bool) (sessionId : List Char) : JoinOutcome :=
  if nameBlank then .nameMissing
  else if sessionId.length ≠ 6 then .badSessionId
  else .joined

/-! ## Square notation (GamePage.jsx, ChessBoard.jsx) -/

/-- The array `files`. -/
def files : List Char := ['a', 'b', 'c', 'd', 'e', 'f', 'g', 'h']

/-- The array `ranks`. -/
def ranks : List Char := ['8', '7', '6', '5', '4', '3', '2', '1']

/-- JavaScript `x + y` for two array reads, each a one-character string or
`undefined`: concatenation, with `undefined` printed as text next to a string,
and `NaN` for two `undefined`. -/
def addReads : Option Char → Option Char → String
  | some a, some b => String.mk [a, b]
  | some a, none => String.mk (a :: "undefined".data)
  | none, some b => String.mk ("undefined".data ++ [b])
  | none, none => "NaN"

/-- The function `getSquareNotation` of GamePage.jsx (lines 239-243). -/
def GamePage.getSquareNotation (row col : Nat) : String :=
  addReads (files.get? col) (ranks.get? row)

/-- The function `getSquareNotation` of ChessBoard.jsx (lines 48-52). -/
def ChessBoard.getSquareNotation (row col : Nat) : String :=
  addReads (files.get? col) (ranks.get? row)

/-- The method `indexOf` on an array of one-character strings, for the result
of a string read `s[i]` (`undefined` past the end): -1 when absent. -/
def indexOf (l : List Char) : Option Char → Int
  | none => -1
  | some c => if c ∈ l then (l.indexOf c : Int) else -1

/-- The parse of ChessBoard.jsx (lines 102-106): `(ranks.indexOf(to[1]),
files.indexOf(to[0]))`, row first. -/
def parseSquare (square : String) : Int × Int :=
  (indexOf ranks (square.data.get? 1), indexOf files (square.data.get? 0))

end ChessClient

namespace ChessServer

/-! ## The store as a finite map -/

theorem Store.get?_set_self (m : Store) (k : String) (s : Session) :
    (m.set k s).get? k = some s := by
  induction m with
  | nil => simp [Store.set, Store.get?]
  | cons e rest ih =>
    obtain ⟨k', s'⟩ := e
    by_cases h : k' = k
    · simp [Store.set, Store.get?, h]
    · simp [Store.set, Store.get?, h, ih]

theorem Store.get?_set_of_ne (m : Store) (k k' : String) (s : Session) (h : k' ≠ k) :
    (m.set k s).get? k' = m.get? k' := by
  induction m with
  | nil => simp [Store.set, Store.get?, Ne.symm h]
  | cons e rest ih =>
    obtain ⟨k₀, s₀⟩ := e
    by_cases h₀ : k₀ = k
    · subst h₀
      simp [Store.set, Store.get?, Ne.symm h]
    · by_cases h₁ : k₀ = k'
      · subst h₁
        simp [Store.set, Store.get?, h₀]
      · simp [Store.set, Store.get?, h₀, h₁, ih]

theorem Store.get?_delete_self (m : Store) (k : String) : (m.delete k).get? k = none := by
  induction m with
  | nil => simp [Store.delete, Store.get?]
  | cons e rest ih =>
    obtain ⟨k₀, s₀⟩ := e
    by_cases h₀ : k₀ = k
    · simpa [Store.delete, h₀] using ih
    · simpa [Store.delete, h₀, Store.get?] using ih

theorem Store.get?_delete_of_ne (m : Store) (k k' : String) (h : k' ≠ k) :
    (m.delete k).get? k' = m.get? k' := by
  induction m with
  | nil => simp [Store.delete, Store.get?]
  | cons e rest ih =>
    obtain ⟨k₀, s₀⟩ := e
    by_cases h₀ : k₀ = k
    · subst h₀
      simpa [Store.delete, Store.get?, Ne.symm h] using ih
    · by_cases h₁ : k₀ = k'
      · subst h₁
        simp [Store.delete, Store.get?, h₀]
      · simpa [Store.delete, Store.get?, h₀, h₁] using ih

theorem Store.mem_set (m : Store) (k : String) (s : Session) (e : String × Session)
    (h : e ∈ m.set k s) : e = (k, s) ∨ e ∈ m := by
  induction m with
  | nil => simpa [Store.set] using h
  | cons e₀ rest ih =>
    obtain ⟨k₀, s₀⟩ := e₀
    by_cases h₀ : k₀ = k
    · subst h₀
      simp only [Store.set, if_true, List.mem_cons] at h
      rcases h with h | h
      · exact Or.inl h
      · exact Or.inr (List.mem_cons_of_mem _ h)
    · simp only [Store.set, h₀, if_false, List.mem_cons] at h
      rcases h with h | h
      · exact Or.inr (h ▸ List.mem_cons_self _ _)
      · rcases ih h with h | h
        · exact Or.inl h
        · exact Or.inr (List.mem_cons_of_mem _ h)

theorem Store.mem_delete (m : Store) (k : String) (e : String × Session)
    (h : e ∈ m.delete k) : e ∈ m ∧ e.1 ≠ k := by
  simpa [Store.delete] using h

theorem Store.mem_of_get? (m : Store) (k : String) (s : Session) (h : m.get? k = some s) :
    (k, s) ∈ m := by
  induction m with
  | nil => simp [Store.get?] at h
  | cons e rest ih =>
    obtain ⟨k₀, s₀⟩ := e
    by_cases h₀ : k₀ = k
    · subst h₀
      simp [Store.get?] at h
      simp [h]
    · simp [Store.get?, h₀] at h
      exact List.mem_cons_of_mem _ (ih h)

theorem Store.set_of_get? (m : Store) (k : String) (s : Session) (h : m.get? k = some s) :
    m.set k s = m := by
  induction m with
  | nil => simp [Store.get?] at h
  | cons e rest ih =>
    obtain ⟨k₀, s₀⟩ := e
    by_cases h₀ : k₀ = k
    · subst h₀
      simp [Store.get?] at h
      simp [Store.set, h]
    · simp [Store.get?, h₀] at h
      simp [Store.set, h₀, ih h]

/-! ## Lemmas on the handlers and on runs -/

theorem length_setIdOfFirst (n c : String) (l : List Player) :
    (setIdOfFirst n c l).length = l.length := by
  induction l with
  | nil => rfl
  | cons p ps ih =>
    by_cases h : p.name = n <;> simp [setIdOfFirst, h, ih]

theorem map_name_setIdOfFirst (n c : String) (l : List Player) :
    (setIdOfFirst n c l).map Player.name = l.map Player.name := by
  induction l with
  | nil => rfl
  | cons p ps ih =>
    by_cases h : p.name = n <;> simp [setIdOfFirst, h, ih]

theorem map_color_setIdOfFirst (n c : String) (l : List Player) :
    (setIdOfFirst n c l).map Player.color = l.map Player.color := by
  induction l with
  | nil => rfl
  | cons p ps ih =>
    by_cases h : p.name = n <;> simp [setIdOfFirst, h, ih]

theorem joinRecord_empty_ne_none (sock name : String) (draw : Draw) :
    joinRecord Session.empty sock name draw ≠ none := by
  simp [joinRecord, Session.empty]

theorem joinRecord_ok (s s' : Session) (sock name : String) (draw : Draw)
    (hs : s.ok ∨ s.players = []) (h : joinRecord s sock name draw = some s') : s'.ok := by
  unfold joinRecord at h
  split at h
  · -- rejoin
    rename_i hany
    injection h with h
    subst h
    rcases hs with hs | hs
    · refine ⟨?_, ?_, ?_⟩
      · intro hnil
        have := congrArg List.length hnil
        simp only [length_setIdOfFirst, List.length_nil] at this
        exact hs.1 (List.length_eq_zero.mp this)
      · simpa [length_setIdOfFirst] using hs.2.1
      · simpa [map_name_setIdOfFirst] using hs.2.2
    · simp [hs] at hany
  · rename_i hany
    split at h
    · exact absurd h (by simp)
    · rename_i hlen
      have hnot : name ∉ s.players.map Player.name := by
        intro hmem
        apply hany
        rcases List.mem_map.mp hmem with ⟨p, hp, hpn⟩
        exact List.any_eq_true.mpr ⟨p, hp, by simp [hpn]⟩
      have hnd : (s.players.map Player.name).Nodup := by
        rcases hs with hs | hs
        · exact hs.2.2
        · simp [hs]
      split at h <;> injection h with h <;> subst h
      all_goals
        refine ⟨by simp, by simp; omega, ?_⟩
        simp only [List.map_append, List.map_cons, List.map_nil]
        exact List.Nodup.append hnd (List.nodup_singleton _) (by simpa using hnot)


theorem ensureSession_get? (m : Store) (k : String) :
    (ensureSession m k).get? k = some ((m.get? k).getD Session.empty) := by
  unfold ensureSession
  cases h : m.get? k with
  | none => simp [Store.get?_set_self]
  | some s => simp [h]

theorem ensureSession_of_get? (m : Store) (k : String) (s : Session) (h : m.get? k = some s) :
    ensureSession m k = m := by
  simp [ensureSession, h]

theorem Store.set_set (m : Store) (k : String) (a b : Session) :
    (m.set k a).set k b = m.set k b := by
  induction m with
  | nil => simp [Store.set]
  | cons e rest ih =>
    obtain ⟨k₀, s₀⟩ := e
    by_cases h₀ : k₀ = k
    · subst h₀
      simp [Store.set]
    · simp [Store.set, h₀, ih]

theorem onJoinSession_ok (st : State) (sock sid name : String) (draw : Draw) (h : st.ok) :
    (onJoinSession st sock sid name draw).1.ok := by
  unfold onJoinSession
  simp only [ensureSession_get?, Option.getD_some]
  cases hk : st.sessions.get? sid with
  | none =>
    simp only [Option.getD_none]
    cases hj : joinRecord Session.empty sock name draw with
    | none => exact absurd hj (joinRecord_empty_ne_none _ _ _)
    | some s1 =>
      intro e he
      simp only [ensureSession, hk, Store.set_set] at he
      rcases Store.mem_set _ _ _ _ he with he | he
      · subst he
        exact joinRecord_ok _ _ _ _ _ (Or.inr rfl) hj
      · exact h e he
  | some s0 =>
    simp only [Option.getD_some, ensureSession_of_get? _ _ _ hk]
    have hs0 : s0.ok := h _ (Store.mem_of_get? _ _ _ hk)
    cases hj : joinRecord s0 sock name draw with
    | none => exact h
    | some s1 =>
      intro e he
      rcases Store.mem_set _ _ _ _ he with he | he
      · subst he
        exact joinRecord_ok _ _ _ _ _ (Or.inl hs0) hj
      · exact h e he


theorem updateGameState_ok (m : Store) (sid : String) (gs : GameState)
    (h : ∀ e ∈ m, e.2.ok) : ∀ e ∈ updateGameState m sid gs, e.2.ok := by
  unfold updateGameState
  cases hk : m.get? sid with
  | none => exact h
  | some s0 =>
    intro e he
    have hs0 : s0.ok := h _ (Store.mem_of_get? _ _ _ hk)
    rcases Store.mem_set _ _ _ _ he with he | he
    · subst he
      exact hs0
    · exact h e he

theorem removeConnection_ok (m : Store) (sid sock reason : String)
    (h : ∀ e ∈ m, e.2.ok) : ∀ e ∈ (removeConnection m sid sock reason).1, e.2.ok := by
  cases hk : m.get? sid with
  | none => simpa [removeConnection, hk] using h
  | some s0 =>
    have hs0 : s0.ok := h _ (Store.mem_of_get? _ _ _ hk)
    cases hf : s0.players.find? (fun p => decide (p.id = sock)) with
    | none => simpa [removeConnection, hk, hf] using h
    | some lp =>
      simp only [removeConnection, hk, hf]
      split
      · intro e he
        have h1 := Store.mem_delete _ _ _ he
        rcases Store.mem_set _ _ _ _ h1.1 with h2 | h2
        · exact absurd (by rw [h2]) h1.2
        · exact h e h2
      · rename_i hlen
        intro e he
        rcases Store.mem_set _ _ _ _ he with h2 | h2
        · subst h2
          refine ⟨?_, ?_, ?_⟩
          · intro hnil
            exact hlen (by rw [show List.filter (fun p => decide (p.id ≠ sock)) s0.players = [] from hnil]; rfl)
          · exact le_trans (List.length_filter_le _ _) hs0.2.1
          · exact hs0.2.2.sublist ((List.filter_sublist _).map _)
        · exact h e h2

theorem step_ok (st st' : State) (e : Event) (out : List Emit) (h : st.ok)
    (hstep : step st e = some (st', out)) : st'.ok := by
  cases e with
  | joinSession sock sid name draw =>
    simp only [step] at hstep
    split at hstep
    · injection hstep with hstep
      rw [show st' = (st', out).1 from rfl, ← hstep]
      exact onJoinSession_ok _ _ _ _ _ h
    · exact absurd hstep (by simp)
  | move sock sid mv gs =>
    simp only [step] at hstep
    split at hstep
    · injection hstep with hstep
      rw [show st' = (st', out).1 from rfl, ← hstep]
      exact updateGameState_ok _ _ _ h
    · exact absurd hstep (by simp)
  | updateGameState sock sid gs =>
    simp only [step] at hstep
    split at hstep
    · injection hstep with hstep
      rw [show st' = (st', out).1 from rfl, ← hstep]
      exact updateGameState_ok _ _ _ h
    · exact absurd hstep (by simp)
  | requestGameState sock sid =>
    simp only [step] at hstep
    split at hstep
    · injection hstep with hstep
      rw [show st' = (st', out).1 from rfl, ← hstep]
      exact h
    · exact absurd hstep (by simp)
  | leaveGame sock sid pid =>
    simp only [step] at hstep
    split at hstep
    · injection hstep with hstep
      rw [show st' = (st', out).1 from rfl, ← hstep]
      exact removeConnection_ok _ _ _ _ h
    · exact absurd hstep (by simp)
  | disconnect sock =>
    simp only [step] at hstep
    split at hstep
    · exact absurd hstep (by simp)
    · injection hstep with hstep
      rw [show st' = (st', out).1 from rfl, ← hstep]
      exact h
  | timeout sid sock =>
    simp only [step] at hstep
    split at hstep
    · injection hstep with hstep
      rw [show st' = (st', out).1 from rfl, ← hstep]
      exact removeConnection_ok _ _ _ _ h
    · exact absurd hstep (by simp)

theorem run_induction (Inv : State → Prop)
    (hstep : ∀ st st' e out, Inv st → step st e = some (st', out) → Inv st')
    (evs : List Event) : ∀ (st st' : State) (out : List Emit),
      Inv st → run st evs = some (st', out) → Inv st' := by
  induction evs with
  | nil =>
    intro st st' out h hr
    simp only [run, Option.some.injEq, Prod.mk.injEq] at hr
    exact hr.1 ▸ h
  | cons e es ih =>
    intro st st' out h hr
    simp only [run] at hr
    cases hs : step st e with
    | none => simp [hs] at hr
    | some r =>
      obtain ⟨st1, out1⟩ := r
      simp only [hs] at hr
      cases hr2 : run st1 es with
      | none => simp [hr2] at hr
      | some r2 =>
        obtain ⟨st2, out2⟩ := r2
        simp only [hr2, Option.some.injEq, Prod.mk.injEq] at hr
        exact hr.1 ▸ ih st1 st2 out2 (hstep st st1 e out1 h hs) hr2

theorem run_ok (evs : List Event) (st : State) (out : List Emit)
    (h : run State.init evs = some (st, out)) : st.ok :=
  run_induction State.ok step_ok evs State.init st out
    (by intro e he; simp [State.init] at he) h

theorem ensureSession_get?_of_ne (m : Store) (k k' : String) (h : k' ≠ k) :
    (ensureSession m k).get? k' = m.get? k' := by
  unfold ensureSession
  cases m.get? k with
  | none => exact Store.get?_set_of_ne _ _ _ _ h
  | some s => rfl

theorem onJoinSession_get?_of_ne (st : State) (sock sid name : String) (draw : Draw)
    (k : String) (h : k ≠ sid) :
    (onJoinSession st sock sid name draw).1.sessions.get? k = st.sessions.get? k := by
  unfold onJoinSession
  simp only
  split
  · exact ensureSession_get?_of_ne _ _ _ h
  · simp only [Store.get?_set_of_ne _ _ _ _ h]
    exact ensureSession_get?_of_ne _ _ _ h

theorem removeConnection_get?_of_ne (m : Store) (sid sock reason k : String) (h : k ≠ sid) :
    (removeConnection m sid sock reason).1.get? k = m.get? k := by
  unfold removeConnection
  split
  · rfl
  · split
    · rfl
    · simp only
      split
      · rw [Store.get?_delete_of_ne _ _ _ h, Store.get?_set_of_ne _ _ _ _ h]
      · rw [Store.get?_set_of_ne _ _ _ _ h]

theorem rosterOf_updateGameState (m : Store) (sid : String) (gs : GameState) (k : String) :
    rosterOf (updateGameState m sid gs) k = rosterOf m k := by
  unfold updateGameState rosterOf
  cases hk : m.get? sid with
  | none => rfl
  | some s =>
    by_cases h : k = sid
    · subst h
      simp [Store.get?_set_self, hk]
    · simp [Store.get?_set_of_ne _ _ _ _ h]

theorem step_quiet (sid : String) (st st' : State) (e : Event) (out : List Emit)
    (hq : quiet sid e = true) (hstep : step st e = some (st', out)) :
    rosterOf st'.sessions sid = rosterOf st.sessions sid := by
  cases e with
  | joinSession sock s name draw =>
    simp only [step] at hstep
    split at hstep
    · injection hstep with hstep
      have hne : sid ≠ s := by
        intro h
        simp [quiet, h] at hq
      rw [show st' = (st', out).1 from rfl, ← hstep]
      unfold rosterOf
      rw [onJoinSession_get?_of_ne _ _ _ _ _ _ hne]
    · exact absurd hstep (by simp)
  | move sock s mv gs =>
    simp only [step] at hstep
    split at hstep
    · injection hstep with hstep
      rw [show st' = (st', out).1 from rfl, ← hstep]
      exact rosterOf_updateGameState _ _ _ _
    · exact absurd hstep (by simp)
  | updateGameState sock s gs =>
    simp only [step] at hstep
    split at hstep
    · injection hstep with hstep
      rw [show st' = (st', out).1 from rfl, ← hstep]
      exact rosterOf_updateGameState _ _ _ _
    · exact absurd hstep (by simp)
  | requestGameState sock s =>
    simp only [step] at hstep
    split at hstep
    · injection hstep with hstep
      rw [show st' = (st', out).1 from rfl, ← hstep]
      rfl
    · exact absurd hstep (by simp)
  | leaveGame sock s pid =>
    simp only [step] at hstep
    split at hstep
    · injection hstep with hstep
      have hne : sid ≠ s := by
        intro h
        simp [quiet, h] at hq
      rw [show st' = (st', out).1 from rfl, ← hstep]
      unfold rosterOf onLeaveGame
      simp only [removeConnection_get?_of_ne _ _ _ _ _ hne]
    · exact absurd hstep (by simp)
  | disconnect sock =>
    simp only [step] at hstep
    split at hstep
    · exact absurd hstep (by simp)
    · injection hstep with hstep
      rw [show st' = (st', out).1 from rfl, ← hstep]
      rfl
  | timeout s sock =>
    simp only [step] at hstep
    split at hstep
    · injection hstep with hstep
      have hne : sid ≠ s := by
        intro h
        simp [quiet, h] at hq
      rw [show st' = (st', out).1 from rfl, ← hstep]
      unfold rosterOf onTimeout
      simp only [removeConnection_get?_of_ne _ _ _ _ _ hne]
    · exact absurd hstep (by simp)

theorem run_cons (st st' : State) (e : Event) (es : List Event) (out : List Emit)
    (h : run st (e :: es) = some (st', out)) :
    ∃ st1 out1 out2, step st e = some (st1, out1) ∧ run st1 es = some (st', out2) ∧
      out = out1 ++ out2 := by
  simp only [run] at h
  cases hs : step st e with
  | none => simp [hs] at h
  | some r =>
    obtain ⟨st1, out1⟩ := r
    simp only [hs] at h
    cases hr2 : run st1 es with
    | none => simp [hr2] at h
    | some r2 =>
      obtain ⟨st2, out2⟩ := r2
      simp only [hr2, Option.some.injEq, Prod.mk.injEq] at h
      exact ⟨st1, out1, out2, rfl, h.1 ▸ hr2, h.2.symm⟩

theorem run_append (es1 es2 : List Event) : ∀ (st st' : State) (out : List Emit),
    run st (es1 ++ es2) = some (st', out) →
    ∃ st1 out1 out2, run st es1 = some (st1, out1) ∧ run st1 es2 = some (st', out2) ∧
      out = out1 ++ out2 := by
  induction es1 with
  | nil =>
    intro st st' out h
    exact ⟨st, [], out, rfl, h, rfl⟩
  | cons e es ih =>
    intro st st' out h
    obtain ⟨sa, oa, ob, hs, hr, ho⟩ := run_cons _ _ _ _ _ h
    obtain ⟨sb, oc, od, hr1, hr2, ho2⟩ := ih _ _ _ hr
    refine ⟨sb, oa ++ oc, od, ?_, hr2, ?_⟩
    · simp [run, hs, hr1]
    · rw [ho, ho2, List.append_assoc]

theorem run_quiet (sid : String) (es : List Event) : ∀ (st st' : State) (out : List Emit),
    (∀ e ∈ es, quiet sid e = true) → run st es = some (st', out) →
    rosterOf st'.sessions sid = rosterOf st.sessions sid := by
  induction es with
  | nil =>
    intro st st' out _ h
    simp only [run, Option.some.injEq, Prod.mk.injEq] at h
    rw [h.1]
  | cons e es ih =>
    intro st st' out hq h
    obtain ⟨sa, oa, ob, hs, hr, _⟩ := run_cons _ _ _ _ _ h
    rw [ih sa st' ob (fun x hx => hq x (List.mem_cons_of_mem _ hx)) hr]
    exact step_quiet sid st sa e oa (hq e (List.mem_cons_self _ _)) hs


theorem secondColor_singleton (c : Color) : secondColor [c] = c.other := by
  cases c <;> rfl

theorem setIdOfFirst_split (name c : String) (l : List Player)
    (h : name ∈ l.map Player.name) :
    ∃ pre p post, l = pre ++ p :: post ∧ p.name = name ∧ (∀ q ∈ pre, q.name ≠ name) ∧
      setIdOfFirst name c l = pre ++ { id := c, name := p.name, color := p.color } :: post := by
  induction l with
  | nil => simp at h
  | cons a as ih =>
    by_cases ha : a.name = name
    · exact ⟨[], a, as, rfl, ha, by simp, by simp [setIdOfFirst, ha]⟩
    · have h' : name ∈ as.map Player.name := by
        simp only [List.map_cons, List.mem_cons] at h
        rcases h with h | h
        · exact absurd h.symm ha
        · exact h
      obtain ⟨pre, p, post, hl, hp, hpre, hset⟩ := ih h'
      refine ⟨a :: pre, p, post, by simp [hl], hp, ?_, by simp [setIdOfFirst, ha, hset]⟩
      intro q hq
      rcases List.mem_cons.mp hq with hq | hq
      · exact hq ▸ ha
      · exact hpre q hq

theorem any_name_iff (name : String) (l : List Player) :
    l.any (fun p => decide (p.name = name)) = true ↔ name ∈ l.map Player.name := by
  simp only [List.any_eq_true, decide_eq_true_eq, List.mem_map]

theorem removeConnection_pair (m : Store) (sid c reason : String) (s : Session) (X Y : Player)
    (hs : m.get? sid = some s) (hlen : s.players.length ≤ 2)
    (hX : X ∈ s.players) (hY : Y ∈ s.players) (hXc : X.id = c) (hYc : Y.id ≠ c) :
    removeConnection m sid c reason
      = (m.set sid { s with players := [Y] },
         [{ target := .room Y.id, msg := .playerExplicitlyLeft c Y.name reason }]) := by
  have hXY : X ≠ Y := fun h => hYc (h ▸ hXc)
  have key : s.players = [X, Y] ∨ s.players = [Y, X] := by
    match hp : s.players with
    | [] => simp [hp] at hX
    | [a] =>
      simp only [hp, List.mem_singleton] at hX hY
      exact absurd (hX.trans hY.symm) hXY
    | [a, b] =>
      simp only [hp, List.mem_cons, List.mem_singleton, List.not_mem_nil, or_false] at hX hY
      rcases hX with hX | hX <;> rcases hY with hY | hY
      · exact absurd (hX.trans hY.symm) hXY
      · exact Or.inl (by rw [hX, hY])
      · exact Or.inr (by rw [hX, hY])
      · exact absurd (hX.trans hY.symm) hXY
    | a :: b :: d :: rest =>
      simp [hp] at hlen
  rcases key with key | key
  · simp [removeConnection, hs, key, hXc, hYc]
  · simp [removeConnection, hs, key, hXc, hYc]

theorem onJoinSession_get?_self (st : State) (sock sid name : String) (draw : Draw) :
    (onJoinSession st sock sid name draw).1.sessions.get? sid
      = some ((joinRecord ((st.sessions.get? sid).getD Session.empty) sock name draw).getD
          ((st.sessions.get? sid).getD Session.empty)) := by
  unfold onJoinSession
  simp only [ensureSession_get?, Option.getD_some]
  cases joinRecord ((st.sessions.get? sid).getD Session.empty) sock name draw with
  | none => simp [ensureSession_get?]
  | some s1 => simp [Store.get?_set_self]

theorem removeConnection_get?_self (m : Store) (sid c reason : String) (s : Session)
    (hs : m.get? sid = some s) :
    (removeConnection m sid c reason).1.get? sid = some s ∨
    (removeConnection m sid c reason).1.get? sid = none ∨
    (removeConnection m sid c reason).1.get? sid
      = some { s with players := s.players.filter (fun p => decide (p.id ≠ c)) } := by
  simp only [removeConnection, hs]
  cases hf : s.players.find? (fun p => decide (p.id = c)) with
  | none => exact Or.inl hs
  | some lp =>
    simp only
    split
    · exact Or.inr (Or.inl (Store.get?_delete_self _ _))
    · exact Or.inr (Or.inr (Store.get?_set_self _ _ _))

theorem find?_name_setIdOfFirst (n c x : String) (l : List Player) :
    ((setIdOfFirst n c l).find? (fun p => decide (p.name = x))).map Player.color
      = (l.find? (fun p => decide (p.name = x))).map Player.color := by
  induction l with
  | nil => rfl
  | cons p ps ih =>
    unfold setIdOfFirst
    split
    · simp only [List.find?_cons]
      by_cases hx : p.name = x
      · simp [hx]
      · simp [hx]
    · simp only [List.find?_cons]
      by_cases hx : p.name = x
      · simp [hx]
      · simp [hx, ih]

theorem find?_name_joinRecord (s s' : Session) (sock n x : String) (draw : Draw) (r : Color)
    (hj : joinRecord s sock n draw = some s')
    (hr : (s.players.find? (fun p => decide (p.name = x))).map Player.color = some r) :
    (s'.players.find? (fun p => decide (p.name = x))).map Player.color = some r := by
  unfold joinRecord at hj
  split at hj
  · injection hj with hj
    subst hj
    simpa [find?_name_setIdOfFirst] using hr
  · split at hj
    · exact absurd hj (by simp)
    · cases hfind : s.players.find? (fun p => decide (p.name = x)) with
      | none => simp [hfind] at hr
      | some q =>
        rw [hfind] at hr
        split at hj <;> injection hj with hj <;> subst hj <;>
          simpa [List.find?_append, hfind] using hr

theorem find?_name_filter (l : List Player) (c x : String) (r : Color)
    (hnd : (l.map Player.name).Nodup)
    (hr : (l.find? (fun p => decide (p.name = x))).map Player.color = some r)
    (hin : (((l.filter (fun p => decide (p.id ≠ c))).find?
      (fun p => decide (p.name = x))).map Player.color).isSome = true) :
    ((l.filter (fun p => decide (p.id ≠ c))).find?
      (fun p => decide (p.name = x))).map Player.color = some r := by
  cases h1 : l.find? (fun p => decide (p.name = x)) with
  | none => simp [h1] at hr
  | some p =>
    cases h2 : (l.filter (fun p => decide (p.id ≠ c))).find? (fun p => decide (p.name = x)) with
    | none =>
      rw [h2] at hin
      exact absurd hin (by simp)
    | some q =>
      have hp : p ∈ l := List.mem_of_find?_eq_some h1
      have hpn : p.name = x := by simpa using List.find?_some h1
      have hq : q ∈ l := (List.mem_filter.mp (List.mem_of_find?_eq_some h2)).1
      have hqn : q.name = x := by simpa using List.find?_some h2
      have : p = q := List.inj_on_of_nodup_map hnd hp hq (hpn.trans hqn.symm)
      rw [h1] at hr
      simpa [this] using hr

theorem roleOf_eq (m : Store) (sid name : String) :
    roleOf m sid name
      = (m.get? sid).bind
          (fun s => (s.players.find? (fun p => decide (p.name = name))).map Player.color) := by
  unfold roleOf rosterOf
  cases m.get? sid <;> rfl

theorem step_roleOf (st st1 : State) (e : Event) (out : List Emit) (sid name : String)
    (r : Color) (hok : st.ok) (hstep : step st e = some (st1, out))
    (hrole : roleOf st.sessions sid name = some r)
    (hin : (roleOf st1.sessions sid name).isSome = true) :
    roleOf st1.sessions sid name = some r := by
  by_cases hq : quiet sid e = true
  · unfold roleOf at hrole ⊢
    rw [step_quiet sid st st1 e out hq hstep]
    exact hrole
  · rw [roleOf_eq] at hrole hin ⊢
    cases hs : st.sessions.get? sid with
    | none => simp [hs] at hrole
    | some s =>
      rw [hs] at hrole
      simp only [Option.some_bind] at hrole
      have hsok : s.ok := hok _ (Store.mem_of_get? _ _ _ hs)
      cases e with
      | joinSession sock k n draw =>
        have hk : k = sid := by
          by_contra hne
          exact hq (by simp [quiet, hne])
        subst hk
        simp only [step] at hstep
        split at hstep
        · injection hstep with hstep
          rw [show st1 = (st1, out).1 from rfl, ← hstep, onJoinSession_get?_self, hs]
          simp only [Option.getD_some, Option.some_bind]
          cases hj : joinRecord s sock n draw with
          | none => simpa using hrole
          | some s' => simpa using find?_name_joinRecord s s' sock n name draw r hj hrole
        · exact absurd hstep (by simp)
      | leaveGame sock k pid =>
        have hk : k = sid := by
          by_contra hne
          exact hq (by simp [quiet, hne])
        subst hk
        simp only [step] at hstep
        split at hstep
        · injection hstep with hstep
          rw [show st1 = (st1, out).1 from rfl, ← hstep] at hin ⊢
          simp only [onLeaveGame] at hin ⊢
          rcases removeConnection_get?_self st.sessions k sock "Opponent left the game" s hs
            with h | h | h
          · rw [h]; simpa using hrole
          · rw [h] at hin; simp at hin
          · rw [h] at hin ⊢
            simp only [Option.some_bind] at hin ⊢
            exact find?_name_filter _ _ _ _ hsok.2.2 hrole hin
        · exact absurd hstep (by simp)
      | timeout k sock =>
        have hk : k = sid := by
          by_contra hne
          exact hq (by simp [quiet, hne])
        subst hk
        simp only [step] at hstep
        split at hstep
        · injection hstep with hstep
          rw [show st1 = (st1, out).1 from rfl, ← hstep] at hin ⊢
          simp only [onTimeout] at hin ⊢
          rcases removeConnection_get?_self st.sessions k sock
            "Opponent disconnected and did not reconnect" s hs with h | h | h
          · rw [h]; simpa using hrole
          · rw [h] at hin; simp at hin
          · rw [h] at hin ⊢
            simp only [Option.some_bind] at hin ⊢
            exact find?_name_filter _ _ _ _ hsok.2.2 hrole hin
        · exact absurd hstep (by simp)
      | move sock k mv gs => exact absurd rfl hq
      | updateGameState sock k gs => exact absurd rfl hq
      | requestGameState sock k => exact absurd rfl hq
      | disconnect sock => exact absurd rfl hq

theorem run_roleOf (sid name : String) (r : Color) (evs : List Event) :
    ∀ (st st' : State) (out : List Emit), st.ok → roleOf st.sessions sid name = some r →
      run st evs = some (st', out) → staysIn sid name st evs = true →
      roleOf st'.sessions sid name = some r := by
  induction evs with
  | nil =>
    intro st st' out _ hrole hrun _
    simp only [run, Option.some.injEq, Prod.mk.injEq] at hrun
    rw [← hrun.1]
    exact hrole
  | cons e es ih =>
    intro st st' out hok hrole hrun hstay
    obtain ⟨sa, oa, ob, hs, hr, _⟩ := run_cons _ _ _ _ _ hrun
    simp only [staysIn, hs, Bool.and_eq_true] at hstay
    exact ih sa st' ob (step_ok st sa e oa hok hs)
      (step_roleOf st sa e oa sid name r hok hs hrole hstay.1) hr hstay.2

theorem noConn_iff (c sid : String) (m : Store) :
    NoConn c sid m ↔ ∀ s, m.get? sid = some s → ∀ p ∈ s.players, p.id ≠ c := by
  unfold NoConn rosterOf
  constructor
  · intro h s hs p hp
    exact h (s.players, s.assignedColors) (by simp [hs]) p hp
  · intro h r hr p hp
    cases hs : m.get? sid with
    | none => simp [hs] at hr
    | some s =>
      simp only [hs, Option.map_some', Option.some.injEq] at hr
      exact h s hs p (by rw [← hr] at hp; exact hp)

theorem mem_setIdOfFirst (n c : String) (l : List Player) (p : Player)
    (h : p ∈ setIdOfFirst n c l) : p ∈ l ∨ p.id = c := by
  induction l with
  | nil => simp [setIdOfFirst] at h
  | cons a as ih =>
    unfold setIdOfFirst at h
    split at h
    · rcases List.mem_cons.mp h with h | h
      · exact Or.inr (by rw [h])
      · exact Or.inl (List.mem_cons_of_mem _ h)
    · rcases List.mem_cons.mp h with h | h
      · exact Or.inl (h ▸ List.mem_cons_self _ _)
      · rcases ih h with h | h
        · exact Or.inl (List.mem_cons_of_mem _ h)
        · exact Or.inr h

theorem mem_joinRecord (s s' : Session) (sock n : String) (draw : Draw) (p : Player)
    (hj : joinRecord s sock n draw = some s') (hp : p ∈ s'.players) :
    p ∈ s.players ∨ p.id = sock := by
  unfold joinRecord at hj
  split at hj
  · injection hj with hj
    subst hj
    exact mem_setIdOfFirst _ _ _ _ hp
  · split at hj
    · exact absurd hj (by simp)
    · split at hj <;> injection hj with hj <;> subst hj
      all_goals
        rcases List.mem_append.mp hp with hp | hp
        · exact Or.inl hp
        · exact Or.inr (by simp only [List.mem_singleton] at hp; rw [hp])

theorem step_closed (st st1 : State) (e : Event) (out : List Emit) (c : String)
    (hc : c ∈ st.closed) (hstep : step st e = some (st1, out)) : c ∈ st1.closed := by
  cases e with
  | disconnect sock =>
    simp only [step] at hstep
    split at hstep
    · exact absurd hstep (by simp)
    · injection hstep with hstep
      rw [show st1 = (st1, out).1 from rfl, ← hstep]
      exact List.mem_cons_of_mem _ hc
  | joinSession sock k n draw =>
    simp only [step] at hstep
    split at hstep
    · injection hstep with hstep
      rw [show st1 = (st1, out).1 from rfl, ← hstep]
      unfold onJoinSession
      simp only
      split <;> exact hc
    · exact absurd hstep (by simp)
  | move sock k mv gs =>
    simp only [step] at hstep
    split at hstep
    · injection hstep with hstep
      rw [show st1 = (st1, out).1 from rfl, ← hstep]
      exact hc
    · exact absurd hstep (by simp)
  | updateGameState sock k gs =>
    simp only [step] at hstep
    split at hstep
    · injection hstep with hstep
      rw [show st1 = (st1, out).1 from rfl, ← hstep]
      exact hc
    · exact absurd hstep (by simp)
  | requestGameState sock k =>
    simp only [step] at hstep
    split at hstep
    · injection hstep with hstep
      rw [show st1 = (st1, out).1 from rfl, ← hstep]
      exact hc
    · exact absurd hstep (by simp)
  | leaveGame sock k pid =>
    simp only [step] at hstep
    split at hstep
    · injection hstep with hstep
      rw [show st1 = (st1, out).1 from rfl, ← hstep]
      exact hc
    · exact absurd hstep (by simp)
  | timeout k sock =>
    simp only [step] at hstep
    split at hstep
    · injection hstep with hstep
      rw [show st1 = (st1, out).1 from rfl, ← hstep]
      exact hc
    · exact absurd hstep (by simp)

theorem removeConnection_noConn (m : Store) (sid c sock reason : String)
    (h : NoConn c sid m) : NoConn c sid (removeConnection m sid sock reason).1 := by
  rw [noConn_iff] at h ⊢
  cases hs : m.get? sid with
  | none =>
    simp only [removeConnection, hs]
    intro s hs'
    exact absurd hs' (by simp)
  | some s =>
    intro s' hs' p hp
    rcases removeConnection_get?_self m sid sock reason s hs with h1 | h1 | h1
    · rw [h1] at hs'
      injection hs' with hs'
      subst hs'
      exact h s hs p hp
    · rw [h1] at hs'
      exact absurd hs' (by simp)
    · rw [h1] at hs'
      injection hs' with hs'
      subst hs'
      exact h s hs p (List.mem_filter.mp hp).1

theorem onJoinSession_noConn (st : State) (sock sid c name : String) (draw : Draw)
    (hne : sock ≠ c) (h : NoConn c sid st.sessions) :
    NoConn c sid (onJoinSession st sock sid name draw).1.sessions := by
  rw [noConn_iff] at h ⊢
  intro s' hs' p hp
  rw [onJoinSession_get?_self] at hs'
  injection hs' with hs'
  have hold : ∀ q ∈ ((st.sessions.get? sid).getD Session.empty).players, q.id ≠ c := by
    cases hs : st.sessions.get? sid with
    | none => simp [Session.empty]
    | some s => simpa using h s hs
  cases hj : joinRecord ((st.sessions.get? sid).getD Session.empty) sock name draw with
  | none =>
    rw [hj] at hs'
    simp only [Option.getD_none] at hs'
    subst hs'
    exact hold p hp
  | some s1 =>
    rw [hj] at hs'
    simp only [Option.getD_some] at hs'
    subst hs'
    rcases mem_joinRecord _ _ _ _ _ _ hj hp with h1 | h1
    · exact hold p h1
    · rw [h1]; exact hne

theorem noConn_of_rosterOf (c sid : String) (m m' : Store)
    (he : rosterOf m' sid = rosterOf m sid) (h : NoConn c sid m) : NoConn c sid m' := by
  unfold NoConn at *
  rw [he]
  exact h

theorem step_noConn (st st1 : State) (e : Event) (out : List Emit) (c sid : String)
    (hc : c ∈ st.closed) (h : NoConn c sid st.sessions)
    (hstep : step st e = some (st1, out)) : NoConn c sid st1.sessions := by
  by_cases hq : quiet sid e = true
  · exact noConn_of_rosterOf c sid _ _ (step_quiet sid st st1 e out hq hstep) h
  · cases e with
    | joinSession sock k n draw =>
      have hk : k = sid := by
        by_contra hne
        exact hq (by simp [quiet, hne])
      subst hk
      simp only [step] at hstep
      split at hstep
      · rename_i hcl
        injection hstep with hstep
        rw [show st1 = (st1, out).1 from rfl, ← hstep]
        have hne : sock ≠ c := by
          intro he
          simp [clientOk, he, hc] at hcl
        exact onJoinSession_noConn st sock k c n draw hne h
      · exact absurd hstep (by simp)
    | leaveGame sock k pid =>
      have hk : k = sid := by
        by_contra hne
        exact hq (by simp [quiet, hne])
      subst hk
      simp only [step] at hstep
      split at hstep
      · injection hstep with hstep
        rw [show st1 = (st1, out).1 from rfl, ← hstep]
        exact removeConnection_noConn _ _ _ _ _ h
      · exact absurd hstep (by simp)
    | timeout k sock =>
      have hk : k = sid := by
        by_contra hne
        exact hq (by simp [quiet, hne])
      subst hk
      simp only [step] at hstep
      split at hstep
      · injection hstep with hstep
        rw [show st1 = (st1, out).1 from rfl, ← hstep]
        exact removeConnection_noConn _ _ _ _ _ h
      · exact absurd hstep (by simp)
    | move sock k mv gs => exact absurd rfl hq
    | updateGameState sock k gs => exact absurd rfl hq
    | requestGameState sock k => exact absurd rfl hq
    | disconnect sock => exact absurd rfl hq

theorem run_noConn (c sid : String) (evs : List Event) (st st' : State) (out : List Emit)
    (hc : c ∈ st.closed) (h : NoConn c sid st.sessions) (hrun : run st evs = some (st', out)) :
    NoConn c sid st'.sessions :=
  (run_induction (fun x => c ∈ x.closed ∧ NoConn c sid x.sessions)
    (fun a b e o hab hs =>
      ⟨step_closed a b e o c hab.1 hs, step_noConn a b e o c sid hab.1 hab.2 hs⟩)
    evs st st' out ⟨hc, h⟩ hrun).2

theorem removeConnection_of_noConn (m : Store) (sid c reason : String)
    (h : NoConn c sid m) : removeConnection m sid c reason = (m, []) := by
  rw [noConn_iff] at h
  cases hs : m.get? sid with
  | none => simp [removeConnection, hs]
  | some s =>
    have hf : s.players.find? (fun p => decide (p.id = c)) = none := by
      rw [List.find?_eq_none]
      intro p hp
      simpa using h s hs p hp
    simp [removeConnection, hs, hf]

theorem onJoinSession_timers (st : State) (sock sid name : String) (draw : Draw) :
    (onJoinSession st sock sid name draw).1.timers = st.timers := by
  unfold onJoinSession
  simp only
  split <;> rfl

theorem onJoinSession_closed (st : State) (sock sid name : String) (draw : Draw) :
    (onJoinSession st sock sid name draw).1.closed = st.closed := by
  unfold onJoinSession
  simp only
  split <;> rfl

theorem setIdOfFirst_noConn (l : List Player) (X : Player) (c1 c2 : String)
    (hnd : (l.map Player.name).Nodup) (hX : X ∈ l)
    (honly : ∀ q ∈ l, q.id = c1 → q = X) (hne : c2 ≠ c1) :
    ∀ p ∈ setIdOfFirst X.name c2 l, p.id ≠ c1 := by
  obtain ⟨pre, p0, post, hl, hp0, _, hset⟩ :=
    setIdOfFirst_split X.name c2 l (List.mem_map_of_mem _ hX)
  have hp0mem : p0 ∈ l := by rw [hl]; simp
  have hp0X : p0 = X := List.inj_on_of_nodup_map hnd hp0mem hX hp0
  have hnot : p0.name ∉ (pre ++ post).map Player.name := by
    rw [hl] at hnd
    simp only [List.map_append, List.map_cons] at hnd
    have := (List.nodup_middle.mp hnd)
    simpa using (List.nodup_cons.mp this).1
  intro p hp hpc
  rw [hset] at hp
  rcases List.mem_append.mp hp with h | h
  · have hpl : p ∈ l := by rw [hl]; exact List.mem_append_left _ h
    have : p = p0 := (honly p hpl hpc).trans hp0X.symm
    exact hnot (List.mem_map.mpr ⟨p, List.mem_append_left _ h, by rw [this]⟩)
  · rcases List.mem_cons.mp h with h | h
    · rw [h] at hpc
      exact hne hpc
    · have hpl : p ∈ l := by rw [hl]; exact List.mem_append_right _ (List.mem_cons_of_mem _ h)
      have : p = p0 := (honly p hpl hpc).trans hp0X.symm
      exact hnot (List.mem_map.mpr ⟨p, List.mem_append_right _ h, by rw [this]⟩)

theorem removeConnection_last (m : Store) (sid c reason : String) (s : Session)
    (hs : m.get? sid = some s) (hne : s.players ≠ [])
    (hall : ∀ p ∈ s.players, p.id = c) :
    removeConnection m sid c reason
      = ((m.set sid { s with players := [] }).delete sid, []) := by
  have hfilter : s.players.filter (fun p => decide (p.id ≠ c)) = [] := by
    rw [List.filter_eq_nil_iff]
    intro p hp
    simp [hall p hp]
  have hfind : ∃ lp, s.players.find? (fun p => decide (p.id = c)) = some lp := by
    cases hp : s.players with
    | nil => exact absurd hp hne
    | cons a as =>
      refine ⟨a, ?_⟩
      have : a.id = c := hall a (by rw [hp]; exact List.mem_cons_self _ _)
      simp [List.find?_cons, this]
  obtain ⟨lp, hlp⟩ := hfind
  simp only [removeConnection, hs, hlp, hfilter]
  rfl

theorem Store.not_mem_delete (m : Store) (k : String) :
    ∀ e ∈ m.delete k, e.1 ≠ k :=
  fun e he => (Store.mem_delete m k e he).2

theorem onJoinSession_fresh (st : State) (sock sid name : String) (draw : Draw)
    (hnone : st.sessions.get? sid = none) :
    (onJoinSession st sock sid name draw).1.sessions.get? sid
        = some { players := [{ id := sock, name := name, color := firstColor draw }],
                 assignedColors := [firstColor draw], gameState := [] } ∧
      (onJoinSession st sock sid name draw).2
        = [{ target := .room sid,
             msg := .playerJoined [{ id := sock, name := name, color := firstColor draw }] }] := by
  constructor
  · rw [onJoinSession_get?_self, hnone]
    simp [joinRecord, Session.empty]
  · simp [onJoinSession, ensureSession, hnone, Store.get?_set_self, joinRecord, Session.empty,
      Store.set_set, getGameState, meaningful, GameState.get, JSVal.truthy]

theorem updateGameState_get?_none (m : Store) (k sid : String) (gs : GameState)
    (h : m.get? sid = none) : (updateGameState m k gs).get? sid = none := by
  unfold updateGameState
  cases hk : m.get? k with
  | none => exact h
  | some s =>
    by_cases hks : sid = k
    · rw [hks, hk] at h
      exact absurd h (by simp)
    · simp only [Store.get?_set_of_ne _ _ _ _ hks, h]

theorem removeConnection_get?_none (m : Store) (k c reason sid : String)
    (h : m.get? sid = none) : (removeConnection m k c reason).1.get? sid = none := by
  by_cases hks : sid = k
  · subst hks
    simp [removeConnection, h]
  · rw [removeConnection_get?_of_ne _ _ _ _ _ hks, h]

theorem step_absent (sid : String) (st st1 : State) (e : Event) (out : List Emit)
    (hq : noJoinOn sid e = true) (hstep : step st e = some (st1, out))
    (h : st.sessions.get? sid = none) : st1.sessions.get? sid = none := by
  cases e with
  | joinSession sock k n draw =>
    simp only [step] at hstep
    split at hstep
    · injection hstep with hstep
      have hne : sid ≠ k := by
        intro hk
        simp [noJoinOn, hk] at hq
      rw [show st1 = (st1, out).1 from rfl, ← hstep, onJoinSession_get?_of_ne _ _ _ _ _ _ hne]
      exact h
    · exact absurd hstep (by simp)
  | move sock k mv gs =>
    simp only [step] at hstep
    split at hstep
    · injection hstep with hstep
      rw [show st1 = (st1, out).1 from rfl, ← hstep]
      exact updateGameState_get?_none _ _ _ _ h
    · exact absurd hstep (by simp)
  | updateGameState sock k gs =>
    simp only [step] at hstep
    split at hstep
    · injection hstep with hstep
      rw [show st1 = (st1, out).1 from rfl, ← hstep]
      exact updateGameState_get?_none _ _ _ _ h
    · exact absurd hstep (by simp)
  | requestGameState sock k =>
    simp only [step] at hstep
    split at hstep
    · injection hstep with hstep
      rw [show st1 = (st1, out).1 from rfl, ← hstep]
      exact h
    · exact absurd hstep (by simp)
  | leaveGame sock k pid =>
    simp only [step] at hstep
    split at hstep
    · injection hstep with hstep
      rw [show st1 = (st1, out).1 from rfl, ← hstep]
      exact removeConnection_get?_none _ _ _ _ _ h
    · exact absurd hstep (by simp)
  | disconnect sock =>
    simp only [step] at hstep
    split at hstep
    · exact absurd hstep (by simp)
    · injection hstep with hstep
      rw [show st1 = (st1, out).1 from rfl, ← hstep]
      exact h
  | timeout k sock =>
    simp only [step] at hstep
    split at hstep
    · injection hstep with hstep
      rw [show st1 = (st1, out).1 from rfl, ← hstep]
      exact removeConnection_get?_none _ _ _ _ _ h
    · exact absurd hstep (by simp)

theorem run_absent (sid : String) (es : List Event) : ∀ (st st' : State) (out : List Emit),
    (∀ e ∈ es, noJoinOn sid e = true) → run st es = some (st', out) →
    st.sessions.get? sid = none → st'.sessions.get? sid = none := by
  induction es with
  | nil =>
    intro st st' out _ h hn
    simp only [run, Option.some.injEq, Prod.mk.injEq] at h
    rw [← h.1]
    exact hn
  | cons e es ih =>
    intro st st' out hq h hn
    obtain ⟨sa, oa, ob, hs, hr, _⟩ := run_cons _ _ _ _ _ h
    exact ih sa st' ob (fun x hx => hq x (List.mem_cons_of_mem _ hx)) hr
      (step_absent sid st sa e oa (hq e (List.mem_cons_self _ _)) hs hn)

theorem rosterAt_removeConnection (m : Store) (sid c reason : String) (s : Session)
    (hs : m.get? sid = some s) :
    rosterAt (removeConnection m sid c reason).1 sid
      = s.players.filter (fun p => decide (p.id ≠ c)) := by
  cases hf : s.players.find? (fun p => decide (p.id = c)) with
  | none =>
    have hall : ∀ p ∈ s.players, p.id ≠ c := by
      intro p hp
      have := List.find?_eq_none.mp hf p hp
      simpa using this
    have hfil : s.players.filter (fun p => decide (p.id ≠ c)) = s.players := by
      rw [List.filter_eq_self]
      intro p hp
      simpa using hall p hp
    simp only [removeConnection, hs, hf, rosterAt, hfil, Option.map_some', Option.getD_some]
  | some lp =>
    simp only [removeConnection, hs, hf, rosterAt]
    split
    · rename_i hlen
      rw [Store.get?_delete_self]
      simp only [Option.map_none', Option.getD_none]
      exact (List.length_eq_zero.mp hlen).symm
    · rw [Store.get?_set_self]
      rfl

theorem Store.get?_of_mem (m : Store) (k : String) (s : Session)
    (hkeys : (m.map Prod.fst).Nodup) (h : (k, s) ∈ m) : m.get? k = some s := by
  induction m with
  | nil => simp at h
  | cons e rest ih =>
    obtain ⟨k₀, s₀⟩ := e
    simp only [List.map_cons, List.nodup_cons] at hkeys
    rcases List.mem_cons.mp h with h | h
    · injection h with h1 h2
      subst h1 h2
      simp [Store.get?]
    · have hne : k₀ ≠ k := by
        intro hk
        exact hkeys.1 (List.mem_map.mpr ⟨(k, s), h, hk.symm⟩)
      simp only [Store.get?, hne, if_false]
      exact ih hkeys.2 h

theorem GameState.get_put_self (a : GameState) (k : String) (v : JSVal) :
    (GameState.put a k v).get k = v := by
  induction a with
  | nil => simp [GameState.put, GameState.get]
  | cons e rest ih =>
    obtain ⟨k₀, v₀⟩ := e
    by_cases h : k₀ = k
    · simp [GameState.put, GameState.get, h]
    · simp [GameState.put, GameState.get, h, ih]

theorem GameState.get_put_of_ne (a : GameState) (k k' : String) (v : JSVal) (h : k' ≠ k) :
    (GameState.put a k v).get k' = a.get k' := by
  induction a with
  | nil => simp [GameState.put, GameState.get, Ne.symm h]
  | cons e rest ih =>
    obtain ⟨k₀, v₀⟩ := e
    by_cases h₀ : k₀ = k
    · subst h₀
      simp [GameState.put, GameState.get, Ne.symm h]
    · by_cases h₁ : k₀ = k'
      · subst h₁
        simp [GameState.put, GameState.get, h₀]
      · simp [GameState.put, GameState.get, h₀, h₁, ih]

theorem GameState.get_of_not_mem (b : GameState) (k : String)
    (h : k ∉ b.map Prod.fst) : GameState.get b k = .undefined := by
  induction b with
  | nil => rfl
  | cons e rest ih =>
    obtain ⟨k₀, v₀⟩ := e
    simp only [List.map_cons, List.mem_cons, not_or] at h
    simp only [GameState.get, Ne.symm h.1, if_false]
    exact ih h.2

theorem GameState.get_spread (b : GameState) : ∀ (a : GameState) (k : String),
    (b.map Prod.fst).Nodup →
    (GameState.spread a b).get k = if k ∈ b.map Prod.fst then GameState.get b k else a.get k := by
  induction b with
  | nil =>
    intro a k _
    simp [GameState.spread]
  | cons e rest ih =>
    intro a k hnd
    obtain ⟨k₀, v₀⟩ := e
    simp only [List.map_cons, List.nodup_cons] at hnd
    have hstep : GameState.spread a ((k₀, v₀) :: rest)
        = GameState.spread (GameState.put a k₀ v₀) rest := by
      simp [GameState.spread]
    rw [hstep, ih (GameState.put a k₀ v₀) k hnd.2]
    by_cases hk : k = k₀
    · subst hk
      simp [hnd.1, GameState.get, GameState.get_put_self]
    · by_cases hmem : k ∈ rest.map Prod.fst
      · have : k ∈ (((k₀, v₀) :: rest).map Prod.fst) := by
          simp only [List.map_cons, List.mem_cons]
          exact Or.inr hmem
        rw [if_pos hmem, if_pos this]
        simp [GameState.get, Ne.symm hk]
      · have : k ∉ (((k₀, v₀) :: rest).map Prod.fst) := by
          simp only [List.map_cons, List.mem_cons, not_or]
          exact ⟨hk, hmem⟩
        rw [if_neg hmem, if_neg this]
        exact GameState.get_put_of_ne _ _ _ _ hk

theorem Store.keys_set_of_get? (m : Store) (k : String) (s v : Session)
    (h : m.get? k = some s) : (m.set k v).map Prod.fst = m.map Prod.fst := by
  induction m with
  | nil => simp [Store.get?] at h
  | cons e rest ih =>
    obtain ⟨k₀, s₀⟩ := e
    by_cases h₀ : k₀ = k
    · simp [Store.set, h₀]
    · simp only [Store.get?, h₀, if_false] at h
      simp [Store.set, h₀, ih h]

theorem updateGameState_get?_of_ne (m : Store) (sid k : String) (gs : GameState)
    (h : k ≠ sid) : (updateGameState m sid gs).get? k = m.get? k := by
  unfold updateGameState
  cases m.get? sid with
  | none => rfl
  | some s => exact Store.get?_set_of_ne _ _ _ _ h

theorem updateGameState_keys (m : Store) (sid : String) (gs : GameState) :
    (updateGameState m sid gs).map Prod.fst = m.map Prod.fst := by
  unfold updateGameState
  cases h : m.get? sid with
  | none => rfl
  | some s => exact Store.keys_set_of_get? _ _ _ _ h

theorem rosterAt_eq (m : Store) (sid : String) :
    rosterAt m sid = ((m.get? sid).getD Session.empty).players := by
  unfold rosterAt
  cases m.get? sid <;> rfl

theorem getGameState_eq (m : Store) (sid : String) :
    getGameState m sid = ((m.get? sid).getD Session.empty).gameState := by
  unfold getGameState
  cases m.get? sid <;> rfl

theorem joinRecord_of_accepted (s : Session) (sock name : String) (draw : Draw)
    (h : (s.players.any (fun p => decide (p.name = name))
      || decide (s.players.length < 2)) = true) :
    ∃ s1, joinRecord s sock name draw = some s1 ∧ s1.gameState = s.gameState ∧
      ((name ∈ s.players.map Player.name ∧
          s1.players.map Player.name = s.players.map Player.name ∧
          s1.players.map Player.color = s.players.map Player.color) ∨
        (name ∉ s.players.map Player.name ∧
          ∃ col, s1.players = s.players ++ [{ id := sock, name := name, color := col }])) := by
  unfold joinRecord
  by_cases hany : s.players.any (fun p => decide (p.name = name)) = true
  · rw [if_pos hany]
    exact ⟨_, rfl, rfl, Or.inl ⟨(any_name_iff name s.players).mp hany,
      map_name_setIdOfFirst _ _ _, map_color_setIdOfFirst _ _ _⟩⟩
  · rw [if_neg hany]
    have hlen : s.players.length < 2 := by
      simp only [Bool.or_eq_true, decide_eq_true_eq] at h
      rcases h with h | h
      · exact absurd h hany
      · exact h
    have hnot : name ∉ s.players.map Player.name :=
      fun hm => hany ((any_name_iff name s.players).mpr hm)
    rw [if_neg (by omega)]
    split
    · exact ⟨_, rfl, rfl, Or.inr ⟨hnot, _, rfl⟩⟩
    · exact ⟨_, rfl, rfl, Or.inr ⟨hnot, _, rfl⟩⟩

theorem onJoinSession_accepted (st : State) (sock sid name : String) (draw : Draw)
    (hacc : joinAccepted st sid name = true) :
    ∃ s1, joinRecord ((st.sessions.get? sid).getD Session.empty) sock name draw = some s1 ∧
      (onJoinSession st sock sid name draw).1.sessions.get? sid = some s1 ∧
      (onJoinSession st sock sid name draw).2
        = (if meaningful (getGameState st.sessions sid) then
            [{ target := .socket sock, msg := .gameState (getGameState st.sessions sid) }]
           else []) ++ [{ target := .room sid, msg := .playerJoined s1.players }] := by
  unfold joinAccepted at hacc
  rw [rosterAt_eq] at hacc
  obtain ⟨s1, hj, hgs, _⟩ :=
    joinRecord_of_accepted ((st.sessions.get? sid).getD Session.empty) sock name draw hacc
  refine ⟨s1, hj, ?_, ?_⟩
  · rw [onJoinSession_get?_self, hj]
    rfl
  · simp only [onJoinSession, ensureSession_get?, Option.getD_some, hj]
    have : getGameState ((ensureSession st.sessions sid).set sid s1) sid
        = getGameState st.sessions sid := by
      rw [getGameState_eq, getGameState_eq, Store.get?_set_self]
      exact hgs
    rw [this]

theorem Store.keys_set (m : Store) (k : String) (v : Session) :
    (m.set k v).map Prod.fst
      = if k ∈ m.map Prod.fst then m.map Prod.fst else m.map Prod.fst ++ [k] := by
  induction m with
  | nil => simp [Store.set]
  | cons e rest ih =>
    obtain ⟨k₀, s₀⟩ := e
    by_cases h₀ : k₀ = k
    · simp [Store.set, h₀]
    · have hne : ¬ k = k₀ := fun h => h₀ h.symm
      simp only [Store.set, h₀, if_false, List.map_cons, List.mem_cons, hne, false_or, ih]
      split <;> simp

theorem Store.keys_nodup_set (m : Store) (k : String) (v : Session)
    (h : (m.map Prod.fst).Nodup) : ((m.set k v).map Prod.fst).Nodup := by
  rw [Store.keys_set]
  split
  · exact h
  · rename_i hk
    exact List.Nodup.append h (List.nodup_singleton _) (by simpa using hk)

theorem Store.keys_nodup_delete (m : Store) (k : String)
    (h : (m.map Prod.fst).Nodup) : ((m.delete k).map Prod.fst).Nodup :=
  h.sublist ((List.filter_sublist _).map _)

theorem ensureSession_keys_nodup (m : Store) (k : String)
    (h : (m.map Prod.fst).Nodup) : ((ensureSession m k).map Prod.fst).Nodup := by
  unfold ensureSession
  cases m.get? k with
  | none => exact Store.keys_nodup_set _ _ _ h
  | some s => exact h

theorem onJoinSession_keys_nodup (st : State) (sock sid name : String) (draw : Draw)
    (h : (st.sessions.map Prod.fst).Nodup) :
    ((onJoinSession st sock sid name draw).1.sessions.map Prod.fst).Nodup := by
  unfold onJoinSession
  simp only
  split
  · exact ensureSession_keys_nodup _ _ h
  · exact Store.keys_nodup_set _ _ _ (ensureSession_keys_nodup _ _ h)

theorem removeConnection_keys_nodup (m : Store) (sid c reason : String)
    (h : (m.map Prod.fst).Nodup) :
    ((removeConnection m sid c reason).1.map Prod.fst).Nodup := by
  unfold removeConnection
  split
  · exact h
  · split
    · exact h
    · simp only
      split
      · exact Store.keys_nodup_delete _ _ (Store.keys_nodup_set _ _ _ h)
      · exact Store.keys_nodup_set _ _ _ h

theorem step_keys_nodup (st st' : State) (e : Event) (out : List Emit)
    (h : (st.sessions.map Prod.fst).Nodup) (hstep : step st e = some (st', out)) :
    (st'.sessions.map Prod.fst).Nodup := by
  cases e with
  | joinSession sock sid name draw =>
    simp only [step] at hstep
    split at hstep
    · injection hstep with hstep
      rw [show st' = (st', out).1 from rfl, ← hstep]
      exact onJoinSession_keys_nodup _ _ _ _ _ h
    · exact absurd hstep (by simp)
  | move sock sid mv gs =>
    simp only [step] at hstep
    split at hstep
    · injection hstep with hstep
      rw [show st' = (st', out).1 from rfl, ← hstep]
      simp only [onMove, updateGameState_keys]
      exact h
    · exact absurd hstep (by simp)
  | updateGameState sock sid gs =>
    simp only [step] at hstep
    split at hstep
    · injection hstep with hstep
      rw [show st' = (st', out).1 from rfl, ← hstep]
      simp only [onUpdateGameState, updateGameState_keys]
      exact h
    · exact absurd hstep (by simp)
  | requestGameState sock sid =>
    simp only [step] at hstep
    split at hstep
    · injection hstep with hstep
      rw [show st' = (st', out).1 from rfl, ← hstep]
      exact h
    · exact absurd hstep (by simp)
  | leaveGame sock sid pid =>
    simp only [step] at hstep
    split at hstep
    · injection hstep with hstep
      rw [show st' = (st', out).1 from rfl, ← hstep]
      exact removeConnection_keys_nodup _ _ _ _ h
    · exact absurd hstep (by simp)
  | disconnect sock =>
    simp only [step] at hstep
    split at hstep
    · exact absurd hstep (by simp)
    · injection hstep with hstep
      rw [show st' = (st', out).1 from rfl, ← hstep]
      exact h
  | timeout sid sock =>
    simp only [step] at hstep
    split at hstep
    · injection hstep with hstep
      rw [show st' = (st', out).1 from rfl, ← hstep]
      exact removeConnection_keys_nodup _ _ _ _ h
    · exact absurd hstep (by simp)

theorem run_keys_nodup (evs : List Event) (st : State) (out : List Emit)
    (h : run State.init evs = some (st, out)) : (st.sessions.map Prod.fst).Nodup :=
  run_induction (fun x => (x.sessions.map Prod.fst).Nodup) step_keys_nodup evs State.init st out
    (by simp [State.init]) h

/-- What the move handler does to the stored snapshot: each of the six fields
gets the value read off the client object (`undefined` for a field it lacks),
every other key keeps its value, roster and colours are untouched. -/
theorem move_overwrites_six_fields (st : State) (sock sid : String) (move : JSVal)
    (clientGameState : GameState) (s : Session) (hs : st.sessions.get? sid = some s) :
    ∃ s', (onMove st sock sid move clientGameState).1.sessions.get? sid = some s' ∧
      s'.players = s.players ∧ s'.assignedColors = s.assignedColors ∧
      (∀ k, k ∈ moveFields → s'.gameState.get k = GameState.get clientGameState k) ∧
      (∀ k, k ∉ moveFields → s'.gameState.get k = s.gameState.get k) := by
  refine ⟨{ s with gameState := (GameState.spread s.gameState
      [("board", GameState.get clientGameState "board"),
       ("moveHistory", GameState.get clientGameState "moveHistory"),
       ("currentTurn", GameState.get clientGameState "currentTurn"),
       ("gameOver", GameState.get clientGameState "gameOver"),
       ("winner", GameState.get clientGameState "winner"),
       ("drawReason", GameState.get clientGameState "drawReason")]) }, ?_, rfl, rfl, ?_, ?_⟩
  · simp only [onMove, updateGameState, hs, Store.get?_set_self]
  · intro k hk
    rw [GameState.get_spread _ _ _ (by simp)]
    simp only [moveFields, List.mem_cons, List.mem_singleton, List.not_mem_nil, or_false] at hk
    rcases hk with h | h | h | h | h | h <;> subst h <;> simp [GameState.get]
  · intro k hk
    rw [GameState.get_spread _ _ _ (by simp)]
    have : k ∉ List.map Prod.fst
        [("board", GameState.get clientGameState "board"),
         ("moveHistory", GameState.get clientGameState "moveHistory"),
         ("currentTurn", GameState.get clientGameState "currentTurn"),
         ("gameOver", GameState.get clientGameState "gameOver"),
         ("winner", GameState.get clientGameState "winner"),
         ("drawReason", GameState.get clientGameState "drawReason")] := hk
    rw [if_neg this]

theorem rosterAt_removeConnection_filter (m : Store) (sid c reason : String) :
    rosterAt (removeConnection m sid c reason).1 sid
      = (rosterAt m sid).filter (fun p => decide (p.id ≠ c)) := by
  cases hs : m.get? sid with
  | none => simp [removeConnection, hs, rosterAt]
  | some s =>
    rw [rosterAt_removeConnection m sid c reason s hs]
    simp [rosterAt, hs]

theorem Draw.belowHalf_iff (d : Draw) : d.belowHalf = true ↔ d.value < 1 / 2 := by
  unfold Draw.belowHalf Draw.value
  rw [decide_eq_true_eq]
  have hpos : (0 : ℚ) < (2 : ℚ) ^ d.exp := by positivity
  rw [div_lt_iff₀ hpos]
  constructor
  · intro h
    have : ((2 * d.num : ℕ) : ℚ) < ((2 ^ d.exp : ℕ) : ℚ) := by exact_mod_cast h
    push_cast at this
    linarith
  · intro h
    have : ((2 * d.num : ℕ) : ℚ) < ((2 ^ d.exp : ℕ) : ℚ) := by
      push_cast
      linarith
    exact_mod_cast this

theorem card_belowHalf (e : Nat) :
    ((Finset.range (2 ^ (e + 1))).filter
      (fun n => Draw.belowHalf { num := n, exp := e + 1 } = true)).card = 2 ^ e := by
  have : (Finset.range (2 ^ (e + 1))).filter
      (fun n => Draw.belowHalf { num := n, exp := e + 1 } = true) = Finset.range (2 ^ e) := by
    ext n
    simp only [Finset.mem_filter, Finset.mem_range, Draw.belowHalf, decide_eq_true_eq]
    have h2 : 2 ^ (e + 1) = 2 * 2 ^ e := by ring
    omega
  rw [this, Finset.card_range]

theorem mem_joinRoom (rooms : List (String × String)) (sock room : String)
    (x : String × String) : x ∈ joinRoom rooms sock room ↔ x ∈ rooms ∨ x = (sock, room) := by
  unfold joinRoom
  split
  · rename_i h
    constructor
    · exact Or.inl
    · rintro (h1 | h1)
      · exact h1
      · exact h1 ▸ h
  · simp

theorem joinRecord_of_rejected (s : Session) (sock name : String) (draw : Draw)
    (h : (s.players.any (fun p => decide (p.name = name))
      || decide (s.players.length < 2)) = false) :
    joinRecord s sock name draw = none := by
  simp only [Bool.or_eq_false_iff, decide_eq_false_iff_not, not_lt] at h
  unfold joinRecord
  rw [if_neg (by simp [h.1]), if_pos h.2]

theorem onJoinSession_rooms (st : State) (sock sid name : String) (draw : Draw) :
    (onJoinSession st sock sid name draw).1.rooms
      = if joinAccepted st sid name = true then joinRoom st.rooms sock sid else st.rooms := by
  by_cases hacc : joinAccepted st sid name = true
  · rw [if_pos hacc]
    obtain ⟨s1, hj, _, _⟩ := onJoinSession_accepted st sock sid name draw hacc
    simp only [onJoinSession, ensureSession_get?, Option.getD_some, hj]
  · rw [if_neg hacc]
    have hrej : joinRecord ((st.sessions.get? sid).getD Session.empty) sock name draw = none := by
      apply joinRecord_of_rejected
      have := hacc
      unfold joinAccepted at this
      rw [rosterAt_eq] at this
      simpa using this
    simp only [onJoinSession, ensureSession_get?, Option.getD_some, hrej]

theorem step_rooms_keep (st st1 : State) (e : Event) (out : List Emit) (c sid : String)
    (hstep : step st e = some (st1, out)) (hin : (c, sid) ∈ st.rooms)
    (hlive : c ∉ st1.closed) : (c, sid) ∈ st1.rooms := by
  cases e with
  | joinSession sock k n draw =>
    simp only [step] at hstep
    split at hstep
    · injection hstep with hstep
      rw [show st1 = (st1, out).1 from rfl, ← hstep, onJoinSession_rooms]
      split
      · exact (mem_joinRoom _ _ _ _).mpr (Or.inl hin)
      · exact hin
    · exact absurd hstep (by simp)
  | move sock k mv gs =>
    simp only [step] at hstep
    split at hstep
    · injection hstep with hstep
      rw [show st1 = (st1, out).1 from rfl, ← hstep]
      exact hin
    · exact absurd hstep (by simp)
  | updateGameState sock k gs =>
    simp only [step] at hstep
    split at hstep
    · injection hstep with hstep
      rw [show st1 = (st1, out).1 from rfl, ← hstep]
      exact hin
    · exact absurd hstep (by simp)
  | requestGameState sock k =>
    simp only [step] at hstep
    split at hstep
    · injection hstep with hstep
      rw [show st1 = (st1, out).1 from rfl, ← hstep]
      exact hin
    · exact absurd hstep (by simp)
  | leaveGame sock k pid =>
    simp only [step] at hstep
    split at hstep
    · injection hstep with hstep
      rw [show st1 = (st1, out).1 from rfl, ← hstep]
      exact hin
    · exact absurd hstep (by simp)
  | disconnect sock =>
    simp only [step] at hstep
    split at hstep
    · exact absurd hstep (by simp)
    · injection hstep with hstep
      have h1 : st1 = (onDisconnect st sock).1 := by rw [hstep]
      have hne : c ≠ sock := by
        intro h
        apply hlive
        rw [h1, h]
        exact List.mem_cons_self _ _
      rw [h1]
      simp only [onDisconnect, List.mem_filter]
      exact ⟨hin, by simpa using hne⟩
  | timeout k sock =>
    simp only [step] at hstep
    split at hstep
    · injection hstep with hstep
      rw [show st1 = (st1, out).1 from rfl, ← hstep]
      exact hin
    · exact absurd hstep (by simp)

theorem run_closed (c : String) (evs : List Event) (st st' : State) (out : List Emit)
    (hc : c ∈ st.closed) (hrun : run st evs = some (st', out)) : c ∈ st'.closed :=
  run_induction (fun x => c ∈ x.closed) (fun a b e o hab hs => step_closed a b e o c hab hs)
    evs st st' out hc hrun

theorem run_rooms_keep (c sid : String) (evs : List Event) :
    ∀ (st st' : State) (out : List Emit), run st evs = some (st', out) →
      (c, sid) ∈ st.rooms → c ∉ st'.closed → (c, sid) ∈ st'.rooms := by
  induction evs with
  | nil =>
    intro st st' out hrun hin _
    simp only [run, Option.some.injEq, Prod.mk.injEq] at hrun
    rw [← hrun.1]
    exact hin
  | cons e es ih =>
    intro st st' out hrun hin hlive
    obtain ⟨sa, oa, ob, hs, hr, _⟩ := run_cons _ _ _ _ _ hrun
    have hsa : c ∉ sa.closed := fun h => hlive (run_closed c es sa st' ob h hr)
    exact ih sa st' ob hr (step_rooms_keep st sa e oa c sid hs hin hsa) hlive

theorem step_rooms_out (st st1 : State) (e : Event) (out : List Emit) (c sid : String)
    (hstep : step st e = some (st1, out)) (hout : (c, sid) ∉ st.rooms)
    (hadm : admitsNot sid c st e = true) : (c, sid) ∉ st1.rooms := by
  cases e with
  | joinSession sock k n draw =>
    simp only [step] at hstep
    split at hstep
    · injection hstep with hstep
      rw [show st1 = (st1, out).1 from rfl, ← hstep, onJoinSession_rooms]
      split
      · rename_i hacc
        rw [mem_joinRoom]
        rintro (h | h)
        · exact hout h
        · injection h with h1 h2
          simp [admitsNot, h1, h2, hacc] at hadm
      · exact hout
    · exact absurd hstep (by simp)
  | move sock k mv gs =>
    simp only [step] at hstep
    split at hstep
    · injection hstep with hstep
      rw [show st1 = (st1, out).1 from rfl, ← hstep]
      exact hout
    · exact absurd hstep (by simp)
  | updateGameState sock k gs =>
    simp only [step] at hstep
    split at hstep
    · injection hstep with hstep
      rw [show st1 = (st1, out).1 from rfl, ← hstep]
      exact hout
    · exact absurd hstep (by simp)
  | requestGameState sock k =>
    simp only [step] at hstep
    split at hstep
    · injection hstep with hstep
      rw [show st1 = (st1, out).1 from rfl, ← hstep]
      exact hout
    · exact absurd hstep (by simp)
  | leaveGame sock k pid =>
    simp only [step] at hstep
    split at hstep
    · injection hstep with hstep
      rw [show st1 = (st1, out).1 from rfl, ← hstep]
      exact hout
    · exact absurd hstep (by simp)
  | disconnect sock =>
    simp only [step] at hstep
    split at hstep
    · exact absurd hstep (by simp)
    · injection hstep with hstep
      rw [show st1 = (st1, out).1 from rfl, ← hstep]
      simp only [onDisconnect, List.mem_filter]
      exact fun h => hout h.1
  | timeout k sock =>
    simp only [step] at hstep
    split at hstep
    · injection hstep with hstep
      rw [show st1 = (st1, out).1 from rfl, ← hstep]
      exact hout
    · exact absurd hstep (by simp)

theorem run_rooms_out (c sid : String) (evs : List Event) :
    ∀ (st st' : State) (out : List Emit), run st evs = some (st', out) →
      (c, sid) ∉ st.rooms → neverAdmitted sid c st evs = true → (c, sid) ∉ st'.rooms := by
  induction evs with
  | nil =>
    intro st st' out hrun hout _
    simp only [run, Option.some.injEq, Prod.mk.injEq] at hrun
    rw [← hrun.1]
    exact hout
  | cons e es ih =>
    intro st st' out hrun hout hadm
    obtain ⟨sa, oa, ob, hs, hr, _⟩ := run_cons _ _ _ _ _ hrun
    simp only [neverAdmitted, hs, Bool.and_eq_true] at hadm
    exact ih sa st' ob hr (step_rooms_out st sa e oa c sid hs hout hadm.1) hadm.2

theorem Store.slot_ne_inherited (m : Store) (k : String) (h : k ∉ inheritedKeys) :
    m.slot k ≠ .inherited := by
  unfold Store.slot
  cases m.get? k with
  | none => simp [h]
  | some s => simp


theorem heldBy_iff (c n sid : String) (m : Store) :
    HeldBy c n sid m ↔ ∀ s, m.get? sid = some s → ∀ p ∈ s.players, p.id = c → p.name = n := by
  unfold HeldBy rosterOf
  constructor
  · intro h s hs p hp
    exact h (s.players, s.assignedColors) (by simp [hs]) p hp
  · intro h r hr p hp
    cases hs : m.get? sid with
    | none => simp [hs] at hr
    | some s =>
      simp only [hs, Option.map_some', Option.some.injEq] at hr
      exact h s hs p (by rw [← hr] at hp; exact hp)

theorem heldBy_of_rosterOf (c n sid : String) (m m' : Store)
    (he : rosterOf m' sid = rosterOf m sid) (h : HeldBy c n sid m) : HeldBy c n sid m' := by
  unfold HeldBy at *
  rw [he]
  exact h

theorem removeConnection_heldBy (m : Store) (sid c n sock reason : String)
    (h : HeldBy c n sid m) : HeldBy c n sid (removeConnection m sid sock reason).1 := by
  rw [heldBy_iff] at h ⊢
  cases hs : m.get? sid with
  | none =>
    simp only [removeConnection, hs]
    intro s hs'
    exact absurd hs' (by simp)
  | some s =>
    intro s' hs' p hp
    rcases removeConnection_get?_self m sid sock reason s hs with h1 | h1 | h1
    · rw [h1] at hs'
      injection hs' with hs'
      subst hs'
      exact h s hs p hp
    · rw [h1] at hs'
      exact absurd hs' (by simp)
    · rw [h1] at hs'
      injection hs' with hs'
      subst hs'
      exact h s hs p (List.mem_filter.mp hp).1

theorem onJoinSession_heldBy (st : State) (sock sid c n name : String) (draw : Draw)
    (hne : sock ≠ c) (h : HeldBy c n sid st.sessions) :
    HeldBy c n sid (onJoinSession st sock sid name draw).1.sessions := by
  rw [heldBy_iff] at h ⊢
  intro s' hs' p hp hpc
  rw [onJoinSession_get?_self] at hs'
  injection hs' with hs'
  have hold : ∀ q ∈ ((st.sessions.get? sid).getD Session.empty).players, q.id = c → q.name = n := by
    cases hs : st.sessions.get? sid with
    | none => simp [Session.empty]
    | some s => simpa using h s hs
  cases hj : joinRecord ((st.sessions.get? sid).getD Session.empty) sock name draw with
  | none =>
    rw [hj] at hs'
    simp only [Option.getD_none] at hs'
    subst hs'
    exact hold p hp hpc
  | some s1 =>
    rw [hj] at hs'
    simp only [Option.getD_some] at hs'
    subst hs'
    rcases mem_joinRecord _ _ _ _ _ _ hj hp with h1 | h1
    · exact hold p h1 hpc
    · exact absurd (h1.symm.trans hpc) hne

theorem step_heldBy (st st1 : State) (e : Event) (out : List Emit) (c n sid : String)
    (hc : c ∈ st.closed) (h : HeldBy c n sid st.sessions)
    (hstep : step st e = some (st1, out)) : HeldBy c n sid st1.sessions := by
  by_cases hq : quiet sid e = true
  · exact heldBy_of_rosterOf c n sid _ _ (step_quiet sid st st1 e out hq hstep) h
  · cases e with
    | joinSession sock k nm draw =>
      have hk : k = sid := by
        by_contra hne
        exact hq (by simp [quiet, hne])
      subst hk
      simp only [step] at hstep
      split at hstep
      · rename_i hcl
        injection hstep with hstep
        rw [show st1 = (st1, out).1 from rfl, ← hstep]
        have hne : sock ≠ c := by
          intro he
          simp [clientOk, he, hc] at hcl
        exact onJoinSession_heldBy st sock k c n nm draw hne h
      · exact absurd hstep (by simp)
    | leaveGame sock k pid =>
      have hk : k = sid := by
        by_contra hne
        exact hq (by simp [quiet, hne])
      subst hk
      simp only [step] at hstep
      split at hstep
      · injection hstep with hstep
        rw [show st1 = (st1, out).1 from rfl, ← hstep]
        exact removeConnection_heldBy _ _ _ _ _ _ h
      · exact absurd hstep (by simp)
    | timeout k sock =>
      have hk : k = sid := by
        by_contra hne
        exact hq (by simp [quiet, hne])
      subst hk
      simp only [step] at hstep
      split at hstep
      · injection hstep with hstep
        rw [show st1 = (st1, out).1 from rfl, ← hstep]
        exact removeConnection_heldBy _ _ _ _ _ _ h
      · exact absurd hstep (by simp)
    | move sock k mv gs => exact absurd rfl hq
    | updateGameState sock k gs => exact absurd rfl hq
    | requestGameState sock k => exact absurd rfl hq
    | disconnect sock => exact absurd rfl hq

theorem step_timer_keep (st st1 : State) (e : Event) (out : List Emit) (sid c : String)
    (ht : (sid, c) ∈ st.timers) (hne : e ≠ .timeout sid c)
    (hstep : step st e = some (st1, out)) : (sid, c) ∈ st1.timers := by
  cases e with
  | disconnect sock =>
    simp only [step] at hstep
    split at hstep
    · exact absurd hstep (by simp)
    · injection hstep with hstep
      rw [show st1 = (st1, out).1 from rfl, ← hstep]
      exact List.mem_append_left _ ht
  | joinSession sock k n draw =>
    simp only [step] at hstep
    split at hstep
    · injection hstep with hstep
      rw [show st1 = (st1, out).1 from rfl, ← hstep, onJoinSession_timers]
      exact ht
    · exact absurd hstep (by simp)
  | move sock k mv gs =>
    simp only [step] at hstep
    split at hstep
    · injection hstep with hstep
      rw [show st1 = (st1, out).1 from rfl, ← hstep]
      exact ht
    · exact absurd hstep (by simp)
  | updateGameState sock k gs =>
    simp only [step] at hstep
    split at hstep
    · injection hstep with hstep
      rw [show st1 = (st1, out).1 from rfl, ← hstep]
      exact ht
    · exact absurd hstep (by simp)
  | requestGameState sock k =>
    simp only [step] at hstep
    split at hstep
    · injection hstep with hstep
      rw [show st1 = (st1, out).1 from rfl, ← hstep]
      exact ht
    · exact absurd hstep (by simp)
  | leaveGame sock k pid =>
    simp only [step] at hstep
    split at hstep
    · injection hstep with hstep
      rw [show st1 = (st1, out).1 from rfl, ← hstep]
      exact ht
    · exact absurd hstep (by simp)
  | timeout k sock =>
    simp only [step] at hstep
    split at hstep
    · injection hstep with hstep
      rw [show st1 = (st1, out).1 from rfl, ← hstep]
      have hpair : (sid, c) ≠ (k, sock) := by
        intro he
        injection he with h1 h2
        exact hne (by rw [h1, h2])
      exact (List.mem_erase_of_ne hpair).mpr ht
    · exact absurd hstep (by simp)

theorem run_timer_keep (sid c : String) (es : List Event) : ∀ (st st' : State) (out : List Emit),
    (sid, c) ∈ st.timers → (∀ e ∈ es, e ≠ .timeout sid c) → run st es = some (st', out) →
    (sid, c) ∈ st'.timers := by
  induction es with
  | nil =>
    intro st st' out ht _ h
    simp only [run, Option.some.injEq, Prod.mk.injEq] at h
    exact h.1 ▸ ht
  | cons e es ih =>
    intro st st' out ht hne h
    obtain ⟨sa, oa, ob, hs, hr, _⟩ := run_cons _ _ _ _ _ h
    exact ih sa st' ob
      (step_timer_keep st sa e oa sid c ht (hne e (List.mem_cons_self _ _)) hs)
      (fun x hx => hne x (List.mem_cons_of_mem _ hx)) hr

theorem setIdOfFirst_heldBy (l : List Player) (n c1 c2 : String)
    (hnd : (l.map Player.name).Nodup) (hn : n ∈ l.map Player.name)
    (hheld : ∀ q ∈ l, q.id = c1 → q.name = n) (hne : c2 ≠ c1) :
    ∀ p ∈ setIdOfFirst n c2 l, p.id ≠ c1 := by
  obtain ⟨pre, p0, post, hl, hp0, _, hset⟩ := setIdOfFirst_split n c2 l hn
  have hnot : p0.name ∉ (pre ++ post).map Player.name := by
    rw [hl] at hnd
    simp only [List.map_append, List.map_cons] at hnd
    have := (List.nodup_middle.mp hnd)
    simpa using (List.nodup_cons.mp this).1
  intro p hp hpc
  rw [hset] at hp
  rcases List.mem_append.mp hp with h | h
  · have hpl : p ∈ l := by rw [hl]; exact List.mem_append_left _ h
    have hpn : p.name = p0.name := (hheld p hpl hpc).trans hp0.symm
    exact hnot (List.mem_map.mpr ⟨p, List.mem_append_left _ h, hpn⟩)
  · rcases List.mem_cons.mp h with h | h
    · rw [h] at hpc
      exact hne hpc
    · have hpl : p ∈ l := by rw [hl]; exact List.mem_append_right _ (List.mem_cons_of_mem _ h)
      have hpn : p.name = p0.name := (hheld p hpl hpc).trans hp0.symm
      exact hnot (List.mem_map.mpr ⟨p, List.mem_append_right _ h, hpn⟩)

theorem onJoinSession_rejoin_noConn (st : State) (sid n c1 c2 : String) (draw : Draw)
    (hok : st.ok) (hheld : HeldBy c1 n sid st.sessions) (hne : c2 ≠ c1) :
    NoConn c1 sid (onJoinSession st c2 sid n draw).1.sessions := by
  rw [heldBy_iff] at hheld
  rw [noConn_iff]
  intro s' hs' p hp hpc
  rw [onJoinSession_get?_self] at hs'
  injection hs' with hs'
  have hold : ∀ q ∈ ((st.sessions.get? sid).getD Session.empty).players, q.id = c1 → q.name = n := by
    cases hs : st.sessions.get? sid with
    | none => simp [Session.empty]
    | some s => simpa using hheld s hs
  have hnd : (((st.sessions.get? sid).getD Session.empty).players.map Player.name).Nodup := by
    cases hs : st.sessions.get? sid with
    | none => simp [Session.empty]
    | some s => simpa using (hok _ (Store.mem_of_get? _ _ _ hs)).2.2
  by_cases hn : n ∈ ((st.sessions.get? sid).getD Session.empty).players.map Player.name
  · have hj : joinRecord ((st.sessions.get? sid).getD Session.empty) c2 n draw
        = some { ((st.sessions.get? sid).getD Session.empty) with
            players := setIdOfFirst n c2 ((st.sessions.get? sid).getD Session.empty).players } := by
      have hany := (any_name_iff n _).mpr hn
      simp [joinRecord, hany]
    rw [hj] at hs'
    simp only [Option.getD_some] at hs'
    subst hs'
    exact setIdOfFirst_heldBy _ n c1 c2 hnd hn hold hne p hp hpc
  · have hpin : p ∈ ((st.sessions.get? sid).getD Session.empty).players := by
      cases hj : joinRecord ((st.sessions.get? sid).getD Session.empty) c2 n draw with
      | none =>
        rw [hj] at hs'
        simp only [Option.getD_none] at hs'
        subst hs'
        exact hp
      | some s1 =>
        rw [hj] at hs'
        simp only [Option.getD_some] at hs'
        subst hs'
        rcases mem_joinRecord _ _ _ _ _ _ hj hp with h1 | h1
        · exact h1
        · exact absurd (h1.symm.trans hpc) hne
    exact hn (List.mem_map.mpr ⟨p, hpin, hold p hpin hpc⟩)

theorem Store.slot_of_get? (m : Store) (k : String) (s : Session) (h : m.get? k = some s) :
    m.slot k = .session s := by
  simp [Store.slot, h]

theorem Store.slot_of_get?_none (m : Store) (k : String) (hk : k ∉ inheritedKeys)
    (h : m.get? k = none) : m.slot k = .undefined := by
  simp [Store.slot, h, hk]

theorem find?_name_of_any (name : String) (ps : List Player) :
    (ps.find? (fun p => decide (p.name = name))).isSome
      = ps.any (fun p => decide (p.name = name)) := by
  induction ps with
  | nil => rfl
  | cons p ps ih =>
    by_cases h : p.name = name <;> simp [List.find?, h, ih]

theorem joinSessionTail_of_session (st : State) (m : Store) (sock sid : String) (s : Session) :
    joinSessionTail st (m.set sid s) sock sid
      = .done { st with sessions := m.set sid s, rooms := joinRoom st.rooms sock sid }
          ((if meaningful (getGameState (m.set sid s) sid) then
              [{ target := .socket sock, msg := .gameState (getGameState (m.set sid s) sid) }]
            else []) ++ [{ target := .room sid, msg := .playerJoined s.players }]) := by
  simp [joinSessionTail, Store.slot, Store.get?_set_self, getGameState, Slot.gameState]

theorem joinSessionRaw_body (st : State) (sock sid name : String) (draw : Draw)
    (m : Store) (s : Session) :
    (match s.players.find? (fun p => decide (p.name = name)) with
      | some _ =>
        joinSessionTail st
          (m.set sid { s with players := setIdOfFirst name sock s.players }) sock sid
      | none =>
        if s.players.length ≥ 2 then
          Outcome.done { st with sessions := m } [Emit.mk (.socket sock) .sessionFull]
        else if s.players.length = 0 then
          joinSessionTail st
            (m.set sid
              { s with
                players := s.players ++ [{ id := sock, name := name, color := firstColor draw }],
                assignedColors := [firstColor draw] })
            sock sid
        else
          joinSessionTail st
            (m.set sid
              { s with
                players := s.players
                  ++ [{ id := sock, name := name, color := secondColor s.assignedColors }],
                assignedColors := s.assignedColors ++ [secondColor s.assignedColors] })
            sock sid)
      = (match joinRecord s sock name draw with
          | none =>
            Outcome.done { st with sessions := m } [Emit.mk (.socket sock) .sessionFull]
          | some s1 =>
            Outcome.done { st with sessions := m.set sid s1, rooms := joinRoom st.rooms sock sid }
              ((if meaningful (getGameState (m.set sid s1) sid) then
                  [Emit.mk (.socket sock) (.gameState (getGameState (m.set sid s1) sid))]
                else []) ++ [Emit.mk (.room sid) (.playerJoined s1.players)])) := by
  have hfa := find?_name_of_any name s.players
  cases hf : s.players.find? (fun p => decide (p.name = name)) with
  | some p =>
    rw [hf] at hfa
    simp only [joinRecord, ← hfa, Option.isSome_some, if_true, joinSessionTail_of_session]
  | none =>
    rw [hf] at hfa
    simp only [joinRecord, ← hfa, Option.isSome_none, Bool.false_eq_true, if_false]
    by_cases h2 : s.players.length ≥ 2
    · simp only [h2, if_true]
    · simp only [h2, if_false]
      by_cases h0 : s.players.length = 0
      · simp only [h0, if_true, joinSessionTail_of_session]
      · simp only [h0, if_false, joinSessionTail_of_session]

theorem onJoinSession_as_outcome (st : State) (sock sid name : String) (draw : Draw)
    (m : Store) (s : Session) (hs : m.get? sid = some s)
    (he : ensureSession st.sessions sid = m) :
    Outcome.done (onJoinSession st sock sid name draw).1 (onJoinSession st sock sid name draw).2
      = (match joinRecord s sock name draw with
          | none =>
            Outcome.done { st with sessions := m } [Emit.mk (.socket sock) .sessionFull]
          | some s1 =>
            Outcome.done { st with sessions := m.set sid s1, rooms := joinRoom st.rooms sock sid }
              ((if meaningful (getGameState (m.set sid s1) sid) then
                  [Emit.mk (.socket sock) (.gameState (getGameState (m.set sid s1) sid))]
                else []) ++ [Emit.mk (.room sid) (.playerJoined s1.players)])) := by
  unfold onJoinSession
  simp only [he, hs, Option.getD_some]
  cases joinRecord s sock name draw <;> rfl

theorem joinSessionRaw_eq (st : State) (sock sid name : String) (draw : Draw)
    (hsid : sid ∉ inheritedKeys) :
    joinSessionRaw st sock sid name draw
      = .done (onJoinSession st sock sid name draw).1 (onJoinSession st sock sid name draw).2 := by
  cases hget : st.sessions.get? sid with
  | none =>
    rw [onJoinSession_as_outcome st sock sid name draw (st.sessions.set sid Session.empty)
      Session.empty (Store.get?_set_self _ _ _) (by simp [ensureSession, hget])]
    rw [← joinSessionRaw_body]
    simp only [joinSessionRaw, Store.slot_of_get?_none _ _ hsid hget,
      Store.slot_of_get? _ _ _ (Store.get?_set_self st.sessions sid Session.empty)]
  | some s =>
    rw [onJoinSession_as_outcome st sock sid name draw st.sessions s hget
      (by simp [ensureSession, hget])]
    rw [← joinSessionRaw_body]
    simp only [joinSessionRaw, Store.slot_of_get? _ _ _ hget]

theorem updateGameStateAt_eq (m : Store) (sid : String) (gs : GameState)
    (hsid : sid ∉ inheritedKeys) :
    updateGameStateAt m sid gs = some (updateGameState m sid gs) := by
  cases hget : m.get? sid with
  | none => simp [updateGameStateAt, updateGameState, hget, Store.slot_of_get?_none _ _ hsid hget]
  | some s => simp [updateGameStateAt, updateGameState, hget, Store.slot_of_get? _ _ _ hget]

theorem Slot.gameState_eq (m : Store) (sid : String) :
    (m.slot sid).gameState = getGameState m sid := by
  cases hget : m.get? sid with
  | none =>
    by_cases hk : sid ∈ inheritedKeys <;> simp [Store.slot, hget, hk, Slot.gameState, getGameState]
  | some s => simp [Store.slot, hget, Slot.gameState, getGameState]

theorem leaveGameRaw_eq (st : State) (sock sid : String) (playerId : JSVal)
    (hsid : sid ∉ inheritedKeys) (hp : playerId.printable = true) :
    leaveGameRaw st sock sid playerId
      = .done (onLeaveGame st sock sid playerId).1 (onLeaveGame st sock sid playerId).2 := by
  cases hget : st.sessions.get? sid with
  | none =>
    simp [leaveGameRaw, hp, Store.slot_of_get?_none _ _ hsid hget, onLeaveGame,
      removeConnection, hget]
  | some s =>
    simp only [leaveGameRaw, hp, if_true, Store.slot_of_get? _ _ _ hget, onLeaveGame,
      removeConnection, hget]
    cases hf : s.players.find? (fun p => decide (p.id = sock)) with
    | none => rfl
    | some lp => rfl

theorem leaveGameRaw_of_unprintable (st : State) (sock sid : String) (playerId : JSVal)
    (hp : playerId.printable = false) :
    leaveGameRaw st sock sid playerId = .threw .notConvertible := by
  simp [leaveGameRaw, hp]

theorem leaveGameRaw_done (st st' : State) (sock sid : String) (playerId : JSVal)
    (out : List Emit) (h : leaveGameRaw st sock sid playerId = .done st' out) :
    (st', out) = onLeaveGame st sock sid playerId := by
  by_cases hp : playerId.printable = true
  · cases hget : st.sessions.get? sid with
    | none =>
      by_cases hk : sid ∈ inheritedKeys
      · simp [leaveGameRaw, hp, Store.slot, hget, hk] at h
      · rw [leaveGameRaw_eq st sock sid playerId hk hp] at h
        injection h with h1 h2
        rw [← h1, ← h2]
    | some s =>
      have h' : leaveGameRaw st sock sid playerId
          = .done (onLeaveGame st sock sid playerId).1 (onLeaveGame st sock sid playerId).2 := by
        simp only [leaveGameRaw, hp, if_true, Store.slot_of_get? _ _ _ hget, onLeaveGame,
          removeConnection, hget]
        cases hf : s.players.find? (fun p => decide (p.id = sock)) with
        | none => rfl
        | some lp => rfl
      rw [h'] at h
      injection h with h1 h2
      rw [← h1, ← h2]
  · simp [leaveGameRaw, hp] at h

theorem joinRecord_of_accepted_entries (s : Session) (sock name : String) (draw : Draw)
    (h : (s.players.any (fun p => decide (p.name = name))
      || decide (s.players.length < 2)) = true) :
    ∃ s1, joinRecord s sock name draw = some s1 ∧
      ((name ∈ s.players.map Player.name ∧
          ∃ pre p post, s.players = pre ++ p :: post ∧ p.name = name ∧
            (∀ q ∈ pre, q.name ≠ name) ∧
            s1.players = pre ++ { id := sock, name := name, color := p.color } :: post) ∨
        (name ∉ s.players.map Player.name ∧
          ∃ col, s1.players = s.players ++ [{ id := sock, name := name, color := col }])) := by
  unfold joinRecord
  by_cases hany : s.players.any (fun p => decide (p.name = name)) = true
  · rw [if_pos hany]
    have hn := (any_name_iff name s.players).mp hany
    obtain ⟨pre, p, post, hl, hp, hpre, hset⟩ := setIdOfFirst_split name sock s.players hn
    refine ⟨_, rfl, Or.inl ⟨hn, pre, p, post, hl, hp, hpre, ?_⟩⟩
    simp only [hset, hp]
  · rw [if_neg hany]
    have hlen : s.players.length < 2 := by
      simp only [Bool.or_eq_true, decide_eq_true_eq] at h
      rcases h with h | h
      · exact absurd h hany
      · exact h
    have hnot : name ∉ s.players.map Player.name :=
      fun hm => hany ((any_name_iff name s.players).mpr hm)
    rw [if_neg (by omega)]
    split
    · exact ⟨_, rfl, Or.inr ⟨hnot, _, rfl⟩⟩
    · exact ⟨_, rfl, Or.inr ⟨hnot, _, rfl⟩⟩
/-! ## The claims -/

/-- C1: in every state reached from the freshly started server by any sequence
of joinSession, move, updateGameState, requestGameState, leaveGame, disconnect
and timer-expiry events, every stored session has at most two players. -/
theorem roster_length_le_two (evs : List Event) (st : State) (out : List Emit)
    (h : run State.init evs = some (st, out)) :
    ∀ e ∈ st.sessions, e.2.players.length ≤ 2 :=
  fun e he => (run_ok evs st out h e he).2.1

/-- The statement of C1 on the run where Carol is turned away from a full session. -/
theorem roster_length_le_two_witness :
    run State.init threeJoins = some (afterThreeJoins, threeJoinsOut) ∧
      ∀ e ∈ afterThreeJoins.sessions, e.2.players.length ≤ 2 :=
  ⟨by decide, roster_length_le_two threeJoins afterThreeJoins threeJoinsOut (by decide)⟩

/-- C2 (the code breaks it): Alice draws white, Bob gets black, Alice leaves and
Carol joins.  Carol's colour is computed from `assignedColors[0]`, the colour of
the first joiner who is gone, so the roster then holds Bob and Carol, both
black. -/
theorem newcomer_duplicates_remaining_role :
    (run State.init carolTakesSeat).map (fun r => r.1.sessions) = some afterCarolTakesSeat ∧
    (afterCarolTakesSeat.get? "ABC123").map (fun s => s.players.length) = some 2 ∧
    roleOf afterCarolTakesSeat "ABC123" "Bob" = some .black ∧
    roleOf afterCarolTakesSeat "ABC123" "Carol" = some .black := by
  decide

/-- C3: when a session id has no stored session and two distinct display names
join it one after the other, with no join, leave or timer expiry on that session
in between (moves, snapshot updates and requests, connection drops and events of
other sessions may occur), the roster is the first joiner with the drawn colour
followed by the second joiner with the other colour, whatever the draws were. -/
theorem second_joiner_gets_complement (st st' : State) (out : List Emit)
    (sid c1 c2 n1 n2 : String) (d1 d2 : Draw) (mid : List Event)
    (hnew : st.sessions.get? sid = none) (hne : n1 ≠ n2)
    (hmid : ∀ e ∈ mid, quiet sid e = true)
    (hrun : run st (.joinSession c1 sid n1 d1 :: (mid ++ [.joinSession c2 sid n2 d2]))
      = some (st', out)) :
    ∃ s, st'.sessions.get? sid = some s ∧
      s.players = [⟨c1, n1, firstColor d1⟩, ⟨c2, n2, (firstColor d1).other⟩] ∧
      (firstColor d1).other ≠ firstColor d1 := by
  obtain ⟨sa, oa, ob, hs1, hr1, _⟩ := run_cons _ _ _ _ _ hrun
  obtain ⟨sb, oc, od, hr2, hr3, _⟩ := run_append _ _ _ _ _ hr1
  obtain ⟨sc, oe, og, hs2, hr4, _⟩ := run_cons _ _ _ _ _ hr3
  simp only [run, Option.some.injEq, Prod.mk.injEq] at hr4
  have hsc : sc = st' := hr4.1
  subst hsc
  -- the first join creates the session with the drawn colour
  have h1 : rosterOf sa.sessions sid
      = some ([⟨c1, n1, firstColor d1⟩], [firstColor d1]) := by
    simp only [step] at hs1
    split at hs1
    · injection hs1 with hs1
      rw [show sa = (sa, oa).1 from rfl, ← hs1]
      simp [rosterOf, onJoinSession, ensureSession, hnew, Store.get?_set_self, joinRecord,
        Session.empty, Store.set_set]
    · exact absurd hs1 (by simp)
  -- nothing in between touches roster or colours
  have h2 := run_quiet sid mid sa sb oc hmid hr2
  rw [h1] at h2
  -- the second join appends the complement
  simp only [step] at hs2
  split at hs2
  · injection hs2 with hs2
    simp only [rosterOf, Option.map_eq_some'] at h2
    obtain ⟨s0, hs0, hs0eq⟩ := h2
    simp only [Prod.mk.injEq] at hs0eq
    have hp : s0.players = [⟨c1, n1, firstColor d1⟩] := hs0eq.1
    have hc : s0.assignedColors = [firstColor d1] := hs0eq.2
    refine ⟨{ s0 with
        players := [⟨c1, n1, firstColor d1⟩, ⟨c2, n2, (firstColor d1).other⟩],
        assignedColors := [firstColor d1, (firstColor d1).other] }, ?_, rfl, ?_⟩
    · rw [show sc = (sc, oe).1 from rfl, ← hs2]
      simp [onJoinSession, ensureSession, hs0, joinRecord, hp, hc, hne, Store.get?_set_self,
        secondColor_singleton]
    · cases firstColor d1 <;> simp [Color.other]
  · exact absurd hs2 (by simp)

/-- The statement of C3 on a run where Alice drops before Bob joins. -/
theorem second_joiner_gets_complement_witness :
    State.init.sessions.get? "ABC123" = none ∧
    run State.init
        (.joinSession "c1" "ABC123" "Alice" ⟨1, 2⟩ ::
          (betweenJoins ++ [.joinSession "c2" "ABC123" "Bob" ⟨0, 0⟩]))
      = some (afterBetweenJoins, betweenJoinsOut) ∧
    ∃ s, afterBetweenJoins.sessions.get? "ABC123" = some s ∧
      s.players = [⟨"c1", "Alice", firstColor ⟨1, 2⟩⟩, ⟨"c2", "Bob", (firstColor ⟨1, 2⟩).other⟩] ∧
      (firstColor ⟨1, 2⟩).other ≠ firstColor ⟨1, 2⟩ :=
  ⟨by decide, by decide,
    second_joiner_gets_complement State.init afterBetweenJoins betweenJoinsOut
      "ABC123" "c1" "c2" "Alice" "Bob" ⟨1, 2⟩ ⟨0, 0⟩ betweenJoins
      (by decide) (by decide) (by decide) (by decide)⟩

/-- C4: a joinSession under a display name that is already in the session's
roster, from any connection and whatever the roster length, only replaces the
connection id of the first (in a reachable state: the only) entry with that
name: the entries before and after it, its name and colour, assignedColors and
the snapshot are unchanged, the other sessions are untouched, and no
`sessionFull` is emitted. -/
theorem rejoin_replaces_only_connection (st : State) (sock sid name : String) (draw : Draw)
    (s : Session) (hs : st.sessions.get? sid = some s)
    (hname : name ∈ s.players.map Player.name) :
    ∃ pre p post,
      s.players = pre ++ p :: post ∧ p.name = name ∧ (∀ q ∈ pre, q.name ≠ name) ∧
      (onJoinSession st sock sid name draw).1.sessions.get? sid =
        some { players := pre ++ { id := sock, name := p.name, color := p.color } :: post,
               assignedColors := s.assignedColors, gameState := s.gameState } ∧
      (∀ k, k ≠ sid →
        (onJoinSession st sock sid name draw).1.sessions.get? k = st.sessions.get? k) ∧
      (∀ e ∈ (onJoinSession st sock sid name draw).2, e.msg ≠ .sessionFull) := by
  obtain ⟨pre, p, post, hl, hp, hpre, hset⟩ := setIdOfFirst_split name sock s.players hname
  have hany := (any_name_iff name s.players).mpr hname
  have hj : joinRecord s sock name draw
      = some { s with players := setIdOfFirst name sock s.players } := by
    simp [joinRecord, hany]
  refine ⟨pre, p, post, hl, hp, hpre, ?_, fun k hk => onJoinSession_get?_of_ne _ _ _ _ _ _ hk, ?_⟩
  · simp [onJoinSession, ensureSession, hs, hj, Store.get?_set_self, hset]
  · intro e he
    simp only [onJoinSession, ensureSession, hs, Option.getD_some, hj] at he
    rcases List.mem_append.mp he with he | he
    · split at he
      · simp only [List.mem_singleton] at he
        simp [he]
      · simp at he
    · simp only [List.mem_singleton] at he
      simp [he]

/-- The statement of C4 for Bob rejoining the full session on a new connection. -/
theorem rejoin_replaces_only_connection_witness :
    afterThreeJoins.sessions.get? "ABC123" = some aliceAndBob ∧
    "Bob" ∈ aliceAndBob.players.map Player.name ∧
    (onJoinSession afterThreeJoins "c9" "ABC123" "Bob" ⟨0, 0⟩).1.sessions.get? "ABC123"
      = some { players := [⟨"c1", "Alice", .white⟩, ⟨"c9", "Bob", .black⟩],
               assignedColors := [.white, .black], gameState := [] } ∧
    ∃ pre p post,
      aliceAndBob.players = pre ++ p :: post ∧ p.name = "Bob" ∧ (∀ q ∈ pre, q.name ≠ "Bob") ∧
      (onJoinSession afterThreeJoins "c9" "ABC123" "Bob" ⟨0, 0⟩).1.sessions.get? "ABC123" =
        some { players := pre ++ { id := "c9", name := p.name, color := p.color } :: post,
               assignedColors := aliceAndBob.assignedColors,
               gameState := aliceAndBob.gameState } ∧
      (∀ k, k ≠ "ABC123" →
        (onJoinSession afterThreeJoins "c9" "ABC123" "Bob" ⟨0, 0⟩).1.sessions.get? k
          = afterThreeJoins.sessions.get? k) ∧
      (∀ e ∈ (onJoinSession afterThreeJoins "c9" "ABC123" "Bob" ⟨0, 0⟩).2,
        e.msg ≠ .sessionFull) :=
  ⟨by decide, by decide, by decide,
    rejoin_replaces_only_connection afterThreeJoins "c9" "ABC123" "Bob" ⟨0, 0⟩ aliceAndBob
      (by decide) (by decide)⟩

/-- C5: when the roster has two players and the display name is not among them,
joinSession returns the state it was given (sessions, room memberships, timers)
and emits exactly one event, `sessionFull`, to the joining connection. -/
theorem third_name_is_turned_away (st : State) (sock sid name : String) (draw : Draw)
    (s : Session) (hs : st.sessions.get? sid = some s) (hfull : s.players.length = 2)
    (hname : name ∉ s.players.map Player.name) :
    onJoinSession st sock sid name draw
      = (st, [{ target := .socket sock, msg := .sessionFull }]) := by
  have hany : s.players.any (fun p => decide (p.name = name)) = false := by
    cases h : s.players.any (fun p => decide (p.name = name)) with
    | false => rfl
    | true => exact absurd ((any_name_iff name s.players).mp h) hname
  have hj : joinRecord s sock name draw = none := by
    simp [joinRecord, hany, hfull]
  simp [onJoinSession, ensureSession, hs, hj]

/-- The statement of C5 for Carol at the session of Alice and Bob. -/
theorem third_name_is_turned_away_witness :
    afterThreeJoins.sessions.get? "ABC123" = some aliceAndBob ∧
    aliceAndBob.players.length = 2 ∧
    "Carol" ∉ aliceAndBob.players.map Player.name ∧
    onJoinSession afterThreeJoins "c3" "ABC123" "Carol" ⟨1, 2⟩
      = (afterThreeJoins, [{ target := .socket "c3", msg := .sessionFull }]) :=
  ⟨by decide, by decide, by decide,
    third_name_is_turned_away afterThreeJoins "c3" "ABC123" "Carol" ⟨1, 2⟩ aliceAndBob
      (by decide) (by decide) (by decide)⟩

/-- C6: after every event of every run from the freshly started server, no stored
session has an empty roster: every key maps to a record with at least one
player. -/
theorem no_empty_session (evs : List Event) (st : State) (out : List Emit)
    (h : run State.init evs = some (st, out)) :
    (∀ e ∈ st.sessions, e.2.players ≠ []) ∧
      ∀ k s, st.sessions.get? k = some s → 1 ≤ s.players.length := by
  have hok := run_ok evs st out h
  refine ⟨fun e he => (hok e he).1, fun k s hk => ?_⟩
  have := (hok _ (Store.mem_of_get? _ _ _ hk)).1
  exact List.length_pos.mpr this

/-- The statement of C6 on a run in which one session is emptied by a leave and
another loses a player to a timer. -/
theorem no_empty_session_witness :
    run State.init leaveAndExpire = some (afterLeaveAndExpire, leaveAndExpireOut) ∧
      ((∀ e ∈ afterLeaveAndExpire.sessions, e.2.players ≠ []) ∧
        ∀ k s, afterLeaveAndExpire.sessions.get? k = some s → 1 ≤ s.players.length) :=
  ⟨by decide, no_empty_session leaveAndExpire afterLeaveAndExpire leaveAndExpireOut (by decide)⟩

/-- C7 fails as stated: Alice holds white next to Bob, leaves, and joins again
while Bob keeps the session alive; she is then in the roster with black. -/
theorem returning_first_joiner_changes_role :
    (run State.init threeJoins).map (fun r => r.1) = some afterThreeJoins ∧
    roleOf afterThreeJoins.sessions "ABC123" "Alice" = some .white ∧
    (step afterThreeJoins (.leaveGame "c1" "ABC123" .undefined)).map (fun r => r.1)
      = some afterAliceLeft ∧
    (step afterAliceLeft (.joinSession "c1" "ABC123" "Alice" ⟨1, 2⟩)).map (fun r => r.1)
      = some afterAliceBack ∧
    roleOf afterAliceBack.sessions "ABC123" "Alice" = some .black := by
  decide

/-- C7, amended: in a run from a reachable state, a display name that holds role
`r` in a session and is in that session's roster after every event of the run
(rejoins from other connections included) still holds role `r` at the end. -/
theorem role_fixed_while_in_roster (evs0 evs : List Event) (st st' : State)
    (out0 out : List Emit) (sid name : String) (r : Color)
    (hreach : run State.init evs0 = some (st, out0))
    (hrole : roleOf st.sessions sid name = some r)
    (hrun : run st evs = some (st', out))
    (hstay : staysIn sid name st evs = true) :
    roleOf st'.sessions sid name = some r :=
  run_roleOf sid name r evs st st' out (run_ok evs0 st out0 hreach) hrole hrun hstay

/-- The amended C7 on a run where Alice drops, rejoins on another connection,
and Bob leaves. -/
theorem role_fixed_while_in_roster_witness :
    run State.init threeJoins = some (afterThreeJoins, threeJoinsOut) ∧
    roleOf afterThreeJoins.sessions "ABC123" "Alice" = some .white ∧
    run afterThreeJoins
        [.disconnect "c1", .joinSession "c5" "ABC123" "Alice" ⟨3, 2⟩,
         .leaveGame "c2" "ABC123" .undefined]
      = some (afterBobLeaves,
          aliceReconnectsOut ++
            [⟨.room "c5", .playerExplicitlyLeft "c2" "Alice" "Opponent left the game"⟩]) ∧
    roleOf afterBobLeaves.sessions "ABC123" "Alice" = some .white :=
  ⟨by decide, by decide, by decide,
    role_fixed_while_in_roster threeJoins
      [.disconnect "c1", .joinSession "c5" "ABC123" "Alice" ⟨3, 2⟩,
       .leaveGame "c2" "ABC123" .undefined]
      afterThreeJoins afterBobLeaves threeJoinsOut
      (aliceReconnectsOut ++
        [⟨.room "c5", .playerExplicitlyLeft "c2" "Alice" "Opponent left the game"⟩])
      "ABC123" "Alice" .white (by decide) (by decide) (by decide) (by decide)⟩

/-- C8 fails as stated: connection c1 joined as Alice and as Bob and dropped;
Alice rejoined from c2.  The timer armed for c1 then still finds Bob under c1,
removes him and emits `playerExplicitlyLeft` to Alice. -/
theorem stale_timer_removes_co_holder :
    (run State.init sharedConnection).map (fun r => r.1) = some afterSharedConnection ∧
    step afterSharedConnection (.timeout "ABC123" "c1")
      = some
        ({ sessions :=
             [("ABC123",
               { players := [⟨"c2", "Alice", .white⟩],
                 assignedColors := [.white, .black], gameState := [] })],
           rooms := [("c2", "ABC123")], timers := [], closed := ["c1"] },
         [{ target := .room "c2",
            msg := .playerExplicitlyLeft "c1" "Alice"
              "Opponent disconnected and did not reconnect" }]) ∧
    onTimeout afterSharedConnection "ABC123" "c1" ≠ (afterSharedConnection, []) := by
  decide

/-- C8, amended: let X be the only roster entry of the session that holds
connection id c1.  If c1 drops and, after any events in which the timer armed
for c1 in that session does not fire, X rejoins from another connection c2, then
the timer is still armed at the rejoin, and in every state reached afterwards
its callback returns the state unchanged and emits nothing; so does its firing,
which only disarms it. -/
theorem stale_timer_is_noop (evs0 mid evs : List Event) (st st2 st' : State)
    (out0 out2 out : List Emit) (sid c1 c2 : String) (draw : Draw) (s : Session) (X : Player)
    (hreach : run State.init evs0 = some (st, out0))
    (hs : st.sessions.get? sid = some s)
    (hX : X ∈ s.players) (hXc : X.id = c1)
    (honly : ∀ q ∈ s.players, q.id = c1 → q = X)
    (hne : c2 ≠ c1)
    (hmid : ∀ e ∈ mid, e ≠ .timeout sid c1)
    (hdrop : run st (.disconnect c1 :: (mid ++ [.joinSession c2 sid X.name draw]))
      = some (st2, out2))
    (hlater : run st2 evs = some (st', out)) :
    (sid, c1) ∈ st2.timers ∧ onTimeout st' sid c1 = (st', []) ∧
      ((sid, c1) ∈ st'.timers →
        step st' (.timeout sid c1)
          = some ({ st' with timers := st'.timers.erase (sid, c1) }, [])) := by
  have hok : st.ok := run_ok evs0 st out0 hreach
  obtain ⟨sa, oa, ob, hs1, hr1, _⟩ := run_cons _ _ _ _ _ hdrop
  obtain ⟨sm, oc, od, hrm, hr2, _⟩ := run_append _ _ _ _ _ hr1
  obtain ⟨sb, oe, og, hs2, hr3, _⟩ := run_cons _ _ _ _ _ hr2
  simp only [run, Option.some.injEq, Prod.mk.injEq] at hr3
  have hsb : sb = st2 := hr3.1
  subst hsb
  -- the drop arms the timer and closes c1
  have hsa_ok : sa.ok := step_ok st sa _ oa hok hs1
  simp only [step] at hs1
  split at hs1
  · exact absurd hs1 (by simp)
  · injection hs1 with hs1
    have hsa : sa = (onDisconnect st c1).1 := by rw [hs1]
    have hsa_s : sa.sessions = st.sessions := by rw [hsa]; rfl
    have hsa_c : c1 ∈ sa.closed := by rw [hsa]; exact List.mem_cons_self _ _
    have hsa_t : (sid, c1) ∈ sa.timers := by
      rw [hsa]
      simp only [onDisconnect, List.mem_append, List.mem_map, List.mem_filter]
      refine Or.inr ⟨(sid, s), ⟨Store.mem_of_get? _ _ _ hs, ?_⟩, rfl⟩
      exact List.any_eq_true.mpr ⟨X, hX, by simp [hXc]⟩
    have hsa_h : HeldBy c1 X.name sid sa.sessions := by
      rw [heldBy_iff, hsa_s]
      intro s0 hs0 q hq hqc
      rw [hs] at hs0
      injection hs0 with hs0
      subst hs0
      rw [honly q hq hqc]
    -- whatever happens before the rejoin keeps all that
    have hsm := run_induction
      (fun x => x.ok ∧ c1 ∈ x.closed ∧ HeldBy c1 X.name sid x.sessions)
      (fun a b e o hab hst =>
        ⟨step_ok a b e o hab.1 hst, step_closed a b e o c1 hab.2.1 hst,
          step_heldBy a b e o c1 X.name sid hab.2.1 hab.2.2 hst⟩)
      mid sa sm oc ⟨hsa_ok, hsa_c, hsa_h⟩ hrm
    have hsm_t : (sid, c1) ∈ sm.timers := run_timer_keep sid c1 mid sa sm oc hsa_t hmid hrm
    -- the rejoin moves the slot of X to c2
    simp only [step] at hs2
    split at hs2
    · injection hs2 with hs2
      have hsb : sb = (onJoinSession sm c2 sid X.name draw).1 := by rw [hs2]
      have hsb_t : (sid, c1) ∈ sb.timers := by rw [hsb, onJoinSession_timers]; exact hsm_t
      have hsb_c : c1 ∈ sb.closed := by rw [hsb, onJoinSession_closed]; exact hsm.2.1
      have hsb_n : NoConn c1 sid sb.sessions := by
        rw [hsb]
        exact onJoinSession_rejoin_noConn sm sid X.name c1 c2 draw hsm.1 hsm.2.2 hne
      have hfin := run_noConn c1 sid evs sb st' out hsb_c hsb_n hlater
      refine ⟨hsb_t, ?_, fun harmed => ?_⟩
      · simp only [onTimeout, removeConnection_of_noConn _ _ _ _ hfin]
      · simp only [step, harmed, if_true, onTimeout, removeConnection_of_noConn _ _ _ _ hfin]
    · exact absurd hs2 (by simp)

/-- The amended C8 on a run where Alice drops, Bob asks for the snapshot, and
Alice rejoins; later she drops and rejoins once more. -/
theorem stale_timer_is_noop_witness :
    run State.init threeJoins = some (afterThreeJoins, threeJoinsOut) ∧
    run afterThreeJoins
        (.disconnect "c1" ::
          ([.requestGameState "c2" "ABC123"] ++ [.joinSession "c5" "ABC123" "Alice" ⟨3, 2⟩]))
      = some (afterAliceReconnects, aliceReconnectsOut) ∧
    run afterAliceReconnects [.disconnect "c5", .joinSession "c6" "ABC123" "Alice" ⟨3, 2⟩]
      = some (afterSecondReconnect, secondReconnectOut) ∧
    (("ABC123", "c1") : String × String) ∈ afterAliceReconnects.timers ∧
    onTimeout afterSecondReconnect "ABC123" "c1" = (afterSecondReconnect, []) :=
  ⟨by decide, by decide, by decide,
    (stale_timer_is_noop threeJoins [.requestGameState "c2" "ABC123"]
      [.disconnect "c5", .joinSession "c6" "ABC123" "Alice" ⟨3, 2⟩]
      afterThreeJoins afterAliceReconnects afterSecondReconnect
      threeJoinsOut aliceReconnectsOut secondReconnectOut
      "ABC123" "c1" "c5" ⟨3, 2⟩ aliceAndBob ⟨"c1", "Alice", .white⟩
      (by decide) (by decide) (by decide) (by decide) (by decide) (by decide) (by decide)
      (by decide) (by decide)).1,
    (stale_timer_is_noop threeJoins [.requestGameState "c2" "ABC123"]
      [.disconnect "c5", .joinSession "c6" "ABC123" "Alice" ⟨3, 2⟩]
      afterThreeJoins afterAliceReconnects afterSecondReconnect
      threeJoinsOut aliceReconnectsOut secondReconnectOut
      "ABC123" "c1" "c5" ⟨3, 2⟩ aliceAndBob ⟨"c1", "Alice", .white⟩
      (by decide) (by decide) (by decide) (by decide) (by decide) (by decide) (by decide)
      (by decide) (by decide)).2.1⟩

/-- C9: in a reachable state where the timer for connection `c` is armed, the
session exists and its roster holds X with connection id `c` and Y with another
connection id, the expiry leaves the session with roster exactly `[Y]` and emits
exactly one event: `playerExplicitlyLeft` to Y's connection id, naming Y as
winner, with the reason text of the claim up to letter case. -/
theorem expiry_declares_remaining_player_winner (evs : List Event) (st : State)
    (out : List Emit) (sid c : String) (s : Session) (X Y : Player)
    (hreach : run State.init evs = some (st, out))
    (harmed : (sid, c) ∈ st.timers)
    (hs : st.sessions.get? sid = some s)
    (hX : X ∈ s.players) (hY : Y ∈ s.players) (hXc : X.id = c) (hYc : Y.id ≠ c) :
    step st (.timeout sid c)
      = some
        ({ st with
            sessions := st.sessions.set sid { s with players := [Y] },
            timers := st.timers.erase (sid, c) },
         [{ target := .room Y.id,
            msg := .playerExplicitlyLeft c Y.name
              "Opponent disconnected and did not reconnect" }]) ∧
      (st.sessions.set sid { s with players := [Y] }).get? sid
        = some { s with players := [Y] } ∧
      lowerAscii "Opponent disconnected and did not reconnect"
        = "opponent disconnected and did not reconnect" := by
  have hlen : s.players.length ≤ 2 :=
    (run_ok evs st out hreach _ (Store.mem_of_get? _ _ _ hs)).2.1
  refine ⟨?_, Store.get?_set_self _ _ _, by decide⟩
  simp only [step, harmed, if_true, onTimeout]
  rw [removeConnection_pair st.sessions sid c _ s X Y hs hlen hX hY hXc hYc]

/-- The statement of C9 for Bob's timer with Alice still connected. -/
theorem expiry_declares_remaining_player_winner_witness :
    run State.init bobDrops = some (afterBobDrops, bobDropsOut) ∧
    (("ABC123", "c2") : String × String) ∈ afterBobDrops.timers ∧
    afterBobDrops.sessions.get? "ABC123"
      = some { players := [⟨"c1", "Alice", .white⟩, ⟨"c2", "Bob", .black⟩],
               assignedColors := [.white, .black], gameState := [] } ∧
    step afterBobDrops (.timeout "ABC123" "c2")
      = some
        ({ afterBobDrops with
            sessions := afterBobDrops.sessions.set "ABC123"
              { players := [⟨"c1", "Alice", .white⟩],
                assignedColors := [.white, .black], gameState := [] },
            timers := afterBobDrops.timers.erase ("ABC123", "c2") },
         [{ target := .room "c1",
            msg := .playerExplicitlyLeft "c2" "Alice"
              "Opponent disconnected and did not reconnect" }]) :=
  ⟨by decide, by decide, by decide,
    (expiry_declares_remaining_player_winner bobDrops afterBobDrops bobDropsOut "ABC123" "c2"
      { players := [⟨"c1", "Alice", .white⟩, ⟨"c2", "Bob", .black⟩],
        assignedColors := [.white, .black], gameState := [] }
      ⟨"c2", "Bob", .black⟩ ⟨"c1", "Alice", .white⟩
      (by decide) (by decide) (by decide) (by decide) (by decide) (by decide) (by decide)).1⟩

/-- C10: when the roster has two players, X with connection id `c` and Y with
another one, leaveGame from `c` at once leaves the session with roster exactly
`[Y]` (no timer is armed) and emits exactly one event: `playerExplicitlyLeft` to
Y's connection id, naming Y as winner, with the reason text of the claim up to
letter case. -/
theorem leave_declares_remaining_player_winner (st : State) (sid c : String) (playerId : JSVal)
    (s : Session) (X Y : Player)
    (hs : st.sessions.get? sid = some s) (hlen : s.players.length = 2)
    (hX : X ∈ s.players) (hY : Y ∈ s.players) (hXc : X.id = c) (hYc : Y.id ≠ c) :
    onLeaveGame st c sid playerId
      = ({ st with sessions := st.sessions.set sid { s with players := [Y] } },
         [{ target := .room Y.id,
            msg := .playerExplicitlyLeft c Y.name "Opponent left the game" }]) ∧
      (st.sessions.set sid { s with players := [Y] }).get? sid
        = some { s with players := [Y] } ∧
      lowerAscii "Opponent left the game" = "opponent left the game" := by
  refine ⟨?_, Store.get?_set_self _ _ _, by decide⟩
  simp only [onLeaveGame]
  rw [removeConnection_pair st.sessions sid c _ s X Y hs (le_of_eq hlen) hX hY hXc hYc]

/-- The statement of C10 for Bob leaving the session of Alice and Bob. -/
theorem leave_declares_remaining_player_winner_witness :
    afterThreeJoins.sessions.get? "ABC123"
      = some { players := [⟨"c1", "Alice", .white⟩, ⟨"c2", "Bob", .black⟩],
               assignedColors := [.white, .black], gameState := [] } ∧
    onLeaveGame afterThreeJoins "c2" "ABC123" (.str "c2")
      = ({ afterThreeJoins with
            sessions := afterThreeJoins.sessions.set "ABC123"
              { players := [⟨"c1", "Alice", .white⟩],
                assignedColors := [.white, .black], gameState := [] } },
         [{ target := .room "c1",
            msg := .playerExplicitlyLeft "c2" "Alice" "Opponent left the game" }]) :=
  ⟨by decide,
    (leave_declares_remaining_player_winner afterThreeJoins "ABC123" "c2" (.str "c2")
      { players := [⟨"c1", "Alice", .white⟩, ⟨"c2", "Bob", .black⟩],
        assignedColors := [.white, .black], gameState := [] }
      ⟨"c2", "Bob", .black⟩ ⟨"c1", "Alice", .white⟩
      (by decide) (by decide) (by decide) (by decide) (by decide) (by decide)).1⟩

/-- C11: when every roster entry of a session is held by connection `c` (the
last player), leaveGame from `c` and the timer callback for `c` each delete the
session key and emit nothing; from either resulting state, after any events
other than a joinSession on that id, getGameState returns the empty snapshot and
a joinSession on that id stores a new record whose roster is exactly the joiner,
with the colour of its own draw and an empty snapshot, and broadcasts only that
roster. -/
theorem last_player_removal_deletes_session (st : State) (sid c : String) (playerId : JSVal)
    (s : Session) (hs : st.sessions.get? sid = some s) (hne : s.players ≠ [])
    (hall : ∀ p ∈ s.players, p.id = c) :
    ((onLeaveGame st c sid playerId).2 = [] ∧
      (onLeaveGame st c sid playerId).1.sessions.get? sid = none ∧
      (∀ e ∈ (onLeaveGame st c sid playerId).1.sessions, e.1 ≠ sid)) ∧
    ((onTimeout st sid c).2 = [] ∧
      (onTimeout st sid c).1.sessions.get? sid = none ∧
      (∀ e ∈ (onTimeout st sid c).1.sessions, e.1 ≠ sid)) ∧
    ∀ (st1 st' : State) (mid : List Event) (out : List Emit) (sock name : String) (draw : Draw),
      (st1 = (onLeaveGame st c sid playerId).1 ∨ st1 = (onTimeout st sid c).1) →
      (∀ e ∈ mid, noJoinOn sid e = true) → run st1 mid = some (st', out) →
      getGameState st'.sessions sid = [] ∧
      (onJoinSession st' sock sid name draw).1.sessions.get? sid
        = some { players := [{ id := sock, name := name, color := firstColor draw }],
                 assignedColors := [firstColor draw], gameState := [] } ∧
      (onJoinSession st' sock sid name draw).2
        = [{ target := .room sid,
             msg := .playerJoined [{ id := sock, name := name, color := firstColor draw }] }] := by
  have hL : (onLeaveGame st c sid playerId).1.sessions
      = (st.sessions.set sid { s with players := [] }).delete sid := by
    simp only [onLeaveGame, removeConnection_last st.sessions sid c _ s hs hne hall]
  have hT : (onTimeout st sid c).1.sessions
      = (st.sessions.set sid { s with players := [] }).delete sid := by
    simp only [onTimeout, removeConnection_last st.sessions sid c _ s hs hne hall]
  refine ⟨⟨?_, ?_, ?_⟩, ⟨?_, ?_, ?_⟩, ?_⟩
  · simp only [onLeaveGame, removeConnection_last st.sessions sid c _ s hs hne hall]
  · rw [hL]; exact Store.get?_delete_self _ _
  · rw [hL]; exact Store.not_mem_delete _ _
  · simp only [onTimeout, removeConnection_last st.sessions sid c _ s hs hne hall]
  · rw [hT]; exact Store.get?_delete_self _ _
  · rw [hT]; exact Store.not_mem_delete _ _
  · intro st1 st' mid out sock name draw hst1 hmid hrun
    have h1 : st1.sessions.get? sid = none := by
      rcases hst1 with h | h
      · rw [h, hL]; exact Store.get?_delete_self _ _
      · rw [h, hT]; exact Store.get?_delete_self _ _
    have hnone := run_absent sid mid st1 st' out hmid hrun h1
    exact ⟨by simp [getGameState, hnone], onJoinSession_fresh st' sock sid name draw hnone⟩

/-- The statement of C11 for Bob, alone in the session, leaving; a stale snapshot
update follows before Erin joins. -/
theorem last_player_removal_deletes_session_witness :
    afterAliceLeft.sessions.get? "ABC123"
      = some { players := [⟨"c2", "Bob", .black⟩],
               assignedColors := [.white, .black], gameState := [] } ∧
    ((onLeaveGame afterAliceLeft "c2" "ABC123" .undefined).2 = [] ∧
      (onLeaveGame afterAliceLeft "c2" "ABC123" .undefined).1.sessions.get? "ABC123" = none ∧
      (∀ e ∈ (onLeaveGame afterAliceLeft "c2" "ABC123" .undefined).1.sessions,
        e.1 ≠ "ABC123")) ∧
    run (onLeaveGame afterAliceLeft "c2" "ABC123" .undefined).1
        [.updateGameState "c1" "ABC123" [("gameOver", .bool true)]]
      = some ({ afterAliceLeft with sessions := [] }, []) ∧
    (onJoinSession { afterAliceLeft with sessions := [] } "c7" "ABC123" "Erin" ⟨3, 2⟩).1.sessions.get?
        "ABC123"
      = some { players := [{ id := "c7", name := "Erin", color := firstColor ⟨3, 2⟩ }],
               assignedColors := [firstColor ⟨3, 2⟩], gameState := [] } :=
  ⟨by decide,
    (last_player_removal_deletes_session afterAliceLeft "ABC123" "c2" .undefined
      { players := [⟨"c2", "Bob", .black⟩], assignedColors := [.white, .black], gameState := [] }
      (by decide) (by decide) (by decide)).1,
    by decide,
    ((last_player_removal_deletes_session afterAliceLeft "ABC123" "c2" .undefined
      { players := [⟨"c2", "Bob", .black⟩], assignedColors := [.white, .black], gameState := [] }
      (by decide) (by decide) (by decide)).2.2
        (onLeaveGame afterAliceLeft "c2" "ABC123" .undefined).1
        { afterAliceLeft with sessions := [] }
        [.updateGameState "c1" "ABC123" [("gameOver", .bool true)]] [] "c7" "Erin" ⟨3, 2⟩
        (Or.inl rfl) (by decide) (by decide)).2.1⟩

/-- C12 fails as stated: connection c1 joined session ABC123 as Alice and as Bob;
its leaveGame filters both entries out, so the roster goes from two entries to
none and Bob, whose name differs from the removed player's, is gone too. -/
theorem leave_removes_both_entries_of_connection :
    (run State.init
        [.joinSession "c1" "ABC123" "Alice" ⟨1, 2⟩, .joinSession "c1" "ABC123" "Bob" ⟨0, 0⟩]).map
      (fun r => r.1) = some bothSeatsOnOneConnection ∧
    (rosterAt bothSeatsOnOneConnection.sessions "ABC123").length = 2 ∧
    (step bothSeatsOnOneConnection (.leaveGame "c1" "ABC123" .undefined)).map (fun r => r.1)
      = some { bothSeatsOnOneConnection with sessions := [] } ∧
    (rosterAt (onLeaveGame bothSeatsOnOneConnection "c1" "ABC123" .undefined).1.sessions
      "ABC123").length = 0 ∧
    (⟨"c1", "Bob", .black⟩ : Player) ∉
      rosterAt (onLeaveGame bothSeatsOnOneConnection "c1" "ABC123" .undefined).1.sessions
        "ABC123" := by
  decide

/-- C12, amended: leaveGame from `c` removes the roster entries whose connection
id is `c`.  In a reachable state where X is the only entry of the session held
by `c`, the roster length decreases by exactly 1, X is gone, and every entry
with another display name is still present. -/
theorem leave_removes_sole_entry (evs : List Event) (st : State) (out0 : List Emit)
    (sid c : String) (playerId : JSVal) (s : Session) (X : Player)
    (hreach : run State.init evs = some (st, out0))
    (hs : st.sessions.get? sid = some s)
    (hX : X ∈ s.players) (hXc : X.id = c)
    (hone : ∀ q ∈ s.players, q.id = c → q = X) :
    rosterAt (onLeaveGame st c sid playerId).1.sessions sid
        = s.players.filter (fun p => decide (p.id ≠ c)) ∧
      (rosterAt (onLeaveGame st c sid playerId).1.sessions sid).length + 1
        = s.players.length ∧
      X ∉ rosterAt (onLeaveGame st c sid playerId).1.sessions sid ∧
      ∀ q ∈ s.players, q.name ≠ X.name →
        q ∈ rosterAt (onLeaveGame st c sid playerId).1.sessions sid := by
  have hroster : rosterAt (onLeaveGame st c sid playerId).1.sessions sid
      = s.players.filter (fun p => decide (p.id ≠ c)) := by
    simp only [onLeaveGame]
    exact rosterAt_removeConnection _ _ _ _ _ hs
  have hnd : s.players.Nodup :=
    List.Nodup.of_map _ (run_ok evs st out0 hreach _ (Store.mem_of_get? _ _ _ hs)).2.2
  have hfil : s.players.filter (fun p => decide (p.id ≠ c)) = s.players.erase X := by
    rw [hnd.erase_eq_filter]
    apply List.filter_congr
    intro q hq
    by_cases hqc : q.id = c
    · have := hone q hq hqc
      simp [this, hXc]
    · have hqX : q ≠ X := fun h => hqc (h ▸ hXc)
      simp [hqc, hqX]
  refine ⟨hroster, ?_, ?_, ?_⟩
  · rw [hroster, hfil, List.length_erase_of_mem hX]
    have := List.length_pos_of_mem hX
    omega
  · rw [hroster]
    intro h
    have := (List.mem_filter.mp h).2
    simp [hXc] at this
  · intro q hq hname
    rw [hroster]
    refine List.mem_filter.mpr ⟨hq, ?_⟩
    have hqc : q.id ≠ c := fun h => hname (by rw [hone q hq h])
    simpa using hqc

/-- The amended C12 for Alice leaving the session of Alice and Bob. -/
theorem leave_removes_sole_entry_witness :
    run State.init threeJoins = some (afterThreeJoins, threeJoinsOut) ∧
    afterThreeJoins.sessions.get? "ABC123" = some aliceAndBob ∧
    rosterAt (onLeaveGame afterThreeJoins "c1" "ABC123" .undefined).1.sessions "ABC123"
      = [⟨"c2", "Bob", .black⟩] ∧
    (rosterAt (onLeaveGame afterThreeJoins "c1" "ABC123" .undefined).1.sessions
      "ABC123").length + 1 = aliceAndBob.players.length :=
  ⟨by decide, by decide, by decide,
    (leave_removes_sole_entry threeJoins afterThreeJoins threeJoinsOut "ABC123" "c1" .undefined
      aliceAndBob ⟨"c1", "Alice", .white⟩ (by decide) (by decide) (by decide) (by decide)
      (by decide)).2.1⟩

/-- C13 fails as stated: no session is stored under `constructor`, and a
leaveGame for that id throws on `.players.find` (the inherited function passes
the guard of line 122); and a leaveGame from Carol's connection c3, which is in
no roster, throws on line 121 when its `playerId` is an object with a `toString`
field.  Neither handler runs to its end. -/
theorem leave_of_stranger_can_throw :
    afterThreeJoins.sessions.get? "constructor" = none ∧
    leaveGameRaw afterThreeJoins "c1" "constructor" (.str "p1") = .threw (.typeError "find") ∧
    (∀ p ∈ rosterAt afterThreeJoins.sessions "ABC123", p.id ≠ "c3") ∧
    leaveGameRaw afterThreeJoins "c3" "ABC123" (.obj [("toString", "1")])
      = .threw .notConvertible := by
  decide

/-- C13, amended: a leaveGame whose `playerId` can be converted to text, for a
session id that is not in the store and is not the name of an inherited
property, or from a connection whose id matches no player of the stored session,
runs to its end, returns the state it was given and emits nothing. -/
theorem leave_of_stranger_is_noop (st : State) (sid c : String) (playerId : JSVal)
    (hp : playerId.printable = true)
    (h : (sid ∉ inheritedKeys ∧ st.sessions.get? sid = none) ∨
      ∃ s, st.sessions.get? sid = some s ∧ ∀ p ∈ s.players, p.id ≠ c) :
    leaveGameRaw st c sid playerId = .done st [] := by
  rcases h with ⟨hk, hnone⟩ | ⟨s, hs, hall⟩
  · simp [leaveGameRaw, hp, Store.slot_of_get?_none _ _ hk hnone]
  · have hf : s.players.find? (fun p => decide (p.id = c)) = none := by
      rw [List.find?_eq_none]
      intro p hp'
      simpa using hall p hp'
    simp [leaveGameRaw, hp, Store.slot_of_get? _ _ _ hs, hf]

/-- The amended C13 for Carol's connection and for an unknown session id. -/
theorem leave_of_stranger_is_noop_witness :
    ("NOSUCH" ∉ inheritedKeys ∧ afterThreeJoins.sessions.get? "NOSUCH" = none) ∧
    (∃ s, afterThreeJoins.sessions.get? "ABC123" = some s ∧ ∀ p ∈ s.players, p.id ≠ "c3") ∧
    leaveGameRaw afterThreeJoins "c3" "ABC123" (.str "c1") = .done afterThreeJoins [] ∧
    leaveGameRaw afterThreeJoins "c1" "NOSUCH" .undefined = .done afterThreeJoins [] :=
  ⟨⟨by decide, by decide⟩, ⟨aliceAndBob, by decide, by decide⟩,
    leave_of_stranger_is_noop afterThreeJoins "ABC123" "c3" (.str "c1") (by decide)
      (Or.inr ⟨aliceAndBob, by decide, by decide⟩),
    leave_of_stranger_is_noop afterThreeJoins "NOSUCH" "c1" .undefined (by decide)
      (Or.inl ⟨by decide, by decide⟩)⟩

/-- C14: the disconnect handler leaves the session store as it was (rosters,
assignedColors, snapshots).  For a store whose keys are distinct (every
reachable one, `run_keys_nodup`) it appends exactly one timer for each session
whose roster has the connection, and emits exactly one
`playerTemporarilyDisconnected` for each of them, addressed to the session's
room without the dropped connection. -/
theorem disconnect_changes_no_session (st : State) (c : String)
    (hkeys : (st.sessions.map Prod.fst).Nodup) :
    (onDisconnect st c).1.sessions = st.sessions ∧
    ∃ armed : List String,
      armed.Nodup ∧
      (∀ sid, sid ∈ armed ↔
        ∃ s, st.sessions.get? sid = some s ∧ ∃ p ∈ s.players, p.id = c) ∧
      (onDisconnect st c).1.timers = st.timers ++ armed.map (fun sid => (sid, c)) ∧
      (onDisconnect st c).2 = armed.map (fun sid =>
        { target := .others c sid, msg := .playerTemporarilyDisconnected .undefined }) := by
  refine ⟨rfl, ?_⟩
  refine ⟨(st.sessions.filter
      (fun e => e.2.players.any (fun p => decide (p.id = c)))).map Prod.fst, ?_, ?_, ?_, ?_⟩
  · exact hkeys.sublist ((List.filter_sublist _).map _)
  · intro sid
    simp only [List.mem_map, List.mem_filter, List.any_eq_true, decide_eq_true_eq]
    constructor
    · rintro ⟨⟨k, s⟩, ⟨hmem, hp⟩, rfl⟩
      exact ⟨s, Store.get?_of_mem _ _ _ hkeys hmem, hp⟩
    · rintro ⟨s, hs, hp⟩
      exact ⟨(sid, s), ⟨Store.mem_of_get? _ _ _ hs, hp⟩, rfl⟩
  · simp [onDisconnect, List.map_map, Function.comp_def]
  · simp [onDisconnect, List.map_map, Function.comp_def]

/-- The statement of C14 for Bob's connection dropping. -/
theorem disconnect_changes_no_session_witness :
    (afterThreeJoins.sessions.map Prod.fst).Nodup ∧
    (onDisconnect afterThreeJoins "c2").1.sessions = afterThreeJoins.sessions ∧
    (onDisconnect afterThreeJoins "c2").1.timers = [("ABC123", "c2")] ∧
    ∃ armed : List String,
      armed.Nodup ∧
      (∀ sid, sid ∈ armed ↔
        ∃ s, afterThreeJoins.sessions.get? sid = some s ∧ ∃ p ∈ s.players, p.id = "c2") ∧
      (onDisconnect afterThreeJoins "c2").1.timers
        = afterThreeJoins.timers ++ armed.map (fun sid => (sid, "c2")) ∧
      (onDisconnect afterThreeJoins "c2").2 = armed.map (fun sid =>
        { target := .others "c2" sid, msg := .playerTemporarilyDisconnected .undefined }) :=
  ⟨by decide, by decide, by decide,
    (disconnect_changes_no_session afterThreeJoins "c2" (by decide)).2⟩

/-- C15 (the code breaks it): the payload is built from `player.playerId`, a
field no roster entry has (entries are `{ id, name, color }`), so when Bob's
connection c2 drops the notice carries `undefined`, neither "Bob" nor "c2"; and
so does every notice the handler ever emits. -/
theorem disconnect_notice_names_nobody :
    (onDisconnect afterThreeJoins "c2").2
      = [{ target := .others "c2" "ABC123", msg := .playerTemporarilyDisconnected .undefined }] ∧
    JSVal.undefined ≠ JSVal.str "Bob" ∧ JSVal.undefined ≠ JSVal.str "c2" ∧
    ∀ (st : State) (c : String), ∀ e ∈ (onDisconnect st c).2,
      e.msg = .playerTemporarilyDisconnected .undefined := by
  refine ⟨by decide, by decide, by decide, ?_⟩
  intro st c e he
  simp only [onDisconnect, List.mem_map] at he
  obtain ⟨x, _, rfl⟩ := he
  rfl

/-- C16: an updateGameState event emits nothing; when the session does not exist
the state is returned unchanged; when it exists, the stored snapshot afterwards
reads the supplied value at every key of the supplied object and the previous
value at every other key, roster and assignedColors are unchanged, the other
sessions are untouched and no key is added to the store.  The supplied object
has each key once. -/
theorem update_is_shallow_merge (st : State) (sid : String) (gameState : GameState)
    (hobj : (gameState.map Prod.fst).Nodup) :
    (onUpdateGameState st sid gameState).2 = [] ∧
    (st.sessions.get? sid = none → (onUpdateGameState st sid gameState).1 = st) ∧
    (∀ s, st.sessions.get? sid = some s →
      ∃ s', (onUpdateGameState st sid gameState).1.sessions.get? sid = some s' ∧
        s'.players = s.players ∧ s'.assignedColors = s.assignedColors ∧
        ∀ k, s'.gameState.get k
          = if k ∈ gameState.map Prod.fst then GameState.get gameState k
            else s.gameState.get k) ∧
    (∀ k, k ≠ sid →
      (onUpdateGameState st sid gameState).1.sessions.get? k = st.sessions.get? k) ∧
    (onUpdateGameState st sid gameState).1.sessions.map Prod.fst
      = st.sessions.map Prod.fst := by
  refine ⟨rfl, ?_, ?_, ?_, ?_⟩
  · intro hnone
    simp [onUpdateGameState, updateGameState, hnone]
  · intro s hs
    refine ⟨{ s with gameState := GameState.spread s.gameState gameState }, ?_, rfl, rfl, ?_⟩
    · simp [onUpdateGameState, updateGameState, hs, Store.get?_set_self]
    · intro k
      exact GameState.get_spread gameState s.gameState k hobj
  · intro k hk
    exact updateGameState_get?_of_ne _ _ _ _ hk
  · exact updateGameState_keys _ _ _

/-- The statement of C16 for a game-over update on a stored snapshot, and for an
unknown session id. -/
theorem update_is_shallow_merge_witness :
    ([("gameOver", JSVal.bool true), ("winner", JSVal.str "White")].map Prod.fst).Nodup ∧
    (onUpdateGameState afterFirstMove "ABC123"
        [("gameOver", .bool true), ("winner", .str "White")]).1.sessions
      = [("ABC123",
          { players := [⟨"c1", "Alice", .white⟩], assignedColors := [.white],
            gameState :=
              [("board", .str "fen1"), ("moveHistory", .arr ["e4"]),
               ("currentTurn", .str "black"), ("gameOver", .bool true),
               ("winner", .str "White"), ("drawReason", .null)] })] ∧
    (onUpdateGameState afterFirstMove "ABC123"
        [("gameOver", .bool true), ("winner", .str "White")]).2 = [] ∧
    (afterFirstMove.sessions.get? "XYZ789" = none →
      (onUpdateGameState afterFirstMove "XYZ789"
        [("gameOver", .bool true), ("winner", .str "White")]).1 = afterFirstMove) :=
  ⟨by decide, by decide,
    (update_is_shallow_merge afterFirstMove "ABC123"
      [("gameOver", .bool true), ("winner", .str "White")] (by decide)).1,
    (update_is_shallow_merge afterFirstMove "XYZ789"
      [("gameOver", .bool true), ("winner", .str "White")] (by decide)).2.1⟩

/-- C17 (the code breaks it): the stored board is "fen1"; a move whose snapshot
object has only `moveHistory` makes the handler pass `board: undefined` (and four
more `undefined` fields) to the merge, so the stored board becomes `undefined`
instead of keeping its value. -/
theorem move_without_board_erases_board :
    (run State.init
        [.joinSession "c1" "ABC123" "Alice" ⟨1, 2⟩,
         .move "c1" "ABC123" (.obj [("from", "e2"), ("to", "e4")]) snapshotAfterE4]).map
      (fun r => r.1) = some afterFirstMove ∧
    (getGameState afterFirstMove.sessions "ABC123").get "board" = .str "fen1" ∧
    "board" ∉ ([("moveHistory", JSVal.arr ["e4", "e5"])] : GameState).map Prod.fst ∧
    (getGameState
        (onMove afterFirstMove "c1" "ABC123" (.obj [("from", "e7"), ("to", "e5")])
          [("moveHistory", .arr ["e4", "e5"])]).1.sessions "ABC123").get "board"
      = .undefined ∧
    getGameState
        (onMove afterFirstMove "c1" "ABC123" (.obj [("from", "e7"), ("to", "e5")])
          [("moveHistory", .arr ["e4", "e5"])]).1.sessions "ABC123"
      = [("board", .undefined), ("moveHistory", .arr ["e4", "e5"]),
         ("currentTurn", .undefined), ("gameOver", .undefined), ("winner", .undefined),
         ("drawReason", .undefined)] := by
  decide

/-- C18 fails as stated: with the stored board the empty string and the stored
moveHistory the empty list, both requestGameState and joinSession emit the
snapshot, because an empty array is truthy. -/
theorem empty_move_list_is_sent :
    (run State.init
        [.joinSession "c1" "ABC123" "Alice" ⟨1, 2⟩,
         .updateGameState "c1" "ABC123" [("board", .str ""), ("moveHistory", .arr [])]]).map
      (fun r => r.1) = some afterEmptySnapshot ∧
    getGameState afterEmptySnapshot.sessions "ABC123"
      = [("board", .str ""), ("moveHistory", .arr [])] ∧
    (onRequestGameState afterEmptySnapshot "c2" "ABC123").2
      = [{ target := .socket "c2",
           msg := .gameState [("board", .str ""), ("moveHistory", .arr [])] }] ∧
    (onJoinSession afterEmptySnapshot "c2" "ABC123" "Bob" ⟨0, 0⟩).2
      = [{ target := .socket "c2",
           msg := .gameState [("board", .str ""), ("moveHistory", .arr [])] },
         { target := .room "ABC123",
           msg := .playerJoined [⟨"c1", "Alice", .white⟩, ⟨"c2", "Bob", .black⟩] }] := by
  decide

/-- C18, amended: on requestGameState, and on a joinSession that is not turned
away as full, the snapshot is emitted (to the sender, before the roster
broadcast) exactly when the stored board or the stored moveHistory is truthy.  A
stored moveHistory that is an array counts, empty or not; with the board absent
or the empty string and no moveHistory stored, nothing is sent. -/
theorem snapshot_sent_iff_truthy (st : State) (sock sid name : String) (draw : Draw)
    (hacc : joinAccepted st sid name = true) :
    (onRequestGameState st sock sid).2
      = (if ((getGameState st.sessions sid).get "board").truthy = true ∨
            ((getGameState st.sessions sid).get "moveHistory").truthy = true then
          [{ target := .socket sock, msg := .gameState (getGameState st.sessions sid) }]
         else []) ∧
    (onJoinSession st sock sid name draw).2
      = (if ((getGameState st.sessions sid).get "board").truthy = true ∨
            ((getGameState st.sessions sid).get "moveHistory").truthy = true then
          [{ target := .socket sock, msg := .gameState (getGameState st.sessions sid) }]
         else [])
        ++ [{ target := .room sid,
              msg := .playerJoined (rosterAt (onJoinSession st sock sid name draw).1.sessions sid) }]
    ∧ (∀ items : List String, (getGameState st.sessions sid).get "moveHistory" = .arr items →
        (onRequestGameState st sock sid).2
          = [{ target := .socket sock, msg := .gameState (getGameState st.sessions sid) }])
    ∧ (((getGameState st.sessions sid).get "board" = .undefined ∨
          (getGameState st.sessions sid).get "board" = .str "") →
        (getGameState st.sessions sid).get "moveHistory" = .undefined →
        (onRequestGameState st sock sid).2 = [] ∧
        (onJoinSession st sock sid name draw).2
          = [{ target := .room sid,
               msg := .playerJoined
                 (rosterAt (onJoinSession st sock sid name draw).1.sessions sid) }]) := by
  have hreq : (onRequestGameState st sock sid).2
      = (if ((getGameState st.sessions sid).get "board").truthy = true ∨
            ((getGameState st.sessions sid).get "moveHistory").truthy = true then
          [{ target := .socket sock, msg := .gameState (getGameState st.sessions sid) }]
         else []) := by
    simp only [onRequestGameState, meaningful, Bool.or_eq_true]
  have hjoin : (onJoinSession st sock sid name draw).2
      = (if ((getGameState st.sessions sid).get "board").truthy = true ∨
            ((getGameState st.sessions sid).get "moveHistory").truthy = true then
          [{ target := .socket sock, msg := .gameState (getGameState st.sessions sid) }]
         else [])
        ++ [{ target := .room sid,
              msg := .playerJoined
                (rosterAt (onJoinSession st sock sid name draw).1.sessions sid) }] := by
    obtain ⟨s1, _, hget, hout⟩ := onJoinSession_accepted st sock sid name draw hacc
    rw [hout]
    simp only [rosterAt, hget, meaningful, Bool.or_eq_true, Option.map_some', Option.getD_some]
  refine ⟨hreq, hjoin, ?_, ?_⟩
  · intro items hmh
    rw [hreq, hmh]
    simp [JSVal.truthy]
  · intro hb hmh
    have hfalse : ¬ (((getGameState st.sessions sid).get "board").truthy = true ∨
        ((getGameState st.sessions sid).get "moveHistory").truthy = true) := by
      rw [hmh]
      rcases hb with hb | hb <;> rw [hb] <;> simp [JSVal.truthy]
    rw [hreq, hjoin, if_neg hfalse]
    exact ⟨rfl, rfl⟩

/-- The amended C18 for Bob joining a session whose snapshot has a board. -/
theorem snapshot_sent_iff_truthy_witness :
    joinAccepted afterFirstMove "ABC123" "Bob" = true ∧
    (onRequestGameState afterFirstMove "c2" "ABC123").2
      = [{ target := .socket "c2", msg := .gameState snapshotAfterE4 }] ∧
    (onJoinSession afterFirstMove "c2" "ABC123" "Bob" ⟨0, 0⟩).2
      = (if ((getGameState afterFirstMove.sessions "ABC123").get "board").truthy = true ∨
            ((getGameState afterFirstMove.sessions "ABC123").get "moveHistory").truthy = true then
          [{ target := .socket "c2",
             msg := .gameState (getGameState afterFirstMove.sessions "ABC123") }]
         else [])
        ++ [{ target := .room "ABC123",
              msg := .playerJoined
                (rosterAt (onJoinSession afterFirstMove "c2" "ABC123" "Bob" ⟨0, 0⟩).1.sessions
                  "ABC123") }] :=
  ⟨by decide, by decide,
    (snapshot_sent_iff_truthy afterFirstMove "c2" "ABC123" "Bob" ⟨0, 0⟩ (by decide)).2.1⟩

/-- C19: a move event emits exactly one event, `opponentMove` with the received
move payload, addressed to the session's room without the sender: a connection
receives it exactly when it is in that room and is not the sender, the sender
never does, and the roster and assignedColors of every session are unchanged. -/
theorem move_is_forwarded_to_others (st : State) (sock sid : String) (move : JSVal)
    (clientGameState : GameState) :
    (onMove st sock sid move clientGameState).2
      = [{ target := .others sock sid, msg := .opponentMove move }] ∧
    (∀ c, (∃ e ∈ (onMove st sock sid move clientGameState).2,
        receives (onMove st sock sid move clientGameState).1 e.target c = true)
      ↔ (inRoom st sid c = true ∧ c ≠ sock)) ∧
    (∀ e ∈ (onMove st sock sid move clientGameState).2,
      receives (onMove st sock sid move clientGameState).1 e.target sock = false) ∧
    (∀ k, rosterOf (onMove st sock sid move clientGameState).1.sessions k
      = rosterOf st.sessions k) := by
  refine ⟨rfl, ?_, ?_, ?_⟩
  · intro c
    simp [onMove, receives, inRoom]
  · intro e he
    simp only [onMove, List.mem_singleton] at he
    subst he
    simp [receives]
  · intro k
    exact rosterOf_updateGameState _ _ _ _

/-- C20: after a joinSession that is not turned away (first join, second join or
rejoin), the last event emitted is `playerJoined` to the session's room with
exactly the roster stored after the join, entry by entry (connection id, display
name, colour) and in stored order.  After a rejoin that roster is the old one
with the joining socket's id in the first entry of that name, every other entry,
all names and all colours as they were; after a first or second join it is the
old one with the joiner's entry, under the joining socket's id, appended.
Whatever precedes the broadcast is a `gameState` event addressed to the joining
socket, which that connection alone receives. -/
theorem join_broadcasts_stored_roster (st : State) (sock sid name : String) (draw : Draw)
    (hacc : joinAccepted st sid name = true) :
    ∃ s1 push,
      (onJoinSession st sock sid name draw).1.sessions.get? sid = some s1 ∧
      (onJoinSession st sock sid name draw).2
        = push ++ [{ target := .room sid, msg := .playerJoined s1.players }] ∧
      (∀ e ∈ push, e.target = .socket sock ∧ ∃ g, e.msg = .gameState g) ∧
      (∀ e ∈ (onJoinSession st sock sid name draw).2, ∀ g, e.msg = .gameState g →
        ∀ c, receives (onJoinSession st sock sid name draw).1 e.target c = true ↔ c = sock) ∧
      ((name ∈ (rosterAt st.sessions sid).map Player.name ∧
          s1.players.map Player.name = (rosterAt st.sessions sid).map Player.name ∧
          s1.players.map Player.color = (rosterAt st.sessions sid).map Player.color ∧
          ∃ pre p post, rosterAt st.sessions sid = pre ++ p :: post ∧ p.name = name ∧
            (∀ q ∈ pre, q.name ≠ name) ∧
            s1.players = pre ++ { id := sock, name := name, color := p.color } :: post) ∨
        (name ∉ (rosterAt st.sessions sid).map Player.name ∧
          ∃ col, s1.players
            = rosterAt st.sessions sid ++ [{ id := sock, name := name, color := col }])) ∧
      (∃ p ∈ s1.players, p.name = name ∧ p.id = sock) := by
  obtain ⟨s1, hj, hget, hout⟩ := onJoinSession_accepted st sock sid name draw hacc
  have hacc' := hacc
  unfold joinAccepted at hacc'
  rw [rosterAt_eq] at hacc'
  obtain ⟨s1', hj', _, horder⟩ :=
    joinRecord_of_accepted ((st.sessions.get? sid).getD Session.empty) sock name draw hacc'
  rw [hj] at hj'
  injection hj' with hj'
  subst hj'
  obtain ⟨s1'', hj'', hentries⟩ :=
    joinRecord_of_accepted_entries ((st.sessions.get? sid).getD Session.empty) sock name draw hacc'
  rw [hj] at hj''
  injection hj'' with hj''
  subst hj''
  refine ⟨s1, _, hget, hout, ?_, ?_, ?_, ?_⟩
  · intro e he
    split at he
    · simp only [List.mem_singleton] at he
      subst he
      exact ⟨rfl, _, rfl⟩
    · simp at he
  · intro e he g hg c
    rw [hout] at he
    rcases List.mem_append.mp he with he | he
    · split at he
      · simp only [List.mem_singleton] at he
        subst he
        simp [receives]
      · simp at he
    · simp only [List.mem_singleton] at he
      subst he
      simp at hg
  · rw [rosterAt_eq]
    rcases hentries with ⟨hn, hsplit⟩ | ⟨hn, happ⟩
    · rcases horder with ⟨_, hnames, hcolors⟩ | ⟨hnot, _⟩
      · exact Or.inl ⟨hn, hnames, hcolors, hsplit⟩
      · exact absurd hn hnot
    · exact Or.inr ⟨hn, happ⟩
  · rcases hentries with ⟨_, pre, p, post, _, _, _, hs1⟩ | ⟨_, col, hs1⟩
    · exact ⟨{ id := sock, name := name, color := p.color }, by rw [hs1]; simp, rfl, rfl⟩
    · exact ⟨{ id := sock, name := name, color := col }, by rw [hs1]; simp, rfl, rfl⟩

/-- The statement of C20 for Alice rejoining, from connection c7, a session that
has a snapshot: the snapshot goes to c7 and the broadcast roster carries c7. -/
theorem join_broadcasts_stored_roster_witness :
    joinAccepted afterFirstMove "ABC123" "Alice" = true ∧
    rosterAt afterFirstMove.sessions "ABC123" = [⟨"c1", "Alice", .white⟩] ∧
    (onJoinSession afterFirstMove "c7" "ABC123" "Alice" ⟨0, 0⟩).2
      = [{ target := .socket "c7", msg := .gameState snapshotAfterE4 },
         { target := .room "ABC123", msg := .playerJoined [⟨"c7", "Alice", .white⟩] }] ∧
    ∃ s1 push,
      (onJoinSession afterFirstMove "c7" "ABC123" "Alice" ⟨0, 0⟩).1.sessions.get? "ABC123"
        = some s1 ∧
      (onJoinSession afterFirstMove "c7" "ABC123" "Alice" ⟨0, 0⟩).2
        = push ++ [{ target := .room "ABC123", msg := .playerJoined s1.players }] ∧
      (∀ e ∈ push, e.target = .socket "c7" ∧ ∃ g, e.msg = .gameState g) ∧
      (∃ p ∈ s1.players, p.name = "Alice" ∧ p.id = "c7") :=
  ⟨by decide, by decide, by decide,
    match join_broadcasts_stored_roster afterFirstMove "c7" "ABC123" "Alice" ⟨0, 0⟩ (by decide) with
    | ⟨s1, push, h1, h2, h3, _, _, h6⟩ => ⟨s1, push, h1, h2, h3, h6⟩⟩

/-- C21 fails as stated: Bob left session ABC123 with leaveGame and his
connection c2 stayed open.  When Dana joins, the roster broadcast goes to the
room ABC123, which c2 never left: c2 receives it although no roster entry holds
c2. -/
theorem leaver_still_gets_roster_broadcasts :
    (run State.init (threeJoins ++ [.leaveGame "c2" "ABC123" (.str "c2")])).map Prod.fst
      = some afterBobLeftLive ∧
    (onJoinSession afterBobLeftLive "c4" "ABC123" "Dana" ⟨0, 0⟩).2
      = [{ target := .room "ABC123",
           msg := .playerJoined [⟨"c1", "Alice", .white⟩, ⟨"c4", "Dana", .black⟩] }] ∧
    receives (onJoinSession afterBobLeftLive "c4" "ABC123" "Dana" ⟨0, 0⟩).1
      (.room "ABC123") "c2" = true ∧
    "c2" ∉ (rosterAt (onJoinSession afterBobLeftLive "c4" "ABC123" "Dana" ⟨0, 0⟩).1.sessions
      "ABC123").map Player.id := by
  decide

/-- C21, amended: the roster broadcast of an accepted joinSession is addressed to
the session's room, and a connection receives it exactly when it is live and is
in that room (it joined it earlier, it is the joiner, or its own id is the
session id).  Along any run a connection that is in the room stays in it until
it drops, whatever happens to the roster (leaveGame, a rejoin of its name from
another connection, a timer); a connection outside the room stays outside as
long as each joinSession it sends for the session is turned away as full. -/
theorem broadcast_reaches_room_members (st st' : State) (evs : List Event) (out : List Emit)
    (sid : String) (hrun : run st evs = some (st', out)) :
    (∀ c, (c, sid) ∈ st.rooms → c ∉ st'.closed → (c, sid) ∈ st'.rooms) ∧
    (∀ c, (c, sid) ∉ st.rooms → neverAdmitted sid c st evs = true → (c, sid) ∉ st'.rooms) ∧
    ∀ (sock name : String) (draw : Draw), joinAccepted st' sid name = true →
      (∃ ps, ({ target := .room sid, msg := .playerJoined ps } : Emit)
        ∈ (onJoinSession st' sock sid name draw).2) ∧
      (∀ e ∈ (onJoinSession st' sock sid name draw).2, ∀ ps, e.msg = .playerJoined ps →
        e.target = .room sid) ∧
      ∀ c, receives (onJoinSession st' sock sid name draw).1 (.room sid) c = true ↔
        (c ∉ st'.closed ∧ ((c, sid) ∈ st'.rooms ∨ c = sock ∨ c = sid)) := by
  refine ⟨fun c hin hlive => run_rooms_keep c sid evs st st' out hrun hin hlive,
    fun c hout hadm => run_rooms_out c sid evs st st' out hrun hout hadm, ?_⟩
  intro sock name draw hacc
  obtain ⟨s1, _, _, hout⟩ := onJoinSession_accepted st' sock sid name draw hacc
  refine ⟨⟨s1.players, by rw [hout]; simp⟩, ?_, ?_⟩
  · intro e he ps hps
    rw [hout] at he
    rcases List.mem_append.mp he with he | he
    · split at he
      · simp only [List.mem_singleton] at he
        subst he
        simp at hps
      · simp at he
    · simp only [List.mem_singleton] at he
      subst he
      rfl
  · intro c
    have hclosed : (onJoinSession st' sock sid name draw).1.closed = st'.closed :=
      onJoinSession_closed _ _ _ _ _
    simp only [receives, inRoom, hclosed, onJoinSession_rooms, hacc, if_true, Bool.and_eq_true,
      Bool.or_eq_true, decide_eq_true_eq, mem_joinRoom, Prod.mk.injEq]
    constructor
    · rintro ⟨h1, (h2 | ⟨h2, _⟩) | h2⟩
      · exact ⟨h1, Or.inl h2⟩
      · exact ⟨h1, Or.inr (Or.inl h2)⟩
      · exact ⟨h1, Or.inr (Or.inr h2)⟩
    · rintro ⟨h1, h2 | h2 | h2⟩
      · exact ⟨h1, Or.inl (Or.inl h2)⟩
      · exact ⟨h1, Or.inl (Or.inr ⟨h2, trivial⟩)⟩
      · exact ⟨h1, Or.inr h2⟩

/-- The amended C21 on the run where Carol is turned away and Bob leaves. -/
theorem broadcast_reaches_room_members_witness :
    run State.init (threeJoins ++ [.leaveGame "c2" "ABC123" (.str "c2")])
      = some (afterBobLeftLive,
          threeJoinsOut ++
            [⟨.room "c1", .playerExplicitlyLeft "c2" "Alice" "Opponent left the game"⟩]) ∧
    (("c2", "ABC123") : String × String) ∈ afterBobLeftLive.rooms ∧
    (("c3", "ABC123") : String × String) ∉ afterBobLeftLive.rooms ∧
    (∀ c, receives (onJoinSession afterBobLeftLive "c4" "ABC123" "Dana" ⟨0, 0⟩).1
        (.room "ABC123") c = true ↔
      (c ∉ afterBobLeftLive.closed ∧
        ((c, "ABC123") ∈ afterBobLeftLive.rooms ∨ c = "c4" ∨ c = "ABC123"))) :=
  ⟨by decide, by decide,
    (broadcast_reaches_room_members State.init afterBobLeftLive
      (threeJoins ++ [.leaveGame "c2" "ABC123" (.str "c2")])
      (threeJoinsOut ++
        [⟨.room "c1", .playerExplicitlyLeft "c2" "Alice" "Opponent left the game"⟩])
      "ABC123" (by decide)).2.1 "c3" (by decide) (by decide),
    ((broadcast_reaches_room_members State.init afterBobLeftLive
      (threeJoins ++ [.leaveGame "c2" "ABC123" (.str "c2")])
      (threeJoinsOut ++
        [⟨.room "c1", .playerExplicitlyLeft "c2" "Alice" "Opponent left the game"⟩])
      "ABC123" (by decide)).2.2 "c4" "Dana" ⟨0, 0⟩ (by decide)).2.2⟩

/-- C22: the first joiner of a session that does not exist gets the colour
`firstColor draw`, whatever the state, the session id, the display name and the
connection id are; that colour is white exactly when the draw is below 1/2 and
black otherwise; and on every grid of draws `n / 2 ^ (e + 1)`, `n < 2 ^ (e + 1)`,
exactly half of the draws give white and half give black. -/
theorem first_role_is_function_of_draw (st₁ st₂ : State) (sock₁ sock₂ sid₁ sid₂ : String)
    (name₁ name₂ : String) (draw : Draw)
    (h₁ : st₁.sessions.get? sid₁ = none) (h₂ : st₂.sessions.get? sid₂ = none) :
    rosterAt (onJoinSession st₁ sock₁ sid₁ name₁ draw).1.sessions sid₁
      = [{ id := sock₁, name := name₁, color := firstColor draw }] ∧
    rosterAt (onJoinSession st₂ sock₂ sid₂ name₂ draw).1.sessions sid₂
      = [{ id := sock₂, name := name₂, color := firstColor draw }] ∧
    (firstColor draw = .white ↔ draw.value < 1 / 2) ∧
    (firstColor draw = .black ↔ ¬ draw.value < 1 / 2) ∧
    ∀ e : Nat,
      ((Finset.range (2 ^ (e + 1))).filter
        (fun n => firstColor { num := n, exp := e + 1 } = .white)).card = 2 ^ e ∧
      ((Finset.range (2 ^ (e + 1))).filter
        (fun n => firstColor { num := n, exp := e + 1 } = .black)).card = 2 ^ e := by
  have hw : ∀ d : Draw, firstColor d = .white ↔ d.belowHalf = true := by
    intro d
    unfold firstColor
    cases d.belowHalf <;> simp
  have hb : ∀ d : Draw, firstColor d = .black ↔ ¬ d.belowHalf = true := by
    intro d
    unfold firstColor
    cases d.belowHalf <;> simp
  refine ⟨?_, ?_, ?_, ?_, ?_⟩
  · simp [rosterAt, (onJoinSession_fresh st₁ sock₁ sid₁ name₁ draw h₁).1]
  · simp [rosterAt, (onJoinSession_fresh st₂ sock₂ sid₂ name₂ draw h₂).1]
  · rw [hw, Draw.belowHalf_iff]
  · rw [hb, Draw.belowHalf_iff]
  · intro e
    have hwhite : ((Finset.range (2 ^ (e + 1))).filter
        (fun n => firstColor { num := n, exp := e + 1 } = .white)).card = 2 ^ e := by
      simp only [hw]
      exact card_belowHalf e
    refine ⟨hwhite, ?_⟩
    have hsplit : ((Finset.range (2 ^ (e + 1))).filter
          (fun n => firstColor { num := n, exp := e + 1 } = .white)).card
        + ((Finset.range (2 ^ (e + 1))).filter
          (fun n => ¬ firstColor { num := n, exp := e + 1 } = .white)).card
        = (Finset.range (2 ^ (e + 1))).card :=
      Finset.filter_card_add_filter_neg_card_eq_card _
    have hneg : (Finset.range (2 ^ (e + 1))).filter
        (fun n => ¬ firstColor { num := n, exp := e + 1 } = .white)
        = (Finset.range (2 ^ (e + 1))).filter
          (fun n => firstColor { num := n, exp := e + 1 } = .black) := by
      apply Finset.filter_congr
      intro n _
      cases firstColor { num := n, exp := e + 1 } <;> simp
    rw [hneg, hwhite, Finset.card_range] at hsplit
    have h2 : 2 ^ (e + 1) = 2 * 2 ^ e := by ring
    omega

/-- The statement of C22 for the draw 3/8 in two different stores. -/
theorem first_role_is_function_of_draw_witness :
    State.init.sessions.get? "ABC123" = none ∧
    afterLeaveAndExpire.sessions.get? "QRS456" = none ∧
    rosterAt (onJoinSession State.init "c1" "ABC123" "Alice" ⟨3, 3⟩).1.sessions "ABC123"
      = [{ id := "c1", name := "Alice", color := .white }] ∧
    rosterAt (onJoinSession afterLeaveAndExpire "c8" "QRS456" "Zed" ⟨3, 3⟩).1.sessions "QRS456"
      = [{ id := "c8", name := "Zed", color := firstColor ⟨3, 3⟩ }] :=
  ⟨by decide, by decide, by decide,
    (first_role_is_function_of_draw State.init afterLeaveAndExpire "c1" "c8" "ABC123" "QRS456"
      "Alice" "Zed" ⟨3, 3⟩ (by decide) (by decide)).2.1⟩

/-- C23 fails as stated: joinSession with the session id `constructor` throws
(the inherited function is truthy, so no record is created, and `.players.find`
is read off it), so does leaveGame; a move without a `gameState` field throws on
`clientGameState.board`; and a leaveGame whose `playerId` is an object with a
`toString` field throws in the log statement of line 121. -/
theorem inherited_id_and_missing_snapshot_throw :
    State.init.sessions.get? "constructor" = none ∧
    joinSessionRaw State.init "c1" "constructor" "Alice" ⟨1, 2⟩
      = .threw (.typeError "find") ∧
    run State.init threeJoins = some (afterThreeJoins, threeJoinsOut) ∧
    moveRaw afterThreeJoins "c1" "ABC123" (.obj [("from", "e2"), ("to", "e4")]) none
      = .threw (.typeError "board") ∧
    leaveGameRaw afterThreeJoins "c1" "constructor" .undefined
      = .threw (.typeError "find") ∧
    leaveGameRaw afterThreeJoins "c1" "ABC123" (.obj [("toString", "1")])
      = .threw .notConvertible := by
  decide

/-- C23, amended: in a state reached by events none of which is addressed to an
inherited property name, for a session id that is not such a name either, a move
that carries a snapshot object and a `playerId` that can be converted to text,
each of the five handlers, followed statement by statement, runs to its end
without an exception, in the state and with the events that `onJoinSession`,
`onMove`, `onUpdateGameState`, `onRequestGameState` and `onLeaveGame` give; a
missing `gameState` in updateGameState merges nothing; the store the join leaves
is well formed; and joinSession on such an id without a stored session leaves
under it the roster that is exactly the joiner. -/
theorem handlers_complete_on_own_keys (evs : List Event) (st : State) (out0 : List Emit)
    (sock sid name : String) (draw : Draw) (move : JSVal) (clientGameState : GameState)
    (gameState : Option GameState) (playerId : JSVal)
    (hreach : run State.init evs = some (st, out0))
    (hsid : sid ∉ inheritedKeys) (hp : playerId.printable = true) :
    joinSessionRaw st sock sid name draw
      = .done (onJoinSession st sock sid name draw).1 (onJoinSession st sock sid name draw).2 ∧
    moveRaw st sock sid move (some clientGameState)
      = .done (onMove st sock sid move clientGameState).1
          (onMove st sock sid move clientGameState).2 ∧
    updateGameStateRaw st sid gameState
      = .done (onUpdateGameState st sid (gameState.getD [])).1 [] ∧
    requestGameStateRaw st sock sid = .done st (onRequestGameState st sock sid).2 ∧
    leaveGameRaw st sock sid playerId
      = .done (onLeaveGame st sock sid playerId).1 (onLeaveGame st sock sid playerId).2 ∧
    (∃ st1 out, joinSessionRaw st sock sid name draw = .done st1 out ∧ st1.ok ∧
      (st.sessions.get? sid = none →
        rosterAt st1.sessions sid = [{ id := sock, name := name, color := firstColor draw }])) := by
  have hok : st.ok := run_ok evs st out0 hreach
  refine ⟨joinSessionRaw_eq st sock sid name draw hsid, ?_, ?_, ?_,
    leaveGameRaw_eq st sock sid playerId hsid hp,
    _, _, joinSessionRaw_eq st sock sid name draw hsid,
    onJoinSession_ok st sock sid name draw hok, ?_⟩
  · simp only [moveRaw, updateGameStateAt_eq _ _ _ hsid, onMove]
  · simp only [updateGameStateRaw, updateGameStateAt_eq _ _ _ hsid, onUpdateGameState]
  · simp only [requestGameStateRaw, Slot.gameState_eq, onRequestGameState]
  · intro hnone
    simp [rosterAt, (onJoinSession_fresh st sock sid name draw hnone).1]

/-- The amended C23 after Alice and Bob joined: the first join of session XYZ789
runs to its end. -/
theorem handlers_complete_on_own_keys_witness :
    run State.init threeJoins = some (afterThreeJoins, threeJoinsOut) ∧
    "XYZ789" ∉ inheritedKeys ∧
    joinSessionRaw afterThreeJoins "c4" "XYZ789" "Dana" ⟨1, 2⟩
      = .done (onJoinSession afterThreeJoins "c4" "XYZ789" "Dana" ⟨1, 2⟩).1
          [{ target := .room "XYZ789", msg := .playerJoined [⟨"c4", "Dana", .white⟩] }] ∧
    rosterAt (onJoinSession afterThreeJoins "c4" "XYZ789" "Dana" ⟨1, 2⟩).1.sessions "XYZ789"
      = [{ id := "c4", name := "Dana", color := .white }] :=
  ⟨by decide, by decide,
    (handlers_complete_on_own_keys threeJoins afterThreeJoins threeJoinsOut "c4" "XYZ789" "Dana"
      ⟨1, 2⟩ .null [] none (.str "c4") (by decide) (by decide) (by decide)).1,
    by decide⟩

/-- C24: in every state reached from the freshly started server, no display name
occurs twice in the roster of a session: the names are pairwise distinct. -/
theorem roster_names_distinct (evs : List Event) (st : State) (out : List Emit)
    (h : run State.init evs = some (st, out)) :
    (∀ e ∈ st.sessions, (e.2.players.map Player.name).Nodup) ∧
    ∀ sid s, st.sessions.get? sid = some s →
      s.players.Pairwise (fun p q => p.name ≠ q.name) := by
  have hok := run_ok evs st out h
  refine ⟨fun e he => (hok e he).2.2, fun sid s hs => ?_⟩
  have hnd := (hok _ (Store.mem_of_get? _ _ _ hs)).2.2
  exact (List.pairwise_map.mp hnd)

/-- The statement of C24 on the run where Carol is turned away. -/
theorem roster_names_distinct_witness :
    run State.init threeJoins = some (afterThreeJoins, threeJoinsOut) ∧
    ∀ e ∈ afterThreeJoins.sessions, (e.2.players.map Player.name).Nodup :=
  ⟨by decide, (roster_names_distinct threeJoins afterThreeJoins threeJoinsOut (by decide)).1⟩

/-- C25: joinSession, move, updateGameState, requestGameState and leaveGame
addressed to session id `sid` leave the lookup of every other id `k` as it was:
its record (roster, assignedColors, snapshot) is unchanged, and it is neither
created nor deleted. -/
theorem other_sessions_untouched (st : State) (sock sid k : String) (name : String)
    (draw : Draw) (move : JSVal) (gameState : GameState) (playerId : JSVal) (hk : k ≠ sid) :
    (onJoinSession st sock sid name draw).1.sessions.get? k = st.sessions.get? k ∧
    (onMove st sock sid move gameState).1.sessions.get? k = st.sessions.get? k ∧
    (onUpdateGameState st sid gameState).1.sessions.get? k = st.sessions.get? k ∧
    (onRequestGameState st sock sid).1.sessions.get? k = st.sessions.get? k ∧
    (onLeaveGame st sock sid playerId).1.sessions.get? k = st.sessions.get? k :=
  ⟨onJoinSession_get?_of_ne _ _ _ _ _ _ hk,
   updateGameState_get?_of_ne _ _ _ _ hk,
   updateGameState_get?_of_ne _ _ _ _ hk,
   rfl,
   removeConnection_get?_of_ne _ _ _ _ _ hk⟩

/-- The statement of C25 for session XYZ789 under events addressed to ABC123. -/
theorem other_sessions_untouched_witness :
    "XYZ789" ≠ "ABC123" ∧
    (onJoinSession afterLeaveAndExpire "c1" "ABC123" "Alice" ⟨1, 2⟩).1.sessions.get? "XYZ789"
      = afterLeaveAndExpire.sessions.get? "XYZ789" ∧
    (onLeaveGame afterLeaveAndExpire "c4" "ABC123" .undefined).1.sessions.get? "XYZ789"
      = some { players := [⟨"c4", "Dana", .white⟩], assignedColors := [.black, .white],
               gameState := [] } :=
  ⟨by decide,
    (other_sessions_untouched afterLeaveAndExpire "c1" "ABC123" "XYZ789" "Alice" ⟨1, 2⟩ .null []
      .undefined (by decide)).1,
    by
      rw [(other_sessions_untouched afterLeaveAndExpire "c4" "ABC123" "XYZ789" "Alice" ⟨1, 2⟩
        .null [] .undefined (by decide)).2.2.2.2]
      decide⟩

/-- C26 fails as stated: Bob's leaveGame with the text c2 as `playerId` removes
him and tells Alice that she won; the same event with an object that has a
`toString` field as `playerId` throws on line 121 and removes nobody. -/
theorem leave_outcome_depends_on_player_id :
    leaveGameRaw afterThreeJoins "c2" "ABC123" (.str "c2")
      = .done afterBobLeftLive
          [{ target := .room "c1",
             msg := .playerExplicitlyLeft "c2" "Alice" "Opponent left the game" }] ∧
    leaveGameRaw afterThreeJoins "c2" "ABC123" (.obj [("toString", "1")])
      = .threw .notConvertible ∧
    leaveGameRaw afterThreeJoins "c2" "ABC123" (.str "c2")
      ≠ leaveGameRaw afterThreeJoins "c2" "ABC123" (.obj [("toString", "1")]) := by
  decide

/-- C26, amended: leaveGame ends the same way (same state and same events, or
the same exception) for any two `playerId` values that can both be converted to
text, and throws on line 121 for one that cannot; whenever it runs to its end,
every roster entry of the session whose connection id differs from the sender's
is still in the roster, and no other session is touched. -/
theorem leave_depends_on_player_id_by_conversion_only (st : State) (sock sid : String)
    (p₁ p₂ : JSVal) (h₁ : p₁.printable = true) (h₂ : p₂.printable = true) :
    leaveGameRaw st sock sid p₁ = leaveGameRaw st sock sid p₂ ∧
    (∀ p, p.printable = false → leaveGameRaw st sock sid p = .threw .notConvertible) ∧
    (∀ p st' out, leaveGameRaw st sock sid p = .done st' out →
      (∀ q ∈ rosterAt st.sessions sid, q.id ≠ sock → q ∈ rosterAt st'.sessions sid) ∧
      (∀ k, k ≠ sid → st'.sessions.get? k = st.sessions.get? k)) := by
  refine ⟨by simp only [leaveGameRaw, h₁, h₂],
    fun p hp => leaveGameRaw_of_unprintable st sock sid p hp, ?_⟩
  intro p st' out hdone
  have he := leaveGameRaw_done st st' sock sid p out hdone
  have hst : st' = (onLeaveGame st sock sid p).1 := by rw [← he]
  rw [hst]
  refine ⟨?_, fun k hk => removeConnection_get?_of_ne _ _ _ _ _ hk⟩
  intro q hq hne
  simp only [onLeaveGame, rosterAt_removeConnection_filter]
  exact List.mem_filter.mpr ⟨hq, by simpa using hne⟩

/-- The amended C26 for Bob's leaveGame with a text and with no `playerId`. -/
theorem leave_depends_on_player_id_by_conversion_only_witness :
    (JSVal.str "c2").printable = true ∧ JSVal.undefined.printable = true ∧
    leaveGameRaw afterThreeJoins "c2" "ABC123" (.str "c2")
      = leaveGameRaw afterThreeJoins "c2" "ABC123" .undefined :=
  ⟨by decide, by decide,
    (leave_depends_on_player_id_by_conversion_only afterThreeJoins "c2" "ABC123" (.str "c2")
      .undefined (by decide) (by decide)).1⟩

/-- C27: the state after a move or an updateGameState event is the same for any
two sending connections, be they in the roster or not; for an existing session
the snapshot is written for every sender: updateGameState stores the merge of
the old snapshot and the payload, move stores the six fields of the payload. -/
theorem snapshot_write_ignores_sender (st : State) (c₁ c₂ sid : String) (move : JSVal)
    (gameState : GameState) :
    (onMove st c₁ sid move gameState).1 = (onMove st c₂ sid move gameState).1 ∧
    (clientOk st c₁ sid = true → clientOk st c₂ sid = true →
      (step st (.move c₁ sid move gameState)).map Prod.fst
        = (step st (.move c₂ sid move gameState)).map Prod.fst ∧
      (step st (.updateGameState c₁ sid gameState)).map Prod.fst
        = (step st (.updateGameState c₂ sid gameState)).map Prod.fst) ∧
    (∀ s, st.sessions.get? sid = some s →
      getGameState (onUpdateGameState st sid gameState).1.sessions sid
        = GameState.spread s.gameState gameState ∧
      ∀ k, k ∈ moveFields →
        (getGameState (onMove st c₁ sid move gameState).1.sessions sid).get k
          = GameState.get gameState k) := by
  refine ⟨rfl, ?_, ?_⟩
  · intro h1 h2
    simp [step, h1, h2, onMove]
  · intro s hs
    constructor
    · simp [onUpdateGameState, updateGameState, hs, getGameState, Store.get?_set_self]
    · intro k hk
      obtain ⟨s', hget, _, _, hsix, _⟩ := move_overwrites_six_fields st c₁ sid move gameState s hs
      simp only [getGameState, hget]
      exact hsix k hk

end ChessServer

/-! ## The client claims -/

namespace ChessClient

theorem handlePromotion_eq_handleMove (chess : Oracle) (color : Side) :
    handlePromotion chess color = handleMove chess color := rfl

/-- Where the sent and the stored fields agree: the game is over, and a
checkmate comes with no draw answer. -/
theorem terminal_fields_agree (chess : Oracle) (color : Side)
    (hover : chess.isGameOver = true)
    (hmate : chess.isCheckmate = true → chess.isStalemate = false ∧
      chess.isThreefoldRepetition = false ∧ chess.isInsufficientMaterial = false ∧
      chess.isDraw = false) :
    handleMove chess color = completeMove chess color := by
  obtain ⟨g, m, s, t, i, d⟩ := chess
  simp only at hover hmate
  subst hover
  cases m <;> cases s <;> cases t <;> cases i <;> cases d <;>
    simp_all [handleMove, completeMove]

/-- C28 (the code breaks it): for a checkmate delivered on the hundredth half-move
without capture or pawn move, chess.js answers `isCheckmate()` and `isDraw()` with
true.  `completeMove` stores winner "White" and no draw reason (its `else if`
chain stops at the checkmate); `handleMove` and `handlePromotion` send winner
"White" together with the draw reason "50-move rule". -/
theorem sent_draw_reason_differs_from_local :
    completeMove mateOnMoveHundred .w
      = { gameOver := true, winner := some "White", drawReason := none } ∧
    handleMove mateOnMoveHundred .w
      = { gameOver := true, winner := some "White", drawReason := some "50-move rule" } ∧
    handlePromotion mateOnMoveHundred .w
      = { gameOver := true, winner := some "White", drawReason := some "50-move rule" } ∧
    handleMove mateOnMoveHundred .w ≠ completeMove mateOnMoveHundred .w := by
  decide

/-- C29 (the code breaks it): for the draw 0.5 `toString(36)` prints `0.i`, so
`substring(2, 8)` has one character and the id is `I`, which `handleJoin`
rejects; for the draw 0 the id is empty.  In general the id has
`min 6 (length - 2)` characters, six only when at least six digits were
printed. -/
theorem half_gives_one_character_id :
    toString36 1 1 = some ['0', '.', 'i'] ∧
    generateSessionId ['0', '.', 'i'] = ['I'] ∧
    (generateSessionId ['0', '.', 'i']).length = 1 ∧
    handleJoin false (generateSessionId ['0', '.', 'i']) = .badSessionId ∧
    toString36 0 0 = some ['0'] ∧ generateSessionId ['0'] = [] ∧
    ∀ printed : List Char,
      (generateSessionId printed).length = min 6 (printed.length - 2) := by
  refine ⟨by decide, by decide, by decide, by decide, by decide, by decide, ?_⟩
  intro printed
  simp [generateSessionId, substring]

set_option maxRecDepth 4000 in
/-- C30: for row and column in 0..7, `getSquareNotation` returns the two
characters file (`a` + column) and rank (`8` - row); the parse of ChessBoard
gives back row and column, so the function is injective on the 64 squares; and
the copy in ChessBoard returns the same text as the one in GamePage. -/
theorem square_notation_roundtrip (row col : Nat) (hrow : row < 8) (hcol : col < 8) :
    GamePage.getSquareNotation row col
      = String.mk [Char.ofNat (97 + col), Char.ofNat (56 - row)] ∧
    (GamePage.getSquareNotation row col).length = 2 ∧
    parseSquare (GamePage.getSquareNotation row col) = ((row : Int), (col : Int)) ∧
    ChessBoard.getSquareNotation row col = GamePage.getSquareNotation row col ∧
    ∀ row' col', row' < 8 → col' < 8 →
      GamePage.getSquareNotation row' col' = GamePage.getSquareNotation row col →
        row' = row ∧ col' = col := by
  have hparse : ∀ r < 8, ∀ c < 8,
      parseSquare (GamePage.getSquareNotation r c) = ((r : Int), (c : Int)) := by
    decide
  have hform : ∀ r < 8, ∀ c < 8,
      GamePage.getSquareNotation r c = String.mk [Char.ofNat (97 + c), Char.ofNat (56 - r)] := by
    decide
  have hlen : ∀ r < 8, ∀ c < 8, (GamePage.getSquareNotation r c).length = 2 := by
    decide
  refine ⟨hform row hrow col hcol, hlen row hrow col hcol, hparse row hrow col hcol, rfl, ?_⟩
  · intro row' col' hr' hc' heq
    have h1 := hparse row' hr' col' hc'
    rw [heq, hparse row hrow col hcol] at h1
    injection h1 with h2 h3
    exact ⟨by exact_mod_cast h2.symm, by exact_mod_cast h3.symm⟩

/-- The statement of C30 for the square e2 (row 6, column 4). -/
theorem square_notation_roundtrip_witness :
    GamePage.getSquareNotation 6 4 = "e2" ∧ parseSquare "e2" = (6, 4) :=
  ⟨by decide,
    by
      have h := (square_notation_roundtrip 6 4 (by decide) (by decide)).2.2.1
      rw [show GamePage.getSquareNotation 6 4 = "e2" from by decide] at h
      exact h⟩

end ChessClient
